import Mathlib

/-!
# Geometric feature pipeline of `EmotionAnalyzer`

A shallow embedding of `cpp_test/src/emotion_analyzer.cpp`:
`procrustesStandardization`, `loadFrontalizationModel` (fallback branch),
`frontalizeLandmarks`, `calculateDistance`, `calculateScale` and
`extractGeometricFeatures`.

The C++ code computes in `float`.  The embedding is written once over an
arbitrary number type `α` that carries the operations the code uses (`+`, `-`,
`*`, `/`, comparisons, literals), with the four library functions the code calls
(`std::sqrt`, `std::atan`, `std::cos`, `std::sin`) passed in as a record, so every
definition is an ordinary computable function.  Two instances are used:

* `α := ℝ` with the record `realFns`, for statements that read the arithmetic as
  exact real arithmetic;
* `α := F32` with the record `binary32Fns`, a model of IEEE 754 binary32 with
  round-to-nearest-even, infinities and NaN, for statements about the `float`
  program itself.
-/

namespace EmotionAnalyzer

/-- The `cv::Point2f` of the source: a pair of coordinates. -/
structure Point2f (α : Type) where
  x : α
  y : α
deriving DecidableEq

/-- The `<cmath>` functions used by the source. -/
structure MathFns (α : Type) where
  sqrt : α → α
  atan : α → α
  cos : α → α
  sin : α → α

/-- The `<cmath>` functions read as the exact real functions. -/
noncomputable def realFns : MathFns ℝ :=
  { sqrt := Real.sqrt, atan := Real.arctan, cos := Real.cos, sin := Real.sin }

section Defs

variable {α : Type} [Zero α] [One α] [NatCast α] [OfScientific α] [Add α] [Sub α] [Mul α]
  [Div α] [Neg α] [LT α] [LE α] [Min α] [Max α] [DecidableEq α]
  [DecidableRel (fun a b : α => a < b)] [DecidableRel (fun a b : α => a ≤ b)]

/-! ## `procrustesStandardization` (emotion_analyzer.cpp, lines 762-863) -/

/-- Lines 772-778: `centroid`, the accumulated sum of all points divided by
`landmarks.size()`. -/
def centroid (landmarks : List (Point2f α)) : Point2f α :=
  let sx := landmarks.foldl (fun acc point => acc + point.x) 0
  let sy := landmarks.foldl (fun acc point => acc + point.y) 0
  ⟨sx / (landmarks.length : α), sy / (landmarks.length : α)⟩

/-- Lines 770-785: `landmarks_standard` after step 1 (translation). -/
def centered (landmarks : List (Point2f α)) : List (Point2f α) :=
  let c := centroid landmarks
  landmarks.map (fun point => ⟨point.x - c.x, point.y - c.y⟩)

/-- Lines 794-797: `sum_squared_distances` accumulated over a point list. -/
def sumSquaredDistances (pts : List (Point2f α)) : α :=
  pts.foldl (fun acc point => acc + (point.x * point.x + point.y * point.y)) 0

/-- Line 798: `scale = sqrt(sum_squared_distances / landmarks.size())`, computed
on the centred landmarks. -/
def procrustesScale (m : MathFns α) (landmarks : List (Point2f α)) : α :=
  m.sqrt (sumSquaredDistances (centered landmarks) / (landmarks.length : α))

/-- Lines 802-807: `landmarks_standard` after step 2 (scaling, skipped unless
`scale > 0`). -/
def scaled (m : MathFns α) (landmarks : List (Point2f α)) : List (Point2f α) :=
  let scale := procrustesScale m landmarks
  if scale > 0 then
    (centered landmarks).map (fun point => ⟨point.x / scale, point.y / scale⟩)
  else
    centered landmarks

/-- Lines 817-833: the centre of the six landmarks `start .. start+5`
(`start = 36` gives `center_eye_left`, `start = 42` gives `center_eye_right`).
The source indexes a vector of size 68, so every access is in bounds. -/
def eyeCenter (pts : List (Point2f α)) (start : Nat) : Point2f α :=
  let sx := (List.range' start 6).foldl (fun acc i => acc + (pts.getD i ⟨0, 0⟩).x) 0
  let sy := (List.range' start 6).foldl (fun acc i => acc + (pts.getD i ⟨0, 0⟩).y) 0
  ⟨sx / 6, sy / 6⟩

/-- Line 839: `dx = center_eye_right.x - center_eye_left.x`. -/
def eyeDx (pts : List (Point2f α)) : α :=
  (eyeCenter pts 42).x - (eyeCenter pts 36).x

/-- Line 840: `dy = center_eye_right.y - center_eye_left.y`. -/
def eyeDy (pts : List (Point2f α)) : α :=
  (eyeCenter pts 42).y - (eyeCenter pts 36).y

/-- Lines 854-859: the rotation applied to every point. -/
def rotatePoints (cos_a sin_a : α) (pts : List (Point2f α)) : List (Point2f α) :=
  pts.map (fun point =>
    ⟨point.x * cos_a + point.y * sin_a, -point.x * sin_a + point.y * cos_a⟩)

/-- `EmotionAnalyzer::procrustesStandardization`. -/
def procrustesStandardization (m : MathFns α) (landmarks : List (Point2f α)) :
    List (Point2f α) :=
  if landmarks.length ≠ 68 then
    landmarks
  else
    let landmarks_standard := scaled m landmarks
    let dx := eyeDx landmarks_standard
    let dy := eyeDy landmarks_standard
    if dx ≠ 0 then
      let angle := m.atan (dy / dx)
      let cos_a := m.cos angle
      let sin_a := m.sin angle
      rotatePoints cos_a sin_a landmarks_standard
    else
      landmarks_standard

/-! ## `loadFrontalizationModel`, fallback branch (lines 198-209) -/

/-- Lines 201-206 (the branch compiled when no `.npy` loader is available):
`resize(137 * 136, 0.0f)` on the empty member vector, then
`frontalization_weights_[i * 137 + i] = 1.0f` for `i = 0 .. 135`. -/
def fallbackWeights : List α :=
  (List.range 136).foldl (fun w i => w.set (i * 137 + i) 1) (List.replicate (137 * 136) 0)

/-! ## `frontalizeLandmarks` (lines 332-400) -/

/-- Lines 351-365: `feature_vector`, all x, then all y, then the intercept. -/
def featureVector (standardized : List (Point2f α)) : List α :=
  standardized.map (fun point => point.x) ++ standardized.map (fun point => point.y) ++ [1]

/-- Lines 372-378: entry `i` of `frontal_vector`, accumulated from `0` over
`j = 0 .. 136`. -/
def frontalEntry (weights feature_vector : List α) (i : Nat) : α :=
  (List.range 137).foldl
    (fun acc j => acc + feature_vector.getD j 0 * weights.getD (j * 136 + i) 0) 0

/-- Lines 370-378: `frontal_vector`, 136 entries. -/
def frontalVector (weights feature_vector : List α) : List α :=
  (List.range 136).map (frontalEntry weights feature_vector)

/-- `EmotionAnalyzer::frontalizeLandmarks`; the member `frontalization_weights_`
is the first argument. -/
def frontalizeLandmarks (m : MathFns α) (frontalization_weights : List α)
    (landmarks : List (Point2f α)) : List (Point2f α) :=
  if landmarks.length ≠ 68 ∨ frontalization_weights = [] then
    landmarks
  else
    let standardized := procrustesStandardization m landmarks
    let feature_vector := featureVector standardized
    let frontal_vector := frontalVector frontalization_weights feature_vector
    (List.range 68).map (fun i =>
      ⟨frontal_vector.getD i 0, frontal_vector.getD (i + 68) 0⟩)

/-! ## `extractGeometricFeatures` (lines 402-512, 693-695) -/

/-- `EmotionAnalyzer::calculateDistance`. -/
def calculateDistance (m : MathFns α) (p1 p2 : Point2f α) : α :=
  m.sqrt ((p1.x - p2.x) * (p1.x - p2.x) + (p1.y - p2.y) * (p1.y - p2.y))

/-- `EmotionAnalyzer::calculateScale`. -/
def calculateScale (m : MathFns α) (landmarks : List (Point2f α))
    (landmark_indices : List Nat) : α :=
  if landmark_indices = [] then
    1
  else
    let sx := landmark_indices.foldl
      (fun acc idx => if idx < landmarks.length then acc + (landmarks.getD idx ⟨0, 0⟩).x else acc) 0
    let sy := landmark_indices.foldl
      (fun acc idx => if idx < landmarks.length then acc + (landmarks.getD idx ⟨0, 0⟩).y else acc) 0
    let mean_x := sx / (landmark_indices.length : α)
    let mean_y := sy / (landmark_indices.length : α)
    let sum_squared_distances := landmark_indices.foldl
      (fun acc idx =>
        if idx < landmarks.length then
          let dx := (landmarks.getD idx ⟨0, 0⟩).x - mean_x
          let dy := (landmarks.getD idx ⟨0, 0⟩).y - mean_y
          acc + (dx * dx + dy * dy)
        else acc) 0
    let mean_squared_distance := sum_squared_distances / (landmark_indices.length : α)
    m.sqrt mean_squared_distance

/-- Lines 417-433: `feature_landmark_indices`. -/
def featureLandmarkIndices (full_features : Bool) : List Nat :=
  if full_features then List.range 68 else List.range 51

/-- Lines 417-433: `scale_landmark_indices`. -/
def scaleLandmarkIndices (full_features : Bool) : List Nat :=
  if full_features then List.range 68 else List.range' 17 51

/-- Lines 440-460: the inner loop over `j = i + 1 ..`, pushing onto `features`. -/
def featuresInner (m : MathFns α) (landmarks : List (Point2f α)) (idxs : List Nat)
    (scale : α) (features : List α) (i : Nat) : List α :=
  (List.range' (i + 1) (idxs.length - (i + 1))).foldl
    (fun acc j =>
      let idx1 := idxs.getD i 0
      let idx2 := idxs.getD j 0
      if idx1 < landmarks.length ∧ idx2 < landmarks.length then
        acc ++ [calculateDistance m (landmarks.getD idx1 ⟨0, 0⟩) (landmarks.getD idx2 ⟨0, 0⟩) / scale]
      else acc)
    features

/-- `EmotionAnalyzer::extractGeometricFeatures`; the member `full_features_` is
the second argument. -/
def extractGeometricFeatures (m : MathFns α) (full_features : Bool)
    (landmarks : List (Point2f α)) : List α :=
  if landmarks.length < 68 then
    []
  else
    let feature_landmark_indices := featureLandmarkIndices full_features
    let scale_landmark_indices := scaleLandmarkIndices full_features
    let scale := calculateScale m landmarks scale_landmark_indices
    (List.range feature_landmark_indices.length).foldl
      (featuresInner m landmarks feature_landmark_indices scale) []

/-! ## `aviToEmotionName` (lines 566-691)

The macro `M_PI` is an argument of the embedding; statements over exact reals
pass `Real.pi`.  The `float` literals `0.1f`, `0.325f`, ... are decimal literals of
the number type: over the reals the decimal number itself, in `F32` the nearest
binary32 value. -/

/-- Lines 570-572: `ls_expr_intensity`. -/
def ls_expr_intensity : List String :=
  ["Slightly", "Moderately", "Very", "Extremely"]

/-- Lines 574-585: `ls_expr_name`. -/
def ls_expr_name : List String :=
  ["pleased", "happy", "delighted", "excited", "astonished", "aroused",
   "tensed", "alarmed", "afraid", "annoyed", "distressed", "frustrated", "miserable",
   "sad", "gloomy", "depressed", "bored", "droopy", "tired", "sleepy",
   "calm", "serene", "content", "satisfied"]

/-- Lines 590-593: the value of `intensity` after `if (intensity < 0)`. -/
def effectiveIntensity (m : MathFns α) (arousal valence intensity : α) : α :=
  if intensity < 0 then m.sqrt (arousal * arousal + valence * valence) else intensity

/-- Lines 601-609: `expression_intensity` chosen by threshold. -/
def intensityQualifier (intensity : α) : String :=
  if intensity < 0.325 then ls_expr_intensity.getD 0 ""
  else if intensity < 0.55 then ls_expr_intensity.getD 1 ""
  else if intensity < 0.775 then ls_expr_intensity.getD 2 ""
  else ls_expr_intensity.getD 3 ""

/-- Lines 612-628: `theta`. -/
def computeTheta (m : MathFns α) (M_PI : α) (arousal valence : α) : α :=
  if valence = 0 then
    if arousal ≥ 0 then 90 else 270
  else
    let theta := m.atan (arousal / valence)
    let theta := theta * (180 / M_PI)
    if valence < 0 then 180 + theta
    else if arousal < 0 then 360 + theta
    else theta

/-- Lines 631-682: the pair `(expression_intensity, expression_name)` after the
chain of comparisons on `theta`; the final `else` clears the qualifier. -/
def selectExpression (expression_intensity : String) (theta : α) : String × String :=
  if theta < 16 ∨ theta > 354 then (expression_intensity, ls_expr_name.getD 0 "")
  else if theta < 34 then (expression_intensity, ls_expr_name.getD 1 "")
  else if theta < 62.5 then (expression_intensity, ls_expr_name.getD 2 "")
  else if theta < 78.5 then (expression_intensity, ls_expr_name.getD 3 "")
  else if theta < 93 then (expression_intensity, ls_expr_name.getD 4 "")
  else if theta < 104 then (expression_intensity, ls_expr_name.getD 5 "")
  else if theta < 115 then (expression_intensity, ls_expr_name.getD 6 "")
  else if theta < 126 then (expression_intensity, ls_expr_name.getD 7 "")
  else if theta < 137 then (expression_intensity, ls_expr_name.getD 8 "")
  else if theta < 148 then (expression_intensity, ls_expr_name.getD 9 "")
  else if theta < 159 then (expression_intensity, ls_expr_name.getD 10 "")
  else if theta < 170 then (expression_intensity, ls_expr_name.getD 11 "")
  else if theta < 181 then (expression_intensity, ls_expr_name.getD 12 "")
  else if theta < 192 then (expression_intensity, ls_expr_name.getD 13 "")
  else if theta < 203 then (expression_intensity, ls_expr_name.getD 14 "")
  else if theta < 215 then (expression_intensity, ls_expr_name.getD 15 "")
  else if theta < 230 then (expression_intensity, ls_expr_name.getD 16 "")
  else if theta < 245 then (expression_intensity, ls_expr_name.getD 17 "")
  else if theta < 260 then (expression_intensity, ls_expr_name.getD 18 "")
  else if theta < 280 then (expression_intensity, ls_expr_name.getD 19 "")
  else if theta < 300 then (expression_intensity, ls_expr_name.getD 20 "")
  else if theta < 320 then (expression_intensity, ls_expr_name.getD 21 "")
  else if theta < 340 then (expression_intensity, ls_expr_name.getD 22 "")
  else if theta < 354 then (expression_intensity, ls_expr_name.getD 23 "")
  else ("", "Unknown")

/-- Lines 686-690: the returned string, built from `expression_intensity` and
`expression_name`. -/
def combineExpression (r : String × String) : String :=
  if r.1.isEmpty then r.2 else r.1 ++ " " ++ r.2

/-- `EmotionAnalyzer::aviToEmotionName`; a call that omits `intensity` passes the
default `-1` declared in the header. -/
def aviToEmotionName (m : MathFns α) (M_PI : α) (arousal valence intensity : α) : String :=
  let intensity := effectiveIntensity m arousal valence intensity
  combineExpression
    (if intensity < 0.1 then ("", "Neutral")
     else selectExpression (intensityQualifier intensity) (computeTheta m M_PI arousal valence))

/-! ## `analyzeEmotion` (lines 228-284)

Detection and inference are external: the detector output `raw_landmarks` and the
inference function `predictWithONNX` are arguments, and so is `std::round`. -/

/-- The `EmotionResult` of `emotion_analyzer.h`. -/
structure EmotionResult (α : Type) where
  arousal : α
  valence : α
  intensity : α
  emotion_name : String

/-- Lines 229-233: the initial value of `result`. -/
def defaultResult : EmotionResult α :=
  { arousal := 0, valence := 0, intensity := 0, emotion_name := "neutral" }

/-- Lines 262-266: the limits applied to arousal and to valence. -/
def applyLimits (x : α) : α :=
  if x > 1 then 1 else if x < -1 then -1 else x

/-- `EmotionAnalyzer::analyzeEmotion`, from the detector output on. -/
def analyzeEmotion (m : MathFns α) (M_PI : α) (round : α → α)
    (frontalization_weights : List α) (full_features : Bool)
    (predictWithONNX : List α → List α) (raw_landmarks : List (Point2f α)) :
    EmotionResult α :=
  if raw_landmarks.isEmpty then
    defaultResult
  else
    let frontal_landmarks := frontalizeLandmarks m frontalization_weights raw_landmarks
    let features := extractGeometricFeatures m full_features frontal_landmarks
    if features.isEmpty then
      defaultResult
    else
      let prediction := predictWithONNX features
      if prediction.length ≥ 2 then
        let arousal := applyLimits (prediction.getD 0 0)
        let valence := applyLimits (prediction.getD 1 0)
        let intensity := m.sqrt (valence * valence + arousal * arousal)
        let intensity := if intensity > 1 then 1 else if intensity < 0 then 0 else intensity
        let intensity := round (intensity * 1000) / 1000
        { arousal := arousal, valence := valence, intensity := intensity,
          emotion_name := aviToEmotionName m M_PI arousal valence intensity }
      else
        defaultResult

/-! ## `FacialLandmarks` (facial_landmarks.cpp) -/

/-- Line 5: `FacialLandmarks::JAW_LINE_INDICES`. -/
def JAW_LINE_INDICES : List Nat := [0, 1, 2, 3, 4, 5, 6, 7, 8, 9, 10, 11, 12, 13, 14, 15, 16]

/-- Line 6: `FacialLandmarks::RIGHT_EYEBROW_INDICES`. -/
def RIGHT_EYEBROW_INDICES : List Nat := [17, 18, 19, 20, 21]

/-- Line 7: `FacialLandmarks::LEFT_EYEBROW_INDICES`. -/
def LEFT_EYEBROW_INDICES : List Nat := [22, 23, 24, 25, 26]

/-- Line 8: `FacialLandmarks::NOSE_INDICES`. -/
def NOSE_INDICES : List Nat := [27, 28, 29, 30, 31, 32, 33, 34, 35]

/-- Line 9: `FacialLandmarks::RIGHT_EYE_INDICES`. -/
def RIGHT_EYE_INDICES : List Nat := [36, 37, 38, 39, 40, 41]

/-- Line 10: `FacialLandmarks::LEFT_EYE_INDICES`. -/
def LEFT_EYE_INDICES : List Nat := [42, 43, 44, 45, 46, 47]

/-- Line 11: `FacialLandmarks::MOUTH_INDICES`. -/
def MOUTH_INDICES : List Nat :=
  [48, 49, 50, 51, 52, 53, 54, 55, 56, 57, 58, 59, 60, 61, 62, 63, 64, 65, 66, 67]

/-- Lines 131-157: the seven accessors `getJawLineIndices` .. `getMouthIndices`, in
the order of the header; each returns its constant. -/
def regionIndexLists : List (List Nat) :=
  [JAW_LINE_INDICES, RIGHT_EYEBROW_INDICES, LEFT_EYEBROW_INDICES, NOSE_INDICES,
   RIGHT_EYE_INDICES, LEFT_EYE_INDICES, MOUTH_INDICES]

/-- Lines 56-64 of `FacialLandmarks::normalizeLandmarks`: the bounding box
`(min_x, max_x, min_y, max_y)`, started at `landmarks[0]`. -/
def boundingBox (first : Point2f α) (landmarks : List (Point2f α)) : α × α × α × α :=
  landmarks.foldl
    (fun b point => (min b.1 point.x, max b.2.1 point.x, min b.2.2.1 point.y,
      max b.2.2.2 point.y))
    (first.x, first.x, first.y, first.y)

/-- `FacialLandmarks::normalizeLandmarks` (lines 50-86). -/
def normalizeLandmarks (landmarks : List (Point2f α)) : List (Point2f α) :=
  match landmarks with
  | [] => landmarks
  | first :: _ =>
    let b := boundingBox first landmarks
    let min_x := b.1
    let max_x := b.2.1
    let min_y := b.2.2.1
    let max_y := b.2.2.2
    let width := max_x - min_x
    let height := max_y - min_y
    let scale := max width height
    if scale = 0 then
      landmarks
    else
      let center : Point2f α := ⟨(min_x + max_x) / 2, (min_y + max_y) / 2⟩
      landmarks.map (fun point =>
        ⟨(point.x - center.x) / (scale / 2), (point.y - center.y) / (scale / 2)⟩)

/-! ## Specification-side objects -/

/-- The row vector `v = [x_0..x_67, y_0..y_67, 1]` of the specification, entry `j`. -/
def specRowVector (S : List (Point2f α)) (j : Nat) : α :=
  if j < 68 then (S.getD j ⟨0, 0⟩).x
  else if j < 136 then (S.getD (j - 68) ⟨0, 0⟩).y
  else 1

/-- The 137x136 identity-like matrix of the specification in row-major order:
entry `(j, i)` is `1` when `i = j` and `0` otherwise; row 136 is all zero. -/
def identityLikeWeights : List α :=
  (List.range (137 * 136)).map (fun k => if k / 136 = k % 136 then 1 else 0)

/-- The pairwise features of the specification for a feature subset `0 .. k-1`:
all pairs `i < j < k`, `i` outer and `j` inner, both ascending, each the
Euclidean distance of landmarks `i` and `j` divided by `scale`. -/
def pairFeatures (m : MathFns α) (landmarks : List (Point2f α)) (k : Nat) (scale : α) :
    List α :=
  (List.range k).flatMap (fun i =>
    (List.range' (i + 1) (k - (i + 1))).map (fun j =>
      calculateDistance m (landmarks.getD i ⟨0, 0⟩) (landmarks.getD j ⟨0, 0⟩) / scale))

/-- The upper bounds of the 24 angle bins of the specification, in table order. -/
def binUpper : List α :=
  [16, 34, 62.5, 78.5, 93, 104, 115, 126, 137, 148, 159, 170,
   181, 192, 203, 215, 230, 245, 260, 280, 300, 320, 340, 354]

/-- Bin `k` of the specification: the first bin is `theta < 16 or theta > 354`,
bin `k >= 1` is the half-open interval from the previous upper bound to its own. -/
def inBin (k : Nat) (theta : α) : Prop :=
  if k = 0 then theta < 16 ∨ theta > 354
  else binUpper.getD (k - 1) 0 ≤ theta ∧ theta < binUpper.getD k 0

/-- The landmark sequence `c*L + t`: every point scaled by `c` and translated by
`t`. -/
def affineImage (c : α) (t : Point2f α) (L : List (Point2f α)) : List (Point2f α) :=
  L.map (fun p => ⟨c * p.x + t.x, c * p.y + t.y⟩)

/-! ## Sample inputs -/

/-- A 68-point set whose eye centres are stacked vertically: landmarks 8..41 at
`(0,-1)`, all others at `(0,1)`. -/
def verticalEyesFace : List (Point2f α) :=
  List.replicate 8 ⟨0, 1⟩ ++ List.replicate 34 ⟨0, -1⟩ ++ List.replicate 26 ⟨0, 1⟩

/-- A 68-point set whose eye centres lie on a horizontal line: landmarks 8..41 at
`(-1,0)`, all others at `(1,0)`. -/
def levelEyesFace : List (Point2f α) :=
  List.replicate 8 ⟨1, 0⟩ ++ List.replicate 34 ⟨-1, 0⟩ ++ List.replicate 26 ⟨1, 0⟩

/-- A degenerate 68-point set: every landmark at `(1,1)`. -/
def coincidentFace : List (Point2f α) := List.replicate 68 ⟨1, 1⟩

/-- A 69-point sequence: `levelEyesFace` followed by one more point. -/
def longFace : List (Point2f α) := levelEyesFace ++ [⟨0, 0⟩]

/-- The set `levelEyesFace` with landmarks 0..7 moved from `(1,0)` to `(7,7)`. -/
def movedJawFace : List (Point2f α) :=
  List.replicate 8 ⟨7, 7⟩ ++ List.replicate 34 ⟨-1, 0⟩ ++ List.replicate 26 ⟨1, 0⟩

end Defs

section ExactDefs

variable {α : Type} [LinearOrderedField α]

/-! ## Specification-side objects over an ordered field -/

/-- The scale of the specification over a landmark subset: the square root of the
mean squared distance of the subset points to their own centroid. -/
def specScale (m : MathFns α) (landmarks : List (Point2f α)) (idxs : List Nat) : α :=
  let mean_x := (idxs.map (fun i => (landmarks.getD i ⟨0, 0⟩).x)).sum / (idxs.length : α)
  let mean_y := (idxs.map (fun i => (landmarks.getD i ⟨0, 0⟩).y)).sum / (idxs.length : α)
  m.sqrt ((idxs.map (fun i =>
      ((landmarks.getD i ⟨0, 0⟩).x - mean_x) ^ 2
        + ((landmarks.getD i ⟨0, 0⟩).y - mean_y) ^ 2)).sum / (idxs.length : α))

/-! ## Sums used to state and prove the properties -/

/-- The x-sum of a point list. -/
def sumX (pts : List (Point2f α)) : α := (pts.map (fun p => p.x)).sum

/-- The y-sum of a point list. -/
def sumY (pts : List (Point2f α)) : α := (pts.map (fun p => p.y)).sum

/-- The sum of squared radii of a point list. -/
def sumSq (pts : List (Point2f α)) : α := (pts.map (fun p => p.x * p.x + p.y * p.y)).sum

end ExactDefs

/-! ## IEEE 754 binary32

The `float` of the source.  A finite value is the rational number it denotes;
every operation computes the exact result and rounds it to the nearest
representable value, a tie going to the even significand.  Each `+`, `-`, `*`,
`/` of the source is one rounded operation: no fused multiply-add and no excess
precision, as with SSE arithmetic on x86-64. -/

/-- The values of a C++ `float` (IEEE 754 binary32): a finite value, given as the
rational number it denotes, an infinity with its sign, or NaN.  The sign of a
zero is not tracked.  Equality of this type is equality of values; it agrees
with the `==` of IEEE 754 whenever one side is not NaN, which covers every
`== 0` and `!= 0` of the source. -/
inductive F32 where
  | fin (q : ℚ)
  | inf (negative : Bool)
  | nan
deriving DecidableEq

/-- The integer nearest to `n / d` (for `d > 0`), a tie going to the even one. -/
def roundHalfEven (n d : Nat) : Nat :=
  if 2 * (n % d) < d then n / d
  else if d < 2 * (n % d) then n / d + 1
  else if (n / d) % 2 = 0 then n / d
  else n / d + 1

/-- The number of times `n` can be halved before it drops below `2`, at most
`fuel` times. -/
def log2Loop : Nat → Nat → Nat
  | 0, _ => 0
  | fuel + 1, n => if 2 ≤ n then log2Loop fuel (n / 2) + 1 else 0

/-- The integer `e` with `2^e ≤ n < 2^(e+1)` (for `n > 0`). -/
def log2 (n : Nat) : Nat :=
  log2Loop n n

/-- The integer `e` with `2^e ≤ n / d < 2^(e+1)` (for `n, d > 0`). -/
def floorLog2 (n d : Nat) : Int :=
  if log2 d ≤ log2 n then
    if d * 2 ^ (log2 n - log2 d) ≤ n then ((log2 n - log2 d : Nat) : Int)
    else ((log2 n - log2 d : Nat) : Int) - 1
  else
    if d ≤ n * 2 ^ (log2 d - log2 n) then -((log2 d - log2 n : Nat) : Int)
    else -((log2 d - log2 n : Nat) : Int) - 1

/-- The value `mant * 2^u` as a rational. -/
def scaleByPow2 (mant : Nat) (u : Int) : ℚ :=
  if 0 ≤ u then ((mant * 2 ^ u.toNat : Nat) : ℚ) else mkRat mant (2 ^ (-u).toNat)

/-- Rounding of a rational to binary32, to nearest with ties to even: 24
significant bits; below exponent -126 the spacing stays `2^-149` (subnormals,
underflow to zero); a result of magnitude `2^128` or more is an infinity. -/
def F32.ofRat (q : ℚ) : F32 :=
  if q = 0 then .fin 0
  else
    let n := q.num.natAbs
    let d := q.den
    let u : Int := max (floorLog2 n d) (-126) - 23
    let mant : Nat :=
      if 0 ≤ u then roundHalfEven n (d * 2 ^ u.toNat) else roundHalfEven (n * 2 ^ (-u).toNat) d
    let mag : ℚ := scaleByPow2 mant u
    if ((2 ^ 128 : Nat) : ℚ) ≤ mag then .inf (decide (q < 0))
    else .fin (if q < 0 then -mag else mag)

/-- The integer square root by bisection on the bits `b - 1, .., 0`: the largest
`r + c` with `c < 2^b` and `(r + c)^2 ≤ n`. -/
def isqrtBits : Nat → Nat → Nat → Nat
  | 0, _, r => r
  | b + 1, n, r => if (r + 2 ^ b) * (r + 2 ^ b) ≤ n then isqrtBits b n (r + 2 ^ b) else isqrtBits b n r

/-- The integer square root `⌊√n⌋`. -/
def isqrt (n : Nat) : Nat :=
  isqrtBits (log2 n / 2 + 1) n 0

/-- The binary32 `std::sqrt`: the correctly rounded square root. -/
def F32.sqrt : F32 → F32
  | .nan => .nan
  | .inf negative => if negative then .nan else .inf false
  | .fin q =>
    if q < 0 then .nan
    else if q = 0 then .fin 0
    else
      let n := q.num.natAbs
      let d := q.den
      let u : Int := floorLog2 n d / 2 - 23
      let num : Nat := if 0 ≤ u then n else n * 4 ^ (-u).toNat
      let den : Nat := if 0 ≤ u then d * 4 ^ u.toNat else d
      let r := isqrt (num / den)
      let mant : Nat := if (2 * r + 1) * (2 * r + 1) * den ≤ 4 * num then r + 1 else r
      .fin (scaleByPow2 mant u)

/-- The binary32 negation. -/
def F32.neg : F32 → F32
  | .fin q => .fin (-q)
  | .inf negative => .inf (!negative)
  | .nan => .nan

/-- The binary32 addition. -/
def F32.add : F32 → F32 → F32
  | .fin a, .fin b => F32.ofRat (a + b)
  | .fin _, .inf t => .inf t
  | .inf s, .fin _ => .inf s
  | .inf s, .inf t => if s = t then .inf s else .nan
  | _, _ => .nan

/-- The binary32 multiplication. -/
def F32.mul : F32 → F32 → F32
  | .fin a, .fin b => F32.ofRat (a * b)
  | .fin a, .inf t => if a = 0 then .nan else .inf (xor (decide (a < 0)) t)
  | .inf s, .fin b => if b = 0 then .nan else .inf (xor s (decide (b < 0)))
  | .inf s, .inf t => .inf (xor s t)
  | _, _ => .nan

/-- The binary32 division; a finite non-zero value divided by zero is an
infinity, `0 / 0` is NaN. -/
def F32.div : F32 → F32 → F32
  | .fin a, .fin b =>
    if b = 0 then (if a = 0 then .nan else .inf (decide (a < 0))) else F32.ofRat (a / b)
  | .fin _, .inf _ => .fin 0
  | .inf s, .fin b => .inf (xor s (decide (b < 0)))
  | .inf _, .inf _ => .nan
  | _, _ => .nan

/-- The binary32 comparison `<`; false when an operand is NaN. -/
def F32.blt : F32 → F32 → Bool
  | .fin a, .fin b => decide (a < b)
  | .fin _, .inf t => !t
  | .inf s, .fin _ => s
  | .inf s, .inf t => s && !t
  | _, _ => false

/-- The binary32 comparison `<=`; false when an operand is NaN. -/
def F32.ble : F32 → F32 → Bool
  | .fin a, .fin b => decide (a ≤ b)
  | .fin _, .inf t => !t
  | .inf s, .fin _ => s
  | .inf s, .inf t => s || !t
  | _, _ => false

instance F32.instZero : Zero F32 := ⟨.fin 0⟩

instance F32.instOne : One F32 := ⟨.fin 1⟩

/-- Conversion of an unsigned integer (`landmarks.size()`, an integer literal) to
`float`. -/
instance F32.instNatCast : NatCast F32 := ⟨fun n => F32.ofRat n⟩

/-- A decimal literal with the suffix `f`: the nearest binary32 value. -/
instance F32.instOfScientific : OfScientific F32 :=
  ⟨fun m s e => F32.ofRat (OfScientific.ofScientific m s e)⟩

instance F32.instNeg : Neg F32 := ⟨F32.neg⟩

instance F32.instAdd : Add F32 := ⟨F32.add⟩

/-- The binary32 subtraction `a - b`, which is `a + (-b)`. -/
instance F32.instSub : Sub F32 := ⟨fun a b => F32.add a (F32.neg b)⟩

instance F32.instMul : Mul F32 := ⟨F32.mul⟩

instance F32.instDiv : Div F32 := ⟨F32.div⟩

instance F32.instLT : LT F32 := ⟨fun a b => F32.blt a b = true⟩

instance F32.instLE : LE F32 := ⟨fun a b => F32.ble a b = true⟩

instance F32.instDecidableLT : DecidableRel (fun a b : F32 => a < b) :=
  fun a b => inferInstanceAs (Decidable (F32.blt a b = true))

instance F32.instDecidableLE : DecidableRel (fun a b : F32 => a ≤ b) :=
  fun a b => inferInstanceAs (Decidable (F32.ble a b = true))

/-- The function `std::min`: `(b < a) ? b : a`. -/
instance F32.instMin : Min F32 := ⟨fun a b => if b < a then b else a⟩

/-- The function `std::max`: `(a < b) ? b : a`. -/
instance F32.instMax : Max F32 := ⟨fun a b => if a < b then b else a⟩

/-- The `<cmath>` functions in binary32.  IEEE 754 fixes `sqrt` (correctly
rounded); `atan`, `cos` and `sin` depend on the library and are parameters. -/
def binary32Fns (atan cos sin : F32 → F32) : MathFns F32 :=
  { sqrt := F32.sqrt, atan := atan, cos := cos, sin := sin }

/-! ## Sample `float` inputs -/

/-- A degenerate 68-point `float` set: every landmark at `(0.1f, 0.1f)`. -/
def tenthFace : List (Point2f F32) := List.replicate 68 ⟨0.1, 0.1⟩

/-- A 68-point `float` set: landmark 17 at `(1e-30f, 0)`, all others at the
origin. -/
def tinyGapFace : List (Point2f F32) :=
  List.replicate 17 ⟨0, 0⟩ ++ [⟨1e-30, 0⟩] ++ List.replicate 50 ⟨0, 0⟩

/-- Two `float` landmarks: `(488.8f, 0)` and `(163.2f, 0)`. -/
def widePair : List (Point2f F32) := [⟨488.8, 0⟩, ⟨163.2, 0⟩]

/-- The standard polar angle of the point `(x, y)` in degrees, normalised into
`[0, 360)`: `atan2(y, x)` is the argument of `x + y i`, in `(-pi, pi]`. -/
noncomputable def polarAngleDeg (x y : ℝ) : ℝ :=
  if Complex.arg ⟨x, y⟩ * (180 / Real.pi) < 0 then Complex.arg ⟨x, y⟩ * (180 / Real.pi) + 360
  else Complex.arg ⟨x, y⟩ * (180 / Real.pi)

/-- The function `std::round` on reals: nearest integer, halves away from zero. -/
noncomputable def stdRound (x : ℝ) : ℝ :=
  if 0 ≤ x then (⌊x + 1 / 2⌋ : ℝ) else (⌈x - 1 / 2⌉ : ℝ)

/-! # Theorems -/

section Lemmas

variable {α : Type} [LinearOrderedField α]

theorem foldl_add_eq_sum {β : Type} (f : β → α) (l : List β) (a : α) :
    l.foldl (fun acc b => acc + f b) a = a + (l.map f).sum := by
  induction l generalizing a with
  | nil => simp
  | cons b l ih => simp [ih, add_assoc]

theorem sum_map_sub_const {β : Type} (f : β → α) (c : α) (l : List β) :
    (l.map (fun b => f b - c)).sum = (l.map f).sum - (l.length : α) * c := by
  induction l with
  | nil => simp
  | cons b l ih => simp [ih]; ring

theorem sum_map_div_const {β : Type} (f : β → α) (c : α) (l : List β) :
    (l.map (fun b => f b / c)).sum = (l.map f).sum / c := by
  induction l with
  | nil => simp
  | cons b l ih => simp [ih]; ring

theorem sum_map_lin {β : Type} (f g : β → α) (c d : α) (l : List β) :
    (l.map (fun b => f b * c + g b * d)).sum = (l.map f).sum * c + (l.map g).sum * d := by
  induction l with
  | nil => simp
  | cons b l ih => simp [ih]; ring

theorem sum_map_nonneg {β : Type} (f : β → α) (hf : ∀ b, 0 ≤ f b) (l : List β) :
    0 ≤ (l.map f).sum := by
  induction l with
  | nil => simp
  | cons b l ih => simp; exact add_nonneg (hf b) ih

theorem sum_map_eq_zero_iff {β : Type} (f : β → α) (hf : ∀ b, 0 ≤ f b) (l : List β) :
    (l.map f).sum = 0 ↔ ∀ b ∈ l, f b = 0 := by
  induction l with
  | nil => simp
  | cons b l ih =>
    simp only [List.map_cons, List.sum_cons, List.mem_cons, forall_eq_or_imp]
    rw [← ih]
    have h1 := hf b
    have h2 := sum_map_nonneg f hf l
    constructor
    · intro h
      constructor <;> linarith
    · rintro ⟨h3, h4⟩
      rw [h3, h4, add_zero]

theorem getD_map_of_lt {β γ : Type} (f : β → γ) (l : List β) (i : Nat) (h : i < l.length)
    (d : γ) (e : β) : (l.map f).getD i d = f (l.getD i e) := by
  simp [List.getD_eq_getElem?_getD, List.getElem?_map, List.getElem?_eq_getElem h]

theorem centroid_eq (L : List (Point2f α)) :
    centroid L = ⟨sumX L / (L.length : α), sumY L / (L.length : α)⟩ := by
  simp [centroid, sumX, sumY, foldl_add_eq_sum]

theorem sumSquaredDistances_eq (L : List (Point2f α)) : sumSquaredDistances L = sumSq L := by
  simp [sumSquaredDistances, sumSq, foldl_add_eq_sum]

theorem length_centered (L : List (Point2f α)) : (centered L).length = L.length := by
  simp [centered]

theorem length_scaled (m : MathFns α) (L : List (Point2f α)) :
    (scaled m L).length = L.length := by
  unfold scaled
  simp only []
  split <;> simp [length_centered]

theorem length_rotatePoints (c s : α) (L : List (Point2f α)) :
    (rotatePoints c s L).length = L.length := by
  simp [rotatePoints]

theorem length_procrustes (m : MathFns α) (L : List (Point2f α)) :
    (procrustesStandardization m L).length = L.length := by
  unfold procrustesStandardization
  simp only []
  split
  · rfl
  · split <;> simp [length_rotatePoints, length_scaled]

theorem sumX_centered (L : List (Point2f α)) (h : L.length ≠ 0) : sumX (centered L) = 0 := by
  have hn : (L.length : α) ≠ 0 := by exact_mod_cast h
  simp only [centered, sumX, List.map_map, Function.comp_def, centroid_eq]
  rw [sum_map_sub_const (fun p : Point2f α => p.x)]
  field_simp

theorem sumY_centered (L : List (Point2f α)) (h : L.length ≠ 0) : sumY (centered L) = 0 := by
  have hn : (L.length : α) ≠ 0 := by exact_mod_cast h
  simp only [centered, sumY, List.map_map, Function.comp_def, centroid_eq]
  rw [sum_map_sub_const (fun p : Point2f α => p.y)]
  field_simp

end Lemmas

section Lemmas2

variable {α : Type} [LinearOrderedField α]

theorem sumSq_nonneg (L : List (Point2f α)) : 0 ≤ sumSq L :=
  sum_map_nonneg _ (fun p => add_nonneg (mul_self_nonneg p.x) (mul_self_nonneg p.y)) L

theorem sumSq_eq_zero_iff (L : List (Point2f α)) :
    sumSq L = 0 ↔ ∀ p ∈ L, p = ⟨0, 0⟩ := by
  unfold sumSq
  rw [sum_map_eq_zero_iff _ (fun p => add_nonneg (mul_self_nonneg p.x) (mul_self_nonneg p.y))]
  constructor
  · intro h p hp
    have h1 := h p hp
    have hx : p.x = 0 := by nlinarith [mul_self_nonneg p.x, mul_self_nonneg p.y]
    have hy : p.y = 0 := by nlinarith [mul_self_nonneg p.x, mul_self_nonneg p.y]
    cases p
    simp_all
  · intro h p hp
    rw [h p hp]
    simp

theorem sumX_map_div (s : α) (L : List (Point2f α)) :
    sumX (L.map (fun point => (⟨point.x / s, point.y / s⟩ : Point2f α))) = sumX L / s := by
  simp only [sumX, List.map_map, Function.comp_def]
  exact sum_map_div_const (fun p : Point2f α => p.x) s L

theorem sumY_map_div (s : α) (L : List (Point2f α)) :
    sumY (L.map (fun point => (⟨point.x / s, point.y / s⟩ : Point2f α))) = sumY L / s := by
  simp only [sumY, List.map_map, Function.comp_def]
  exact sum_map_div_const (fun p : Point2f α => p.y) s L

theorem sumSq_map_div (s : α) (L : List (Point2f α)) :
    sumSq (L.map (fun point => (⟨point.x / s, point.y / s⟩ : Point2f α))) = sumSq L / (s * s) := by
  simp only [sumSq, List.map_map, Function.comp_def]
  rw [← sum_map_div_const (fun p : Point2f α => p.x * p.x + p.y * p.y) (s * s) L]
  congr 1
  apply List.map_congr_left
  intro p _
  by_cases hs : s = 0
  · simp [hs]
  · field_simp

theorem sumX_rotatePoints (c s : α) (L : List (Point2f α)) :
    sumX (rotatePoints c s L) = sumX L * c + sumY L * s := by
  simp only [sumX, sumY, rotatePoints, List.map_map, Function.comp_def]
  exact sum_map_lin (fun p : Point2f α => p.x) (fun p => p.y) c s L

theorem sumY_rotatePoints (c s : α) (L : List (Point2f α)) :
    sumY (rotatePoints c s L) = -sumX L * s + sumY L * c := by
  simp only [sumX, sumY, rotatePoints, List.map_map, Function.comp_def]
  have h := sum_map_lin (fun p : Point2f α => p.x) (fun p => p.y) (-s) c L
  simp only [mul_neg, neg_mul] at h ⊢
  exact h

theorem sumSq_rotatePoints (c s : α) (L : List (Point2f α)) :
    sumSq (rotatePoints c s L) = sumSq L * (c * c + s * s) := by
  simp only [sumSq, rotatePoints, List.map_map, Function.comp_def]
  have h := sum_map_lin (fun p : Point2f α => p.x * p.x + p.y * p.y) (fun _ => 0)
    (c * c + s * s) 0 L
  simp only [mul_zero, add_zero] at h
  rw [← h]
  congr 1
  apply List.map_congr_left
  intro p _
  ring

theorem eyeCenter_eq (pts : List (Point2f α)) (start : Nat) :
    eyeCenter pts start =
      ⟨((pts.getD start ⟨0, 0⟩).x + (pts.getD (start + 1) ⟨0, 0⟩).x
        + (pts.getD (start + 2) ⟨0, 0⟩).x + (pts.getD (start + 3) ⟨0, 0⟩).x
        + (pts.getD (start + 4) ⟨0, 0⟩).x + (pts.getD (start + 5) ⟨0, 0⟩).x) / 6,
       ((pts.getD start ⟨0, 0⟩).y + (pts.getD (start + 1) ⟨0, 0⟩).y
        + (pts.getD (start + 2) ⟨0, 0⟩).y + (pts.getD (start + 3) ⟨0, 0⟩).y
        + (pts.getD (start + 4) ⟨0, 0⟩).y + (pts.getD (start + 5) ⟨0, 0⟩).y) / 6⟩ := by
  simp [eyeCenter, List.range', List.foldl]

theorem eyeCenter_rotatePoints (c s : α) (pts : List (Point2f α)) (start : Nat)
    (h : start + 5 < pts.length) :
    eyeCenter (rotatePoints c s pts) start =
      ⟨(eyeCenter pts start).x * c + (eyeCenter pts start).y * s,
       -(eyeCenter pts start).x * s + (eyeCenter pts start).y * c⟩ := by
  have key : ∀ i, i ≤ start + 5 → (rotatePoints c s pts).getD i ⟨0, 0⟩ =
      ⟨(pts.getD i ⟨0, 0⟩).x * c + (pts.getD i ⟨0, 0⟩).y * s,
       -(pts.getD i ⟨0, 0⟩).x * s + (pts.getD i ⟨0, 0⟩).y * c⟩ := by
    intro i hi
    unfold rotatePoints
    rw [getD_map_of_lt _ pts i (by omega) _ ⟨0, 0⟩]
  simp only [eyeCenter_eq]
  rw [key start (by omega), key (start + 1) (by omega), key (start + 2) (by omega),
    key (start + 3) (by omega), key (start + 4) (by omega), key (start + 5) (by omega)]
  simp only [Point2f.mk.injEq]
  constructor <;> ring

theorem eyeDx_rotatePoints (c s : α) (pts : List (Point2f α)) (h : pts.length = 68) :
    eyeDx (rotatePoints c s pts) = eyeDx pts * c + eyeDy pts * s := by
  simp only [eyeDx, eyeDy]
  rw [eyeCenter_rotatePoints c s pts 42 (by omega), eyeCenter_rotatePoints c s pts 36 (by omega)]
  ring

theorem eyeDy_rotatePoints (c s : α) (pts : List (Point2f α)) (h : pts.length = 68) :
    eyeDy (rotatePoints c s pts) = -eyeDx pts * s + eyeDy pts * c := by
  simp only [eyeDx, eyeDy]
  rw [eyeCenter_rotatePoints c s pts 42 (by omega), eyeCenter_rotatePoints c s pts 36 (by omega)]
  ring

end Lemmas2

section RealLemmas

theorem procrustesScale_real (L : List (Point2f ℝ)) :
    procrustesScale realFns L = Real.sqrt (sumSq (centered L) / (L.length : ℝ)) := by
  simp [procrustesScale, realFns, sumSquaredDistances_eq]

theorem procrustesScale_mul_self (L : List (Point2f ℝ)) :
    procrustesScale realFns L * procrustesScale realFns L
      = sumSq (centered L) / (L.length : ℝ) := by
  rw [procrustesScale_real]
  exact Real.mul_self_sqrt (div_nonneg (sumSq_nonneg _) (Nat.cast_nonneg _))

theorem sumSq_centered_of_scale_not_pos (L : List (Point2f ℝ)) (h : L.length = 68)
    (hs : ¬ 0 < procrustesScale realFns L) : sumSq (centered L) = 0 := by
  rw [procrustesScale_real, Real.sqrt_pos, h] at hs
  have h0 := sumSq_nonneg (centered L)
  have h1 : sumSq (centered L) / ((68 : ℕ) : ℝ) ≤ 0 := not_lt.mp hs
  have h2 : sumSq (centered L) ≤ 0 := by
    have h3 : (0 : ℝ) < ((68 : ℕ) : ℝ) := by norm_num
    have h4 := mul_le_mul_of_nonneg_right h1 h3.le
    rw [div_mul_cancel₀ _ h3.ne', zero_mul] at h4
    exact h4
  linarith

theorem scaled_real_props (L : List (Point2f ℝ)) (h : L.length = 68) :
    sumX (scaled realFns L) = 0 ∧ sumY (scaled realFns L) = 0 ∧
    (0 < procrustesScale realFns L → sumSq (scaled realFns L) = 68) ∧
    (¬ 0 < procrustesScale realFns L → sumSq (scaled realFns L) = 0) := by
  have hne : L.length ≠ 0 := by omega
  have hx := sumX_centered L hne
  have hy := sumY_centered L hne
  by_cases hs : 0 < procrustesScale realFns L
  · have hsc : scaled realFns L = (centered L).map
        (fun point => ⟨point.x / procrustesScale realFns L,
          point.y / procrustesScale realFns L⟩) := by
      simp [scaled, hs]
    refine ⟨?_, ?_, ?_, fun hn => absurd hs hn⟩
    · rw [hsc, sumX_map_div, hx, zero_div]
    · rw [hsc, sumY_map_div, hy, zero_div]
    · intro _
      rw [hsc, sumSq_map_div, procrustesScale_mul_self, h]
      have hpos : 0 < procrustesScale realFns L * procrustesScale realFns L :=
        mul_pos hs hs
      rw [procrustesScale_mul_self, h] at hpos
      have hq : sumSq (centered L) ≠ 0 := by
        intro h0
        rw [h0, zero_div] at hpos
        exact lt_irrefl _ hpos
      field_simp
  · have hsc : scaled realFns L = centered L := by
      simp [scaled, hs]
    refine ⟨?_, ?_, fun hp => absurd hp hs, ?_⟩
    · rw [hsc, hx]
    · rw [hsc, hy]
    · intro _
      rw [hsc]
      exact sumSq_centered_of_scale_not_pos L h hs

theorem cos_mul_self_add_sin_mul_self (a : ℝ) :
    Real.cos a * Real.cos a + Real.sin a * Real.sin a = 1 := by
  have := Real.cos_sq_add_sin_sq a
  nlinarith [this]

theorem rot_arctan_dy (dx dy : ℝ) (h : dx ≠ 0) :
    -dx * Real.sin (Real.arctan (dy / dx)) + dy * Real.cos (Real.arctan (dy / dx)) = 0 := by
  rw [Real.sin_arctan, Real.cos_arctan]
  have hpos : 0 < 1 + (dy / dx) ^ 2 := by positivity
  have hr : Real.sqrt (1 + (dy / dx) ^ 2) ≠ 0 := (Real.sqrt_pos.mpr hpos).ne'
  field_simp
  ring

/-- The output of `procrustesStandardization` on a 68-point set, unfolded. -/
theorem procrustes_real_eq (L : List (Point2f ℝ)) (h : L.length = 68) :
    procrustesStandardization realFns L =
      if eyeDx (scaled realFns L) ≠ 0 then
        rotatePoints
          (Real.cos (Real.arctan (eyeDy (scaled realFns L) / eyeDx (scaled realFns L))))
          (Real.sin (Real.arctan (eyeDy (scaled realFns L) / eyeDx (scaled realFns L))))
          (scaled realFns L)
      else scaled realFns L := by
  simp [procrustesStandardization, h, realFns]

theorem procrustes_real_props (L : List (Point2f ℝ)) (h : L.length = 68) :
    sumX (procrustesStandardization realFns L) = 0 ∧
    sumY (procrustesStandardization realFns L) = 0 ∧
    sumSq (procrustesStandardization realFns L) = sumSq (scaled realFns L) ∧
    (eyeDx (scaled realFns L) ≠ 0 → eyeDy (procrustesStandardization realFns L) = 0) ∧
    (eyeDx (scaled realFns L) = 0 →
      procrustesStandardization realFns L = scaled realFns L) := by
  obtain ⟨hx, hy, -, -⟩ := scaled_real_props L h
  have hlen : (scaled realFns L).length = 68 := by rw [length_scaled, h]
  rw [procrustes_real_eq L h]
  by_cases hd : eyeDx (scaled realFns L) = 0
  · simp [hd, hx, hy]
  · simp only [ne_eq, hd, not_false_eq_true, if_true, forall_true_left, false_implies, and_true]
    refine ⟨?_, ?_, ?_, ?_⟩
    · rw [sumX_rotatePoints, hx, hy]; ring
    · rw [sumY_rotatePoints, hx, hy]; ring
    · rw [sumSq_rotatePoints, cos_mul_self_add_sin_mul_self, mul_one]
    · rw [eyeDy_rotatePoints _ _ _ hlen]
      exact rot_arctan_dy _ _ hd

end RealLemmas

section FixedPoint

theorem centered_of_sums_zero (S : List (Point2f ℝ)) (hx : sumX S = 0) (hy : sumY S = 0) :
    centered S = S := by
  simp [centered, centroid_eq, hx, hy]

theorem scaled_of_standard (S : List (Point2f ℝ)) (hlen : S.length = 68)
    (hx : sumX S = 0) (hy : sumY S = 0) (hsq : sumSq S = 68 ∨ sumSq S = 0) :
    scaled realFns S = S := by
  have hc := centered_of_sums_zero S hx hy
  have hs : procrustesScale realFns S = 1 ∨ procrustesScale realFns S = 0 := by
    rw [procrustesScale_real, hc, hlen]
    rcases hsq with h | h
    · left; rw [h]; norm_num
    · right; rw [h]; simp
  rcases hs with h | h
  · simp [scaled, h, hc]
  · simp [scaled, h, hc]

theorem rotatePoints_one_zero (S : List (Point2f ℝ)) : rotatePoints 1 0 S = S := by
  simp [rotatePoints]

theorem procrustes_of_standard (S : List (Point2f ℝ)) (hlen : S.length = 68)
    (hx : sumX S = 0) (hy : sumY S = 0) (hsq : sumSq S = 68 ∨ sumSq S = 0)
    (he : eyeDx S = 0 ∨ eyeDy S = 0) :
    procrustesStandardization realFns S = S := by
  rw [procrustes_real_eq S hlen, scaled_of_standard S hlen hx hy hsq]
  by_cases hd : eyeDx S = 0
  · simp [hd]
  · have hy0 : eyeDy S = 0 := by
      rcases he with h | h
      · exact absurd h hd
      · exact h
    simp [hd, hy0, rotatePoints_one_zero]

theorem procrustes_output_standard (L : List (Point2f ℝ)) (h : L.length = 68) :
    sumX (procrustesStandardization realFns L) = 0 ∧
    sumY (procrustesStandardization realFns L) = 0 ∧
    (sumSq (procrustesStandardization realFns L) = 68 ∨
      sumSq (procrustesStandardization realFns L) = 0) ∧
    (eyeDx (procrustesStandardization realFns L) = 0 ∨
      eyeDy (procrustesStandardization realFns L) = 0) := by
  obtain ⟨hx, hy, hsq, hrot, hskip⟩ := procrustes_real_props L h
  obtain ⟨-, -, hpos, hnpos⟩ := scaled_real_props L h
  refine ⟨hx, hy, ?_, ?_⟩
  · rw [hsq]
    by_cases hs : 0 < procrustesScale realFns L
    · exact Or.inl (hpos hs)
    · exact Or.inr (hnpos hs)
  · by_cases hd : eyeDx (scaled realFns L) = 0
    · left; rw [hskip hd]; exact hd
    · right; exact hrot hd

end FixedPoint

section SampleFacts

theorem getD_three_blocks {β : Type} (a b c d : β) (n1 n2 n3 i : Nat) :
    (List.replicate n1 a ++ List.replicate n2 b ++ List.replicate n3 c).getD i d =
      if i < n1 then a else if i < n1 + n2 then b else if i < n1 + n2 + n3 then c else d := by
  simp only [List.getD_eq_getElem?_getD, List.getElem?_append, List.length_append,
    List.length_replicate, List.getElem?_replicate]
  split_ifs <;> first | rfl | omega

theorem verticalEyesFace_facts :
    (verticalEyesFace : List (Point2f ℝ)).length = 68 ∧
    sumX (verticalEyesFace : List (Point2f ℝ)) = 0 ∧
    sumY (verticalEyesFace : List (Point2f ℝ)) = 0 ∧
    sumSq (verticalEyesFace : List (Point2f ℝ)) = 68 ∧
    eyeDx (verticalEyesFace : List (Point2f ℝ)) = 0 ∧
    (eyeCenter (verticalEyesFace : List (Point2f ℝ)) 36).y = -1 ∧
    (eyeCenter (verticalEyesFace : List (Point2f ℝ)) 42).y = 1 := by
  refine ⟨by simp [verticalEyesFace], ?_, ?_, ?_, ?_, ?_, ?_⟩
  · norm_num [sumX, verticalEyesFace]
  · norm_num [sumY, verticalEyesFace]
  · norm_num [sumSq, verticalEyesFace]
  · simp only [eyeDx, eyeCenter_eq, verticalEyesFace, getD_three_blocks]
    norm_num
  · simp only [eyeCenter_eq, verticalEyesFace, getD_three_blocks]
    norm_num
  · simp only [eyeCenter_eq, verticalEyesFace, getD_three_blocks]
    norm_num

theorem levelEyesFace_facts :
    (levelEyesFace : List (Point2f ℝ)).length = 68 ∧
    sumX (levelEyesFace : List (Point2f ℝ)) = 0 ∧
    sumY (levelEyesFace : List (Point2f ℝ)) = 0 ∧
    sumSq (levelEyesFace : List (Point2f ℝ)) = 68 ∧
    eyeDx (levelEyesFace : List (Point2f ℝ)) = 2 ∧
    eyeDy (levelEyesFace : List (Point2f ℝ)) = 0 := by
  refine ⟨by simp [levelEyesFace], ?_, ?_, ?_, ?_, ?_⟩
  · norm_num [sumX, levelEyesFace]
  · norm_num [sumY, levelEyesFace]
  · norm_num [sumSq, levelEyesFace]
  · simp only [eyeDx, eyeCenter_eq, levelEyesFace, getD_three_blocks]
    norm_num
  · simp only [eyeDy, eyeCenter_eq, levelEyesFace, getD_three_blocks]
    norm_num

end SampleFacts

section ScalePositivity

variable {α : Type} [LinearOrderedField α]

theorem sum_map_const_of_forall {β : Type} (f : β → α) (c : α) (l : List β)
    (h : ∀ b ∈ l, f b = c) : (l.map f).sum = (l.length : α) * c := by
  induction l with
  | nil => simp
  | cons b l ih =>
    simp only [List.map_cons, List.sum_cons, List.length_cons, Nat.cast_succ]
    rw [ih (fun b hb => h b (List.mem_cons_of_mem _ hb)), h b (List.mem_cons_self _ _)]
    ring

theorem all_eq_centroid_iff (L : List (Point2f α)) (hne : L.length ≠ 0) :
    (∀ p ∈ L, p = centroid L) ↔ ∀ p ∈ L, ∀ q ∈ L, p = q := by
  constructor
  · intro h p hp q hq
    rw [h p hp, h q hq]
  · intro h p hp
    have hn : (L.length : α) ≠ 0 := by exact_mod_cast hne
    have hx : sumX L = (L.length : α) * p.x :=
      sum_map_const_of_forall _ _ L (fun q hq => by rw [h q hq p hp])
    have hy : sumY L = (L.length : α) * p.y :=
      sum_map_const_of_forall _ _ L (fun q hq => by rw [h q hq p hp])
    rw [centroid_eq, hx, hy]
    cases p
    simp only [Point2f.mk.injEq]
    constructor <;> field_simp

theorem centered_all_zero_iff (L : List (Point2f α)) :
    (∀ p ∈ centered L, p = ⟨0, 0⟩) ↔ ∀ p ∈ L, p = centroid L := by
  simp only [centered, List.mem_map, forall_exists_index, and_imp, forall_apply_eq_imp_iff₂,
    Point2f.mk.injEq, sub_eq_zero]
  constructor
  · intro h p hp
    obtain ⟨h1, h2⟩ := h p hp
    cases p
    simp_all
  · intro h p hp
    have := h p hp
    constructor
    · exact congrArg Point2f.x this
    · exact congrArg Point2f.y this

end ScalePositivity

theorem procrustesScale_pos_iff (L : List (Point2f ℝ)) (h : L.length = 68) :
    0 < procrustesScale realFns L ↔ ∃ p ∈ L, ∃ q ∈ L, p ≠ q := by
  have hne : L.length ≠ 0 := by omega
  have h1 : (0 < procrustesScale realFns L) ↔ sumSq (centered L) ≠ 0 := by
    constructor
    · intro hp h0
      have := procrustesScale_mul_self L
      rw [h0, zero_div] at this
      have h2 := mul_pos hp hp
      linarith
    · intro hq
      by_contra hn
      exact hq (sumSq_centered_of_scale_not_pos L h hn)
  rw [h1, Ne, sumSq_eq_zero_iff, centered_all_zero_iff, all_eq_centroid_iff L hne]
  push_neg
  rfl

/-- C1. Over exact reals, for every 68-point landmark set the output of
`procrustesStandardization` has 68 points whose arithmetic mean is `(0,0)`; the
computed scale is positive exactly when the input points do not all coincide; and
when it is positive the mean of `x^2 + y^2` over the 68 output points is `1`. -/
theorem procrustes_zero_mean_unit_radius (L : List (Point2f ℝ)) (h : L.length = 68) :
    (procrustesStandardization realFns L).length = 68 ∧
    ((procrustesStandardization realFns L).map (fun p => p.x)).sum / 68 = 0 ∧
    ((procrustesStandardization realFns L).map (fun p => p.y)).sum / 68 = 0 ∧
    ((∃ p ∈ L, ∃ q ∈ L, p ≠ q) ↔ 0 < procrustesScale realFns L) ∧
    (0 < procrustesScale realFns L →
      ((procrustesStandardization realFns L).map (fun p => p.x ^ 2 + p.y ^ 2)).sum / 68 = 1) := by
  obtain ⟨hx, hy, hsq, -, -⟩ := procrustes_real_props L h
  obtain ⟨-, -, hpos, -⟩ := scaled_real_props L h
  refine ⟨by rw [length_procrustes, h], ?_, ?_, (procrustesScale_pos_iff L h).symm, ?_⟩
  · have : ((procrustesStandardization realFns L).map (fun p => p.x)).sum = 0 := hx
    rw [this, zero_div]
  · have : ((procrustesStandardization realFns L).map (fun p => p.y)).sum = 0 := hy
    rw [this, zero_div]
  · intro hs
    have h1 : ((procrustesStandardization realFns L).map (fun p => p.x ^ 2 + p.y ^ 2)).sum
        = sumSq (procrustesStandardization realFns L) := by
      unfold sumSq
      congr 1
      apply List.map_congr_left
      intro p _
      ring
    rw [h1, hsq, hpos hs]
    norm_num

/-- Witness for C1: the hypothesis holds for the 68-point set `levelEyesFace`. -/
theorem procrustes_zero_mean_unit_radius_witness :
    (levelEyesFace : List (Point2f ℝ)).length = 68 ∧
    (procrustesStandardization realFns levelEyesFace).length = 68 ∧
    ((procrustesStandardization realFns levelEyesFace).map (fun p => p.x)).sum / 68 = 0 ∧
    ((procrustesStandardization realFns levelEyesFace).map (fun p => p.y)).sum / 68 = 0 ∧
    ((∃ p ∈ (levelEyesFace : List (Point2f ℝ)), ∃ q ∈ (levelEyesFace : List (Point2f ℝ)), p ≠ q)
      ↔ 0 < procrustesScale realFns levelEyesFace) ∧
    (0 < procrustesScale realFns levelEyesFace →
      ((procrustesStandardization realFns levelEyesFace).map
        (fun p => p.x ^ 2 + p.y ^ 2)).sum / 68 = 1) :=
  ⟨levelEyesFace_facts.1, procrustes_zero_mean_unit_radius levelEyesFace levelEyesFace_facts.1⟩

/-- C2. Over exact reals `procrustesStandardization` is idempotent on every
landmark sequence, whatever its length and including the degenerate 68-point sets
(zero scale, zero eye x-difference). -/
theorem procrustes_idempotent (L : List (Point2f ℝ)) :
    procrustesStandardization realFns (procrustesStandardization realFns L)
      = procrustesStandardization realFns L := by
  by_cases h : L.length = 68
  · obtain ⟨hx, hy, hsq, he⟩ := procrustes_output_standard L h
    exact procrustes_of_standard _ (by rw [length_procrustes, h]) hx hy hsq he
  · have hL : procrustesStandardization realFns L = L := by
      simp [procrustesStandardization, h]
    rw [hL, hL]

/-- C3, as stated, fails: on the 68-point set `verticalEyesFace` the eye centres
are stacked vertically, the rotation is skipped, and in the output the centre of
points 36..41 has `y = -1` while the centre of points 42..47 has `y = 1`. -/
theorem procrustes_eyes_not_always_level :
    (verticalEyesFace : List (Point2f ℝ)).length = 68 ∧
    (eyeCenter (procrustesStandardization realFns verticalEyesFace) 36).y = -1 ∧
    (eyeCenter (procrustesStandardization realFns verticalEyesFace) 42).y = 1 ∧
    (eyeCenter (procrustesStandardization realFns verticalEyesFace) 36).y
      ≠ (eyeCenter (procrustesStandardization realFns verticalEyesFace) 42).y := by
  obtain ⟨hlen, hx, hy, hsq, hdx, h36, h42⟩ := verticalEyesFace_facts
  have hfix : procrustesStandardization realFns (verticalEyesFace : List (Point2f ℝ))
      = verticalEyesFace :=
    procrustes_of_standard _ hlen hx hy (Or.inl hsq) (Or.inl hdx)
  rw [hfix, h36, h42]
  refine ⟨hlen, rfl, rfl, ?_⟩
  norm_num

/-- C3, amended. Over exact reals, for every 68-point landmark set whose
eye-centre x-difference after centring and scaling is non-zero (the guard
`dx != 0` of the rotation step), the centres of output points 36..41 and of output
points 42..47 have the same y-coordinate. -/
theorem procrustes_eyes_level (L : List (Point2f ℝ)) (h : L.length = 68)
    (hdx : eyeDx (scaled realFns L) ≠ 0) :
    (eyeCenter (procrustesStandardization realFns L) 36).y
      = (eyeCenter (procrustesStandardization realFns L) 42).y := by
  obtain ⟨-, -, -, hrot, -⟩ := procrustes_real_props L h
  have h0 := hrot hdx
  unfold eyeDy at h0
  linarith

/-- Witness for the amended C3: `levelEyesFace` has 68 points and eye x-difference
`2` after centring and scaling. -/
theorem procrustes_eyes_level_witness :
    (levelEyesFace : List (Point2f ℝ)).length = 68 ∧
    eyeDx (scaled realFns (levelEyesFace : List (Point2f ℝ))) ≠ 0 ∧
    (eyeCenter (procrustesStandardization realFns levelEyesFace) 36).y
      = (eyeCenter (procrustesStandardization realFns levelEyesFace) 42).y := by
  obtain ⟨hlen, hx, hy, hsq, hdx, -⟩ := levelEyesFace_facts
  have hne : eyeDx (scaled realFns (levelEyesFace : List (Point2f ℝ))) ≠ 0 := by
    rw [scaled_of_standard _ hlen hx hy (Or.inl hsq), hdx]
    norm_num
  exact ⟨hlen, hne, procrustes_eyes_level levelEyesFace hlen hne⟩

section Generic

variable {α : Type} [LinearOrderedField α]

/-- C4. For every landmark sequence whose length is not 68, both
`procrustesStandardization` and `frontalizeLandmarks` (with any weights) return
the input unmodified. -/
theorem not_68_returns_input (m : MathFns α) (weights : List α) (L : List (Point2f α))
    (h : L.length ≠ 68) :
    procrustesStandardization m L = L ∧ frontalizeLandmarks m weights L = L := by
  constructor
  · simp [procrustesStandardization, h]
  · simp [frontalizeLandmarks, h]

end Generic

/-- Witness for C4: a three-point sequence, with non-empty weights. -/
theorem not_68_returns_input_witness :
    ([⟨1, 2⟩, ⟨3, 4⟩, ⟨5, 6⟩] : List (Point2f ℝ)).length ≠ 68 ∧
    procrustesStandardization realFns ([⟨1, 2⟩, ⟨3, 4⟩, ⟨5, 6⟩] : List (Point2f ℝ))
      = [⟨1, 2⟩, ⟨3, 4⟩, ⟨5, 6⟩] ∧
    frontalizeLandmarks realFns [1, 0] ([⟨1, 2⟩, ⟨3, 4⟩, ⟨5, 6⟩] : List (Point2f ℝ))
      = [⟨1, 2⟩, ⟨3, 4⟩, ⟨5, 6⟩] :=
  ⟨by decide, not_68_returns_input realFns [1, 0] _ (by decide)⟩

section Frontalize

variable {α : Type} [LinearOrderedField α]

theorem foldl_range_eq_sum (f : Nat → α) (n : Nat) :
    (List.range n).foldl (fun acc j => acc + f j) 0 = ∑ j in Finset.range n, f j := by
  induction n with
  | zero => simp
  | succ n ih => rw [List.range_succ, List.foldl_append, ih, Finset.sum_range_succ]; simp

theorem frontalEntry_eq_sum (weights v : List α) (i : Nat) :
    frontalEntry weights v i
      = ∑ j in Finset.range 137, v.getD j 0 * weights.getD (j * 136 + i) 0 := by
  unfold frontalEntry
  exact foldl_range_eq_sum _ 137

theorem getD_range_of_lt (n i d : Nat) (h : i < n) : (List.range n).getD i d = i := by
  simp [List.getD_eq_getElem?_getD, List.getElem?_range h]

theorem frontalVector_getD (weights v : List α) (i : Nat) (h : i < 136) :
    (frontalVector weights v).getD i 0 = frontalEntry weights v i := by
  unfold frontalVector
  rw [getD_map_of_lt _ _ i (by simpa using h) 0 0, getD_range_of_lt _ _ _ h]

theorem featureVector_getD (S : List (Point2f α)) (hS : S.length = 68) (j : Nat)
    (hj : j < 137) : (featureVector S).getD j 0 = specRowVector S j := by
  unfold featureVector specRowVector
  simp only [List.getD_eq_getElem?_getD, List.getElem?_append, List.length_append,
    List.length_map, hS, List.getElem?_map]
  by_cases h1 : j < 68
  · have h2 : j < 68 + 68 := by omega
    have h3 : j < S.length := by omega
    simp [h1, h2, List.getElem?_eq_getElem h3]
  · by_cases h2 : j < 136
    · have h3 : j - 68 < S.length := by omega
      have h4 : j < 68 + 68 := by omega
      simp [h1, h2, h4, List.getElem?_eq_getElem h3]
    · have h4 : ¬ j < 68 + 68 := by omega
      have h5 : j - (68 + 68) = 0 := by omega
      simp [h1, h2, h4, h5]

theorem frontalize_eq (m : MathFns α) (weights : List α) (L : List (Point2f α))
    (hL : L.length = 68) (hW : weights ≠ []) :
    frontalizeLandmarks m weights L =
      (List.range 68).map (fun i =>
        (⟨frontalEntry weights (featureVector (procrustesStandardization m L)) i,
          frontalEntry weights (featureVector (procrustesStandardization m L)) (i + 68)⟩ :
          Point2f α)) := by
  unfold frontalizeLandmarks
  simp only [hL, hW, ne_eq, not_true_eq_false, or_self, if_false]
  apply List.map_congr_left
  intro i hi
  have hi68 : i < 68 := List.mem_range.mp hi
  rw [frontalVector_getD _ _ i (by omega), frontalVector_getD _ _ (i + 68) (by omega)]

theorem frontalize_getD (m : MathFns α) (weights : List α) (L : List (Point2f α))
    (hL : L.length = 68) (hW : weights ≠ []) (i : Nat) (hi : i < 68) :
    (frontalizeLandmarks m weights L).getD i ⟨0, 0⟩ =
      ⟨∑ j in Finset.range 137,
          specRowVector (procrustesStandardization m L) j * weights.getD (j * 136 + i) 0,
       ∑ j in Finset.range 137,
          specRowVector (procrustesStandardization m L) j
            * weights.getD (j * 136 + (i + 68)) 0⟩ := by
  have hS : (procrustesStandardization m L).length = 68 := by rw [length_procrustes, hL]
  rw [frontalize_eq m weights L hL hW, getD_map_of_lt _ _ i (by simpa using hi) _ 0,
    getD_range_of_lt _ _ _ hi, frontalEntry_eq_sum, frontalEntry_eq_sum]
  simp only [Point2f.mk.injEq]
  constructor
  · apply Finset.sum_congr rfl
    intro j hj
    rw [featureVector_getD _ hS j (Finset.mem_range.mp hj)]
  · apply Finset.sum_congr rfl
    intro j hj
    rw [featureVector_getD _ hS j (Finset.mem_range.mp hj)]

end Frontalize

section Weights

variable {α : Type} [LinearOrderedField α]

theorem ext_getD {β : Type} (l1 l2 : List β) (d : β) (hlen : l1.length = l2.length)
    (h : ∀ i, i < l1.length → l1.getD i d = l2.getD i d) : l1 = l2 := by
  apply List.ext_getElem hlen
  intro i h1 h2
  have := h i h1
  simpa [List.getD_eq_getElem?_getD, List.getElem?_eq_getElem h1,
    List.getElem?_eq_getElem h2] using this

theorem identityLikeWeights_length : (identityLikeWeights : List α).length = 137 * 136 := by
  simp [identityLikeWeights]

theorem identityLikeWeights_getD (j : Nat) (hj : j < 137) (i : Nat) (hi : i < 136) :
    (identityLikeWeights : List α).getD (j * 136 + i) 0 = if i = j then 1 else 0 := by
  unfold identityLikeWeights
  rw [getD_map_of_lt _ _ (j * 136 + i) (by simp; omega) 0 0,
    getD_range_of_lt _ _ _ (by omega)]
  have h1 : (j * 136 + i) / 136 = j := by omega
  have h2 : (j * 136 + i) % 136 = i := by omega
  rw [h1, h2]
  by_cases h : i = j
  · simp [h]
  · have h3 : ¬ j = i := fun e => h e.symm
    simp [h, h3]

theorem specRowVector_pair (S : List (Point2f α)) (i : Nat) (hi : i < 68) :
    (⟨specRowVector S i, specRowVector S (i + 68)⟩ : Point2f α) = S.getD i ⟨0, 0⟩ := by
  have h1 : ¬ i + 68 < 68 := by omega
  have h2 : i + 68 < 136 := by omega
  simp [specRowVector, hi, h1, h2]

/-- With any weights that are identity-like under the indexing `weights[j*136+i]`,
`frontalizeLandmarks` returns the standardized landmarks. -/
theorem frontalize_identity_like (m : MathFns α) (weights : List α)
    (hW : weights ≠ [])
    (hid : ∀ j, j < 137 → ∀ i, i < 136 → weights.getD (j * 136 + i) 0 = if i = j then 1 else 0)
    (L : List (Point2f α)) (hL : L.length = 68) :
    frontalizeLandmarks m weights L = procrustesStandardization m L := by
  have hS : (procrustesStandardization m L).length = 68 := by rw [length_procrustes, hL]
  have hF : (frontalizeLandmarks m weights L).length = 68 := by
    rw [frontalize_eq m weights L hL hW]; simp
  apply ext_getD _ _ ⟨0, 0⟩ (by rw [hF, hS])
  intro i hi
  rw [hF] at hi
  rw [frontalize_getD m weights L hL hW i hi, ← specRowVector_pair _ i hi]
  have key : ∀ c, c < 136 → ∑ j in Finset.range 137,
      specRowVector (procrustesStandardization m L) j * weights.getD (j * 136 + c) 0
        = specRowVector (procrustesStandardization m L) c := by
    intro c hc
    rw [Finset.sum_congr rfl (fun j hj => by rw [hid j (Finset.mem_range.mp hj) c hc])]
    simp only [mul_ite, mul_one, mul_zero]
    rw [Finset.sum_ite_eq]
    simp [show c < 137 by omega]
  rw [key i (by omega), key (i + 68) (by omega)]

theorem length_foldl_set (n : Nat) (w : List α) :
    ((List.range n).foldl (fun w i => w.set (i * 137 + i) 1) w).length = w.length := by
  induction n with
  | zero => simp
  | succ n ih => rw [List.range_succ, List.foldl_append]; simp [ih]

theorem getD_foldl_set (n : Nat) (w : List α) (k : Nat) :
    ((List.range n).foldl (fun w i => w.set (i * 137 + i) 1) w).getD k 0 =
      if k % 138 = 0 ∧ k / 138 < n ∧ k < w.length then 1 else w.getD k 0 := by
  induction n with
  | zero => simp
  | succ n ih =>
    rw [List.range_succ, List.foldl_append]
    simp only [List.foldl_cons, List.foldl_nil, List.getD_eq_getElem?_getD,
      List.getElem?_set, length_foldl_set]
    simp only [List.getD_eq_getElem?_getD] at ih
    by_cases hk : n * 137 + n = k
    · subst hk
      by_cases hlt : n * 137 + n < w.length
      · have h1 : (n * 137 + n) % 138 = 0 := by omega
        have h2 : (n * 137 + n) / 138 < n + 1 := by omega
        simp [hlt, h1, h2]
      · have h3 : w[n * 137 + n]? = none := List.getElem?_eq_none (by omega)
        simp [hlt, h3]
    · rw [if_neg hk, ih]
      by_cases hc : k % 138 = 0 ∧ k / 138 < n ∧ k < w.length
      · have hc2 : k % 138 = 0 ∧ k / 138 < n + 1 ∧ k < w.length := ⟨hc.1, by omega, hc.2.2⟩
        rw [if_pos hc, if_pos hc2]
      · have hc2 : ¬ (k % 138 = 0 ∧ k / 138 < n + 1 ∧ k < w.length) := by
          rintro ⟨h1, h2, h3⟩
          apply hc
          refine ⟨h1, ?_, h3⟩
          omega
        rw [if_neg hc, if_neg hc2]

theorem getD_replicate_zero (N k : Nat) : (List.replicate N (0 : α)).getD k 0 = 0 := by
  rw [List.getD_eq_getElem?_getD, List.getElem?_replicate]
  split <;> rfl

/-- Entry `k` of the fallback array: `1` exactly at the multiples of 138. -/
theorem fallbackWeights_getD (k : Nat) (hk : k < 137 * 136) :
    (fallbackWeights : List α).getD k 0 = if k % 138 = 0 then 1 else 0 := by
  unfold fallbackWeights
  rw [getD_foldl_set, List.length_replicate, getD_replicate_zero]
  have h1 : k / 138 < 136 := by omega
  by_cases h : k % 138 = 0
  · rw [if_pos ⟨h, h1, hk⟩, if_pos h]
  · rw [if_neg (fun hc => h hc.1), if_neg h]

theorem fallbackWeights_length : (fallbackWeights : List α).length = 137 * 136 := by
  unfold fallbackWeights
  rw [length_foldl_set, List.length_replicate]

end Weights

section Degenerate

theorem procrustes_of_coincident (L : List (Point2f ℝ)) (h : L.length = 68)
    (hall : ∀ p ∈ L, ∀ q ∈ L, p = q) :
    procrustesStandardization realFns L = List.replicate 68 ⟨0, 0⟩ := by
  have hne : L.length ≠ 0 := by omega
  have hz : ∀ p ∈ centered L, p = ⟨0, 0⟩ :=
    (centered_all_zero_iff L).mpr ((all_eq_centroid_iff L hne).mpr hall)
  have hc : centered L = List.replicate 68 ⟨0, 0⟩ := by
    rw [List.eq_replicate_iff]
    exact ⟨by rw [length_centered, h], hz⟩
  have hs : ¬ 0 < procrustesScale realFns L := by
    rw [procrustesScale_pos_iff L h]
    rintro ⟨p, hp, q, hq, hpq⟩
    exact hpq (hall p hp q hq)
  have hsc : scaled realFns L = List.replicate 68 ⟨0, 0⟩ := by
    simp [scaled, hs, hc]
  have hdx : eyeDx (List.replicate 68 (⟨0, 0⟩ : Point2f ℝ)) = 0 := by
    simp only [eyeDx, eyeCenter_eq, List.getD_eq_getElem?_getD, List.getElem?_replicate]
    norm_num
  rw [procrustes_real_eq L h, hsc, if_neg (not_not.mpr hdx)]

theorem coincidentFace_length : (coincidentFace : List (Point2f ℝ)).length = 68 := by
  simp [coincidentFace]

theorem procrustes_coincidentFace :
    procrustesStandardization realFns (coincidentFace : List (Point2f ℝ))
      = List.replicate 68 ⟨0, 0⟩ := by
  apply procrustes_of_coincident _ coincidentFace_length
  intro p hp q hq
  rw [coincidentFace] at hp hq
  rw [List.eq_of_mem_replicate hp, List.eq_of_mem_replicate hq]

theorem zeros_ne_coincidentFace :
    (List.replicate 68 ⟨0, 0⟩ : List (Point2f ℝ)) ≠ coincidentFace := by
  intro h
  have h1 := congrArg (fun l => (l.getD 0 ⟨0, 0⟩).x) h
  simp only [coincidentFace, List.getD_eq_getElem?_getD, List.getElem?_replicate] at h1
  norm_num at h1

end Degenerate

section FrontalizeClaims

variable {α : Type} [LinearOrderedField α]

/-- C5. For every 68-point landmark set and every weight array of `137 * 136`
entries, `frontalizeLandmarks` returns exactly 68 points, and output point `i` is
`(sum_j v[j] * M[j*136+i], sum_j v[j] * M[j*136+i+68])`, the sums over `j < 137`,
where `v = [S_0.x .. S_67.x, S_0.y .. S_67.y, 1]` is built from the standardized
landmarks `S`. -/
theorem frontalize_matrix_product (m : MathFns α) (M : List α) (L : List (Point2f α))
    (hL : L.length = 68) (hM : M.length = 137 * 136) :
    (frontalizeLandmarks m M L).length = 68 ∧
    ∀ i, i < 68 →
      (frontalizeLandmarks m M L).getD i ⟨0, 0⟩ =
        ⟨∑ j in Finset.range 137,
            specRowVector (procrustesStandardization m L) j * M.getD (j * 136 + i) 0,
         ∑ j in Finset.range 137,
            specRowVector (procrustesStandardization m L) j * M.getD (j * 136 + i + 68) 0⟩ := by
  have hW : M ≠ [] := by
    intro h0
    rw [h0] at hM
    simp at hM
  constructor
  · rw [frontalize_eq m M L hL hW]; simp
  · intro i hi
    rw [frontalize_getD m M L hL hW i hi]
    simp only [add_assoc]

/-- C6, amended. With weights that are identity-like under the indexing
`weights[j*136+i]` (entry `(j,i)` is `1` if `i = j`, else `0`; row 136 all zero),
`frontalizeLandmarks` returns the standardized landmarks
`procrustesStandardization(L)` for every 68-point set `L`; so it returns `L`
itself exactly when `L` is a fixed point of the standardization. -/
theorem frontalize_identity_returns_standardized (m : MathFns α) (M : List α)
    (L : List (Point2f α)) (hL : L.length = 68) (hM : M.length = 137 * 136)
    (hid : ∀ j, j < 137 → ∀ i, i < 136 → M.getD (j * 136 + i) 0 = if i = j then 1 else 0) :
    frontalizeLandmarks m M L = procrustesStandardization m L ∧
    (frontalizeLandmarks m M L = L ↔ procrustesStandardization m L = L) := by
  have hW : M ≠ [] := by
    intro h0
    rw [h0] at hM
    simp at hM
  have h := frontalize_identity_like m M hW hid L hL
  exact ⟨h, by rw [h]⟩

/-- C7, amended. With an empty weight array `frontalizeLandmarks` returns its
argument itself, not standardized, for every landmark sequence (in particular
every 68-point set). -/
theorem frontalize_no_model_returns_input (m : MathFns α) (L : List (Point2f α)) :
    frontalizeLandmarks m [] L = L := by
  simp [frontalizeLandmarks]

end FrontalizeClaims

/-- Witness for C5: the 68-point set `levelEyesFace` and the weight array
`identityLikeWeights`, at output point 0. -/
theorem frontalize_matrix_product_witness :
    (levelEyesFace : List (Point2f ℝ)).length = 68 ∧
    (identityLikeWeights : List ℝ).length = 137 * 136 ∧
    (frontalizeLandmarks realFns identityLikeWeights levelEyesFace).length = 68 ∧
    (frontalizeLandmarks realFns identityLikeWeights levelEyesFace).getD 0 ⟨0, 0⟩ =
      ⟨∑ j in Finset.range 137,
          specRowVector (procrustesStandardization realFns levelEyesFace) j
            * (identityLikeWeights : List ℝ).getD (j * 136 + 0) 0,
       ∑ j in Finset.range 137,
          specRowVector (procrustesStandardization realFns levelEyesFace) j
            * (identityLikeWeights : List ℝ).getD (j * 136 + 0 + 68) 0⟩ :=
  ⟨levelEyesFace_facts.1, identityLikeWeights_length,
    (frontalize_matrix_product realFns identityLikeWeights levelEyesFace
      levelEyesFace_facts.1 identityLikeWeights_length).1,
    (frontalize_matrix_product realFns identityLikeWeights levelEyesFace
      levelEyesFace_facts.1 identityLikeWeights_length).2 0 (by decide)⟩

/-- C6, as stated, fails: with the identity-like weights, the 68-point set whose
points are all `(1,1)` is returned as 68 copies of `(0,0)`, not unchanged. -/
theorem frontalize_identity_changes_input :
    (coincidentFace : List (Point2f ℝ)).length = 68 ∧
    (identityLikeWeights : List ℝ).length = 137 * 136 ∧
    (∀ j, j < 137 → ∀ i, i < 136 →
      (identityLikeWeights : List ℝ).getD (j * 136 + i) 0 = if i = j then 1 else 0) ∧
    frontalizeLandmarks realFns identityLikeWeights coincidentFace
      = List.replicate 68 ⟨0, 0⟩ ∧
    frontalizeLandmarks realFns identityLikeWeights coincidentFace ≠ coincidentFace := by
  have hW : (identityLikeWeights : List ℝ) ≠ [] := by
    intro h0
    have := identityLikeWeights_length (α := ℝ)
    rw [h0] at this
    simp at this
  have h := frontalize_identity_like realFns identityLikeWeights hW
    identityLikeWeights_getD coincidentFace coincidentFace_length
  rw [procrustes_coincidentFace] at h
  refine ⟨coincidentFace_length, identityLikeWeights_length, identityLikeWeights_getD, h, ?_⟩
  rw [h]
  exact zeros_ne_coincidentFace

/-- Witness for the amended C6: `levelEyesFace` with `identityLikeWeights`. -/
theorem frontalize_identity_returns_standardized_witness :
    (levelEyesFace : List (Point2f ℝ)).length = 68 ∧
    (identityLikeWeights : List ℝ).length = 137 * 136 ∧
    (∀ j, j < 137 → ∀ i, i < 136 →
      (identityLikeWeights : List ℝ).getD (j * 136 + i) 0 = if i = j then 1 else 0) ∧
    frontalizeLandmarks realFns identityLikeWeights levelEyesFace
      = procrustesStandardization realFns levelEyesFace ∧
    (frontalizeLandmarks realFns identityLikeWeights levelEyesFace = levelEyesFace
      ↔ procrustesStandardization realFns levelEyesFace = levelEyesFace) :=
  ⟨levelEyesFace_facts.1, identityLikeWeights_length, identityLikeWeights_getD,
    frontalize_identity_returns_standardized realFns identityLikeWeights levelEyesFace
      levelEyesFace_facts.1 identityLikeWeights_length identityLikeWeights_getD⟩

/-- C7, as stated, fails: with an empty weight array the 68-point set whose points
are all `(1,1)` is returned as it is, while its standardization is 68 copies of
`(0,0)`. -/
theorem frontalize_no_model_not_standardized :
    (coincidentFace : List (Point2f ℝ)).length = 68 ∧
    frontalizeLandmarks realFns [] (coincidentFace : List (Point2f ℝ)) = coincidentFace ∧
    procrustesStandardization realFns (coincidentFace : List (Point2f ℝ))
      = List.replicate 68 ⟨0, 0⟩ ∧
    frontalizeLandmarks realFns [] (coincidentFace : List (Point2f ℝ))
      ≠ procrustesStandardization realFns coincidentFace := by
  have h1 : frontalizeLandmarks realFns [] (coincidentFace : List (Point2f ℝ))
      = coincidentFace := by
    simp [frontalizeLandmarks]
  refine ⟨coincidentFace_length, h1, procrustes_coincidentFace, ?_⟩
  rw [h1, procrustes_coincidentFace]
  exact fun h => zeros_ne_coincidentFace h.symm

/-- C8: the code at the failing input. With the fallback array built by
`loadFrontalizationModel`, output point 1 of `frontalizeLandmarks` on
`levelEyesFace` is `(0,0)`, while point 1 of the standardized landmarks is
`(1,0)`: the fallback is not an identity mapping under `weights[j*136+i]`. -/
theorem frontalize_fallback_not_identity :
    (levelEyesFace : List (Point2f ℝ)).length = 68 ∧
    (frontalizeLandmarks realFns fallbackWeights levelEyesFace).getD 1 ⟨0, 0⟩ = ⟨0, 0⟩ ∧
    (procrustesStandardization realFns levelEyesFace).getD 1 ⟨0, 0⟩ = ⟨1, 0⟩ ∧
    frontalizeLandmarks realFns fallbackWeights levelEyesFace
      ≠ procrustesStandardization realFns levelEyesFace := by
  obtain ⟨hlen, hx, hy, hsq, -, hdy⟩ := levelEyesFace_facts
  have hW : (fallbackWeights : List ℝ) ≠ [] := by
    intro h0
    have := fallbackWeights_length (α := ℝ)
    rw [h0] at this
    simp at this
  have hfix : procrustesStandardization realFns (levelEyesFace : List (Point2f ℝ))
      = levelEyesFace :=
    procrustes_of_standard _ hlen hx hy (Or.inl hsq) (Or.inr hdy)
  have hzero : ∀ c, c < 136 → c % 2 = 1 → ∑ j in Finset.range 137,
      specRowVector (procrustesStandardization realFns levelEyesFace) j
        * (fallbackWeights : List ℝ).getD (j * 136 + c) 0 = 0 := by
    intro c hc hodd
    apply Finset.sum_eq_zero
    intro j hj
    have hj137 : j < 137 := Finset.mem_range.mp hj
    rw [fallbackWeights_getD (j * 136 + c) (by omega), if_neg (by omega), mul_zero]
  have hF : (frontalizeLandmarks realFns fallbackWeights levelEyesFace).getD 1 ⟨0, 0⟩
      = (⟨0, 0⟩ : Point2f ℝ) := by
    rw [frontalize_getD realFns fallbackWeights levelEyesFace hlen hW 1 (by decide),
      hzero 1 (by decide) (by decide), hzero (1 + 68) (by decide) (by decide)]
  have hP : (procrustesStandardization realFns levelEyesFace).getD 1 ⟨0, 0⟩
      = (⟨1, 0⟩ : Point2f ℝ) := by
    rw [hfix]
    simp only [levelEyesFace, getD_three_blocks]
    norm_num
  refine ⟨hlen, hF, hP, ?_⟩
  intro h
  rw [h, hP] at hF
  have := congrArg Point2f.x hF
  norm_num at this

section FeatureLemmas

variable {α : Type} [Zero α] [Add α] [Sub α] [Mul α] [Div α]

theorem length_foldl_push {β γ : Type} (g : β → γ) (js : List β) (acc : List γ) :
    (js.foldl (fun acc j => acc ++ [g j]) acc).length = acc.length + js.length := by
  induction js generalizing acc with
  | nil => simp
  | cons j js ih => simp [ih]; omega

theorem getD_range_lt_of_pos (k n : Nat) (hk : 0 < k) : (List.range k).getD n 0 < k := by
  by_cases h : n < k
  · rw [getD_range_of_lt _ _ _ h]; exact h
  · rw [List.getD_eq_default _ _ (by simpa using h)]; exact hk

theorem featureLandmarkIndices_getD_lt (full_features : Bool) (n : Nat) :
    (featureLandmarkIndices full_features).getD n 0 < 68 := by
  unfold featureLandmarkIndices
  cases full_features
  · exact lt_trans (getD_range_lt_of_pos 51 n (by decide)) (by decide)
  · exact getD_range_lt_of_pos 68 n (by decide)

theorem featuresInner_eq (m : MathFns α) (landmarks : List (Point2f α)) (idxs : List Nat)
    (scale : α) (features : List α) (i : Nat)
    (hidx : ∀ n, idxs.getD n 0 < landmarks.length) :
    featuresInner m landmarks idxs scale features i =
      (List.range' (i + 1) (idxs.length - (i + 1))).foldl
        (fun acc j => acc ++ [calculateDistance m (landmarks.getD (idxs.getD i 0) ⟨0, 0⟩)
          (landmarks.getD (idxs.getD j 0) ⟨0, 0⟩) / scale]) features := by
  unfold featuresInner
  simp only [hidx, and_self, if_true]

theorem length_featuresInner (m : MathFns α) (landmarks : List (Point2f α))
    (idxs : List Nat) (scale : α) (features : List α) (i : Nat)
    (hidx : ∀ n, idxs.getD n 0 < landmarks.length) :
    (featuresInner m landmarks idxs scale features i).length
      = features.length + (idxs.length - (i + 1)) := by
  rw [featuresInner_eq m landmarks idxs scale features i hidx, length_foldl_push]
  simp

theorem length_features_outer (m : MathFns α) (landmarks : List (Point2f α))
    (idxs : List Nat) (scale : α) (hidx : ∀ n, idxs.getD n 0 < landmarks.length) (n : Nat) :
    ((List.range n).foldl (featuresInner m landmarks idxs scale) []).length
      = ∑ i in Finset.range n, (idxs.length - (i + 1)) := by
  induction n with
  | zero => simp
  | succ n ih =>
    rw [List.range_succ, List.foldl_append, Finset.sum_range_succ, ← ih]
    simp [length_featuresInner m landmarks idxs scale _ n hidx]

end FeatureLemmas

section Features

variable {α : Type} [LinearOrderedField α]

/-- C9. For every landmark sequence with at least 68 points,
`extractGeometricFeatures` returns exactly `C(51,2) = 1275` values when full
features are off and exactly `C(68,2) = 2278` values when they are on. -/
theorem extract_feature_count (m : MathFns α) (L : List (Point2f α)) (h : 68 ≤ L.length) :
    (extractGeometricFeatures m false L).length = 1275 ∧
    (extractGeometricFeatures m true L).length = 2278 ∧
    Nat.choose 51 2 = 1275 ∧ Nat.choose 68 2 = 2278 := by
  have hlt : ¬ L.length < 68 := by omega
  have hidx : ∀ (b : Bool) (n : Nat), (featureLandmarkIndices b).getD n 0 < L.length :=
    fun b n => lt_of_lt_of_le (featureLandmarkIndices_getD_lt b n) h
  refine ⟨?_, ?_, by decide, by decide⟩
  · unfold extractGeometricFeatures
    rw [if_neg hlt]
    simp only []
    rw [length_features_outer m L _ _ (hidx false)]
    simp only [featureLandmarkIndices, List.length_range, Bool.false_eq_true, if_false]
    decide
  · unfold extractGeometricFeatures
    rw [if_neg hlt]
    simp only []
    rw [length_features_outer m L _ _ (hidx true)]
    simp only [featureLandmarkIndices, List.length_range, if_true]
    decide

/-- C10. For every landmark sequence with fewer than 68 points (the empty one
included), `extractGeometricFeatures` returns the empty vector in both feature
modes. -/
theorem extract_short_input_empty (m : MathFns α) (full_features : Bool)
    (L : List (Point2f α)) (h : L.length < 68) :
    extractGeometricFeatures m full_features L = [] := by
  simp [extractGeometricFeatures, h]

end Features

/-- Witness for C9: the 68-point set `levelEyesFace`. -/
theorem extract_feature_count_witness :
    68 ≤ (levelEyesFace : List (Point2f ℝ)).length ∧
    (extractGeometricFeatures realFns false (levelEyesFace : List (Point2f ℝ))).length = 1275 ∧
    (extractGeometricFeatures realFns true (levelEyesFace : List (Point2f ℝ))).length = 2278 ∧
    Nat.choose 51 2 = 1275 ∧ Nat.choose 68 2 = 2278 :=
  ⟨le_of_eq levelEyesFace_facts.1.symm,
    extract_feature_count realFns levelEyesFace (le_of_eq levelEyesFace_facts.1.symm)⟩

/-- Witness for C10: the empty sequence, reduced mode. -/
theorem extract_short_input_empty_witness :
    ([] : List (Point2f ℝ)).length < 68 ∧
    extractGeometricFeatures realFns false ([] : List (Point2f ℝ)) = [] :=
  ⟨by decide, extract_short_input_empty realFns false [] (by decide)⟩

section FeatureLayout

variable {α : Type} [Zero α] [Add α] [Sub α] [Mul α] [Div α]

theorem foldl_push_eq_append_map {β γ : Type} (g : β → γ) (js : List β) (acc : List γ) :
    js.foldl (fun acc j => acc ++ [g j]) acc = acc ++ js.map g := by
  induction js generalizing acc with
  | nil => simp
  | cons j js ih => simp [ih]

theorem featuresInner_range (m : MathFns α) (L : List (Point2f α)) (k : Nat) (scale : α)
    (features : List α) (i : Nat) (hk : k ≤ L.length) (hi : i < k) :
    featuresInner m L (List.range k) scale features i =
      features ++ (List.range' (i + 1) (k - (i + 1))).map (fun j =>
        calculateDistance m (L.getD i ⟨0, 0⟩) (L.getD j ⟨0, 0⟩) / scale) := by
  have hidx : ∀ n, (List.range k).getD n 0 < L.length :=
    fun n => lt_of_lt_of_le (getD_range_lt_of_pos k n (by omega)) hk
  rw [featuresInner_eq m L _ scale features i hidx, foldl_push_eq_append_map,
    List.length_range, getD_range_of_lt k i 0 hi]
  congr 1
  apply List.map_congr_left
  intro j hj
  rw [List.mem_range'_1] at hj
  rw [getD_range_of_lt k j 0 (by omega)]

theorem features_outer_eq (m : MathFns α) (L : List (Point2f α)) (k : Nat) (scale : α)
    (hk : k ≤ L.length) (n : Nat) (hn : n ≤ k) :
    (List.range n).foldl (featuresInner m L (List.range k) scale) [] =
      (List.range n).flatMap (fun i =>
        (List.range' (i + 1) (k - (i + 1))).map (fun j =>
          calculateDistance m (L.getD i ⟨0, 0⟩) (L.getD j ⟨0, 0⟩) / scale)) := by
  induction n with
  | zero => simp
  | succ n ih =>
    rw [List.range_succ, List.foldl_append, List.flatMap_append, ih (by omega)]
    simp only [List.foldl_cons, List.foldl_nil, List.flatMap_cons, List.flatMap_nil,
      List.append_nil]
    exact featuresInner_range m L k scale _ n hk (by omega)

theorem extract_eq_pairFeatures [One α] [NatCast α] (m : MathFns α) (b : Bool)
    (L : List (Point2f α)) (h : 68 ≤ L.length) :
    extractGeometricFeatures m b L =
      pairFeatures m L (if b then 68 else 51) (calculateScale m L (scaleLandmarkIndices b)) := by
  have hlt : ¬ L.length < 68 := by omega
  unfold extractGeometricFeatures pairFeatures
  rw [if_neg hlt]
  simp only []
  cases b
  · simp only [featureLandmarkIndices, Bool.false_eq_true, if_false, List.length_range]
    exact features_outer_eq m L 51 _ (by omega) 51 (le_refl _)
  · simp only [featureLandmarkIndices, if_true, List.length_range]
    exact features_outer_eq m L 68 _ (by omega) 68 (le_refl _)

theorem pairOffset_closed (k i : Nat) (h : i ≤ k) :
    ∑ t in Finset.range i, (k - (t + 1)) = i * k - i * (i + 1) / 2 := by
  have key : ∀ i, i ≤ k → (∑ t in Finset.range i, (k - (t + 1))) + i * (i + 1) / 2 = i * k := by
    intro i
    induction i with
    | zero => intro _; simp
    | succ n ih =>
      intro hn
      have h1 := ih (by omega)
      have h2 : (n + 1) * (n + 1 + 1) / 2 = n * (n + 1) / 2 + (n + 1) := by
        have : (n + 1) * (n + 1 + 1) = n * (n + 1) + (n + 1) * 2 := by ring
        rw [this, Nat.add_mul_div_right _ _ (by decide : 0 < 2)]
      rw [Finset.sum_range_succ, h2]
      have h3 : (n + 1) * k = n * k + k := by ring
      omega
  have := key i h
  omega

theorem length_pairFeatures (m : MathFns α) (L : List (Point2f α)) (k : Nat) (scale : α) :
    ∀ n, ((List.range n).flatMap (fun i =>
        (List.range' (i + 1) (k - (i + 1))).map (fun j =>
          calculateDistance m (L.getD i ⟨0, 0⟩) (L.getD j ⟨0, 0⟩) / scale))).length
      = ∑ t in Finset.range n, (k - (t + 1)) := by
  intro n
  induction n with
  | zero => simp
  | succ n ih =>
    rw [List.range_succ, List.flatMap_append, List.length_append, ih, Finset.sum_range_succ]
    simp

theorem pairFeatures_getElem? (m : MathFns α) (L : List (Point2f α)) (k : Nat) (scale : α)
    (i j : Nat) (hij : i < j) (hj : j < k) :
    (pairFeatures m L k scale)[i * k - i * (i + 1) / 2 + (j - i - 1)]? =
      some (calculateDistance m (L.getD i ⟨0, 0⟩) (L.getD j ⟨0, 0⟩) / scale) := by
  rw [← pairOffset_closed k i (by omega)]
  unfold pairFeatures
  have key : ∀ n, i < n → ((List.range n).flatMap (fun i =>
        (List.range' (i + 1) (k - (i + 1))).map (fun j =>
          calculateDistance m (L.getD i ⟨0, 0⟩) (L.getD j ⟨0, 0⟩) / scale)))[
        (∑ t in Finset.range i, (k - (t + 1))) + (j - i - 1)]? =
      some (calculateDistance m (L.getD i ⟨0, 0⟩) (L.getD j ⟨0, 0⟩) / scale) := by
    intro n
    induction n with
    | zero => intro h; omega
    | succ n ih =>
      intro hn
      rw [List.range_succ, List.flatMap_append]
      by_cases hin : i < n
      · have h1 := ih hin
        obtain ⟨hlt, -⟩ := List.getElem?_eq_some.mp h1
        rw [List.getElem?_append_left hlt, h1]
      · have hin2 : i = n := by omega
        subst hin2
        have hlen := length_pairFeatures m L k scale i
        rw [List.getElem?_append_right (by rw [hlen]; omega), hlen]
        simp only [List.flatMap_cons, List.flatMap_nil, List.append_nil, List.getElem?_map,
          Nat.add_sub_cancel_left]
        rw [List.getElem?_range' _ _ (by omega)]
        simp only [Option.map_some', one_mul]
        have hidx : i + 1 + (j - i - 1) = j := by omega
        rw [hidx]
  exact key k (by omega)

theorem length_extract_of_ge [One α] [NatCast α] (m : MathFns α) (b : Bool)
    (L : List (Point2f α)) (h : 68 ≤ L.length) :
    (extractGeometricFeatures m b L).length = if b then 2278 else 1275 := by
  rw [extract_eq_pairFeatures m b L h]
  unfold pairFeatures
  rw [length_pairFeatures]
  cases b
  · simp only [Bool.false_eq_true, if_false]; decide
  · simp only [if_true]; decide

end FeatureLayout

section FeatureClaims

variable {α : Type} [LinearOrderedField α]

/-- C11, amended. `extractGeometricFeatures` returns the empty vector exactly when
the sequence has fewer than 68 points; a sequence with 68 or more points (in
particular more than 68) is processed and yields 1275 or 2278 values. -/
theorem extract_empty_iff_short (m : MathFns α) (b : Bool) (L : List (Point2f α)) :
    (extractGeometricFeatures m b L = [] ↔ L.length < 68) ∧
    (68 < L.length → (extractGeometricFeatures m b L).length = if b then 2278 else 1275) := by
  constructor
  · constructor
    · intro h0
      by_contra hge
      have hlen := length_extract_of_ge m b L (by omega)
      rw [h0] at hlen
      cases b <;> simp at hlen
    · intro hlt
      simp [extractGeometricFeatures, hlt]
  · intro hgt
    exact length_extract_of_ge m b L (by omega)

end FeatureClaims

theorem longFace_length : (longFace : List (Point2f ℝ)).length = 69 := by
  simp [longFace, levelEyesFace]

/-- C11, as stated, fails: on the 69-point sequence `longFace` the function does
not return an empty result; it returns 1275 values in reduced mode and 2278 in
full mode. -/
theorem extract_long_input_nonempty :
    (longFace : List (Point2f ℝ)).length = 69 ∧
    (extractGeometricFeatures realFns false (longFace : List (Point2f ℝ))).length = 1275 ∧
    (extractGeometricFeatures realFns true (longFace : List (Point2f ℝ))).length = 2278 ∧
    extractGeometricFeatures realFns false (longFace : List (Point2f ℝ)) ≠ [] ∧
    extractGeometricFeatures realFns true (longFace : List (Point2f ℝ)) ≠ [] := by
  have hge : 68 ≤ (longFace : List (Point2f ℝ)).length := by rw [longFace_length]; decide
  have h1 := length_extract_of_ge realFns false longFace hge
  have h2 := length_extract_of_ge realFns true longFace hge
  simp only [Bool.false_eq_true, if_false] at h1
  simp only [if_true] at h2
  refine ⟨longFace_length, h1, h2, ?_, ?_⟩
  · intro h0; rw [h0] at h1; simp at h1
  · intro h0; rw [h0] at h2; simp at h2

section ScaleIndices

theorem mem_scaleLandmarkIndices (b : Bool) (i : Nat) :
    i ∈ scaleLandmarkIndices b ↔ (if b then i < 68 else 17 ≤ i ∧ i < 68) := by
  cases b
  · simp only [scaleLandmarkIndices, Bool.false_eq_true, if_false, List.mem_range'_1]
  · simp only [scaleLandmarkIndices, if_true, List.mem_range]

theorem mem_featureLandmarkIndices (b : Bool) (i : Nat) :
    i ∈ featureLandmarkIndices b ↔ (if b then i < 68 else i < 51) := by
  cases b
  · simp only [featureLandmarkIndices, Bool.false_eq_true, if_false, List.mem_range]
  · simp only [featureLandmarkIndices, if_true, List.mem_range]

theorem scaleLandmarkIndices_ne_nil (b : Bool) : scaleLandmarkIndices b ≠ [] := by
  cases b <;> simp [scaleLandmarkIndices]

theorem scaleLandmarkIndices_lt (b : Bool) (idx : Nat) (hidx : idx ∈ scaleLandmarkIndices b) :
    idx < 68 := by
  rw [mem_scaleLandmarkIndices] at hidx
  cases b
  · simp only [Bool.false_eq_true, if_false] at hidx; omega
  · simp only [if_true] at hidx; omega

end ScaleIndices

section ScaleSubset

variable {α : Type} [LinearOrderedField α]

theorem foldl_guard_eq_sum (N : Nat) (f : Nat → α) (idxs : List Nat)
    (h : ∀ idx ∈ idxs, idx < N) (a : α) :
    idxs.foldl (fun acc idx => if idx < N then acc + f idx else acc) a
      = a + (idxs.map f).sum := by
  induction idxs generalizing a with
  | nil => simp
  | cons i idxs ih =>
    have hi : i < N := h i (List.mem_cons_self _ _)
    simp only [List.foldl_cons, hi, if_true, List.map_cons, List.sum_cons]
    rw [ih (fun idx hidx => h idx (List.mem_cons_of_mem _ hidx))]
    ring

theorem calculateScale_eq_specScale (m : MathFns α) (L : List (Point2f α))
    (idxs : List Nat) (hne : idxs ≠ []) (h : ∀ idx ∈ idxs, idx < L.length) :
    calculateScale m L idxs = specScale m L idxs := by
  unfold calculateScale specScale
  rw [if_neg hne]
  simp only []
  rw [foldl_guard_eq_sum L.length (fun idx => (L.getD idx ⟨0, 0⟩).x) idxs h,
    foldl_guard_eq_sum L.length (fun idx => (L.getD idx ⟨0, 0⟩).y) idxs h,
    foldl_guard_eq_sum L.length _ idxs h]
  simp only [zero_add, pow_two]

theorem specScale_congr (m : MathFns α) (L L' : List (Point2f α)) (idxs : List Nat)
    (h : ∀ idx ∈ idxs, L'.getD idx ⟨0, 0⟩ = L.getD idx ⟨0, 0⟩) :
    specScale m L' idxs = specScale m L idxs := by
  unfold specScale
  have hx : idxs.map (fun i => (L'.getD i ⟨0, 0⟩).x) = idxs.map (fun i => (L.getD i ⟨0, 0⟩).x) :=
    List.map_congr_left (fun i hi => by rw [h i hi])
  have hy : idxs.map (fun i => (L'.getD i ⟨0, 0⟩).y) = idxs.map (fun i => (L.getD i ⟨0, 0⟩).y) :=
    List.map_congr_left (fun i hi => by rw [h i hi])
  simp only [hx, hy]
  congr 3
  exact List.map_congr_left (fun i hi => by rw [h i hi])

/-- C13. In reduced mode the scale is computed from landmarks 17..67 only (the
square root of the mean squared distance of those 51 points to their own
centroid) while the pairwise distances use landmarks 0..50 only; in full mode both
use landmarks 0..67.  Hence in reduced mode a sequence that differs only in
landmarks 0..16 has the same scale. -/
theorem reduced_scale_ignores_jaw (m : MathFns α) (L : List (Point2f α))
    (h : 68 ≤ L.length) :
    (∀ i, i ∈ scaleLandmarkIndices false ↔ 17 ≤ i ∧ i < 68) ∧
    (∀ i, i ∈ featureLandmarkIndices false ↔ i < 51) ∧
    (∀ i, i ∈ scaleLandmarkIndices true ↔ i < 68) ∧
    (∀ i, i ∈ featureLandmarkIndices true ↔ i < 68) ∧
    (scaleLandmarkIndices false).length = 51 ∧
    calculateScale m L (scaleLandmarkIndices false) = specScale m L (List.range' 17 51) ∧
    calculateScale m L (scaleLandmarkIndices true) = specScale m L (List.range 68) ∧
    extractGeometricFeatures m false L
      = pairFeatures m L 51 (specScale m L (List.range' 17 51)) ∧
    extractGeometricFeatures m true L
      = pairFeatures m L 68 (specScale m L (List.range 68)) ∧
    (∀ L' : List (Point2f α), 68 ≤ L'.length →
      (∀ i, 17 ≤ i → i < 68 → L'.getD i ⟨0, 0⟩ = L.getD i ⟨0, 0⟩) →
      calculateScale m L' (scaleLandmarkIndices false)
        = calculateScale m L (scaleLandmarkIndices false)) := by
  have hs : ∀ (b : Bool) (K : List (Point2f α)), 68 ≤ K.length →
      calculateScale m K (scaleLandmarkIndices b) = specScale m K (scaleLandmarkIndices b) :=
    fun b K hK => calculateScale_eq_specScale m K _ (scaleLandmarkIndices_ne_nil b)
      (fun idx hidx => lt_of_lt_of_le (scaleLandmarkIndices_lt b idx hidx) hK)
  have hf := hs false L h
  have ht := hs true L h
  refine ⟨fun i => ?_, fun i => ?_, fun i => ?_, fun i => ?_, ?_, hf, ht, ?_, ?_, ?_⟩
  · simpa using mem_scaleLandmarkIndices false i
  · simpa using mem_featureLandmarkIndices false i
  · simpa using mem_scaleLandmarkIndices true i
  · simpa using mem_featureLandmarkIndices true i
  · simp [scaleLandmarkIndices]
  · rw [extract_eq_pairFeatures m false L h, hf]
    rfl
  · rw [extract_eq_pairFeatures m true L h, ht]
    rfl
  · intro L' hL' hagree
    rw [hs false L' hL', hf]
    apply specScale_congr
    intro idx hidx
    have := (mem_scaleLandmarkIndices false idx).mp hidx
    simp only [Bool.false_eq_true, if_false] at this
    exact hagree idx this.1 this.2

end ScaleSubset

theorem movedJawFace_facts :
    68 ≤ (movedJawFace : List (Point2f ℝ)).length ∧
    ∀ i, 17 ≤ i → i < 68 →
      (movedJawFace : List (Point2f ℝ)).getD i ⟨0, 0⟩
        = (levelEyesFace : List (Point2f ℝ)).getD i ⟨0, 0⟩ := by
  constructor
  · simp [movedJawFace]
  · intro i h1 h2
    simp only [movedJawFace, levelEyesFace, getD_three_blocks]
    have h3 : ¬ i < 8 := by omega
    rw [if_neg h3, if_neg h3]

/-- Witness for C13: `levelEyesFace` and `movedJawFace`, which differ in landmarks
0..7 only, have the same reduced-mode scale. -/
theorem reduced_scale_ignores_jaw_witness :
    68 ≤ (levelEyesFace : List (Point2f ℝ)).length ∧
    68 ≤ (movedJawFace : List (Point2f ℝ)).length ∧
    (movedJawFace : List (Point2f ℝ)).getD 0 ⟨0, 0⟩
      ≠ (levelEyesFace : List (Point2f ℝ)).getD 0 ⟨0, 0⟩ ∧
    calculateScale realFns (movedJawFace : List (Point2f ℝ)) (scaleLandmarkIndices false)
      = calculateScale realFns (levelEyesFace : List (Point2f ℝ)) (scaleLandmarkIndices false) := by
  have hL : 68 ≤ (levelEyesFace : List (Point2f ℝ)).length :=
    le_of_eq levelEyesFace_facts.1.symm
  refine ⟨hL, movedJawFace_facts.1, ?_,
    (reduced_scale_ignores_jaw realFns levelEyesFace hL).2.2.2.2.2.2.2.2.2
      movedJawFace movedJawFace_facts.1 movedJawFace_facts.2⟩
  simp only [movedJawFace, levelEyesFace, getD_three_blocks]
  norm_num

section LabelLemmas

variable {α : Type} [LinearOrderedField α]

theorem avi_of_lt (m : MathFns α) (M_PI a v i : α)
    (h : effectiveIntensity m a v i < 0.1) : aviToEmotionName m M_PI a v i = "Neutral" := by
  unfold aviToEmotionName
  simp only []
  rw [if_pos h]
  rfl

theorem avi_of_ge (m : MathFns α) (M_PI a v i : α)
    (h : 0.1 ≤ effectiveIntensity m a v i) :
    aviToEmotionName m M_PI a v i =
      combineExpression (selectExpression (intensityQualifier (effectiveIntensity m a v i))
        (computeTheta m M_PI a v)) := by
  unfold aviToEmotionName
  simp only []
  rw [if_neg (not_lt.mpr h)]

theorem intensityQualifier_mem (x : α) : intensityQualifier x ∈ ls_expr_intensity := by
  unfold intensityQualifier
  split_ifs <;> decide

theorem intensityQualifier_cases (x : α) :
    (x < 0.325 → intensityQualifier x = "Slightly") ∧
    (0.325 ≤ x → x < 0.55 → intensityQualifier x = "Moderately") ∧
    (0.55 ≤ x → x < 0.775 → intensityQualifier x = "Very") ∧
    (0.775 ≤ x → intensityQualifier x = "Extremely") := by
  unfold intensityQualifier
  refine ⟨fun h => ?_, fun h1 h2 => ?_, fun h1 h2 => ?_, fun h => ?_⟩
  · rw [if_pos h]; rfl
  · rw [if_neg (not_lt.mpr h1), if_pos h2]; rfl
  · have h0 : (0.325 : α) ≤ x := le_trans (by norm_num) h1
    rw [if_neg (not_lt.mpr h0), if_neg (not_lt.mpr h1), if_pos h2]; rfl
  · have h0 : (0.325 : α) ≤ x := le_trans (by norm_num) h
    have h1 : (0.55 : α) ≤ x := le_trans (by norm_num) h
    rw [if_neg (not_lt.mpr h0), if_neg (not_lt.mpr h1), if_neg (not_lt.mpr h)]; rfl

theorem combineExpression_qualified (q n : String) (hq : q ∈ ls_expr_intensity) :
    combineExpression (q, n) = q ++ " " ++ n := by
  have h : q.isEmpty = false := by
    revert q
    decide
  simp [combineExpression, h]

theorem selectExpression_of_inBin (q : String) (theta : α) (k : Nat) (hk : k < 24)
    (h : inBin k theta) : selectExpression q theta = (q, ls_expr_name.getD k "") := by
  have hno : ∀ lo : α, 16 ≤ lo → lo ≤ theta → theta < 354 → ¬ (theta < 16 ∨ theta > 354) := by
    intro lo h1 h2 h3 hor
    rcases hor with hor | hor
    · exact absurd (lt_of_le_of_lt (le_trans h1 h2) hor) (lt_irrefl _)
    · exact absurd (lt_trans h3 hor) (lt_irrefl _)
  have hge : ∀ b lo : α, b ≤ lo → lo ≤ theta → ¬ theta < b :=
    fun b lo h1 h2 => not_lt.mpr (le_trans h1 h2)
  unfold selectExpression
  interval_cases k
  · have h0 : theta < 16 ∨ theta > 354 := h
    rw [if_pos h0]
  · obtain ⟨hlo, hhi⟩ : (16 : α) ≤ theta ∧ theta < 34 := h
    rw [if_neg (hno 16 (by norm_num) hlo (lt_of_lt_of_le hhi (by norm_num))), if_pos hhi]
  · obtain ⟨hlo, hhi⟩ : (34 : α) ≤ theta ∧ theta < 62.5 := h
    rw [if_neg (hno 34 (by norm_num) hlo (lt_of_lt_of_le hhi (by norm_num))),
      if_neg (hge 34 34 (by norm_num) hlo), if_pos hhi]
  · obtain ⟨hlo, hhi⟩ : (62.5 : α) ≤ theta ∧ theta < 78.5 := h
    rw [if_neg (hno 62.5 (by norm_num) hlo (lt_of_lt_of_le hhi (by norm_num))),
      if_neg (hge 34 62.5 (by norm_num) hlo), if_neg (hge 62.5 62.5 (by norm_num) hlo),
      if_pos hhi]
  · obtain ⟨hlo, hhi⟩ : (78.5 : α) ≤ theta ∧ theta < 93 := h
    rw [if_neg (hno 78.5 (by norm_num) hlo (lt_of_lt_of_le hhi (by norm_num))),
      if_neg (hge 34 78.5 (by norm_num) hlo), if_neg (hge 62.5 78.5 (by norm_num) hlo),
      if_neg (hge 78.5 78.5 (by norm_num) hlo), if_pos hhi]
  · obtain ⟨hlo, hhi⟩ : (93 : α) ≤ theta ∧ theta < 104 := h
    rw [if_neg (hno 93 (by norm_num) hlo (lt_of_lt_of_le hhi (by norm_num))),
      if_neg (hge 34 93 (by norm_num) hlo), if_neg (hge 62.5 93 (by norm_num) hlo),
      if_neg (hge 78.5 93 (by norm_num) hlo), if_neg (hge 93 93 (by norm_num) hlo), if_pos hhi]
  · obtain ⟨hlo, hhi⟩ : (104 : α) ≤ theta ∧ theta < 115 := h
    rw [if_neg (hno 104 (by norm_num) hlo (lt_of_lt_of_le hhi (by norm_num))),
      if_neg (hge 34 104 (by norm_num) hlo), if_neg (hge 62.5 104 (by norm_num) hlo),
      if_neg (hge 78.5 104 (by norm_num) hlo), if_neg (hge 93 104 (by norm_num) hlo),
      if_neg (hge 104 104 (by norm_num) hlo), if_pos hhi]
  · obtain ⟨hlo, hhi⟩ : (115 : α) ≤ theta ∧ theta < 126 := h
    rw [if_neg (hno 115 (by norm_num) hlo (lt_of_lt_of_le hhi (by norm_num))),
      if_neg (hge 34 115 (by norm_num) hlo), if_neg (hge 62.5 115 (by norm_num) hlo),
      if_neg (hge 78.5 115 (by norm_num) hlo), if_neg (hge 93 115 (by norm_num) hlo),
      if_neg (hge 104 115 (by norm_num) hlo), if_neg (hge 115 115 (by norm_num) hlo), if_pos hhi]
  · obtain ⟨hlo, hhi⟩ : (126 : α) ≤ theta ∧ theta < 137 := h
    rw [if_neg (hno 126 (by norm_num) hlo (lt_of_lt_of_le hhi (by norm_num))),
      if_neg (hge 34 126 (by norm_num) hlo), if_neg (hge 62.5 126 (by norm_num) hlo),
      if_neg (hge 78.5 126 (by norm_num) hlo), if_neg (hge 93 126 (by norm_num) hlo),
      if_neg (hge 104 126 (by norm_num) hlo), if_neg (hge 115 126 (by norm_num) hlo),
      if_neg (hge 126 126 (by norm_num) hlo), if_pos hhi]
  · obtain ⟨hlo, hhi⟩ : (137 : α) ≤ theta ∧ theta < 148 := h
    rw [if_neg (hno 137 (by norm_num) hlo (lt_of_lt_of_le hhi (by norm_num))),
      if_neg (hge 34 137 (by norm_num) hlo), if_neg (hge 62.5 137 (by norm_num) hlo),
      if_neg (hge 78.5 137 (by norm_num) hlo), if_neg (hge 93 137 (by norm_num) hlo),
      if_neg (hge 104 137 (by norm_num) hlo), if_neg (hge 115 137 (by norm_num) hlo),
      if_neg (hge 126 137 (by norm_num) hlo), if_neg (hge 137 137 (by norm_num) hlo), if_pos hhi]
  · obtain ⟨hlo, hhi⟩ : (148 : α) ≤ theta ∧ theta < 159 := h
    rw [if_neg (hno 148 (by norm_num) hlo (lt_of_lt_of_le hhi (by norm_num))),
      if_neg (hge 34 148 (by norm_num) hlo), if_neg (hge 62.5 148 (by norm_num) hlo),
      if_neg (hge 78.5 148 (by norm_num) hlo), if_neg (hge 93 148 (by norm_num) hlo),
      if_neg (hge 104 148 (by norm_num) hlo), if_neg (hge 115 148 (by norm_num) hlo),
      if_neg (hge 126 148 (by norm_num) hlo), if_neg (hge 137 148 (by norm_num) hlo),
      if_neg (hge 148 148 (by norm_num) hlo), if_pos hhi]
  · obtain ⟨hlo, hhi⟩ : (159 : α) ≤ theta ∧ theta < 170 := h
    rw [if_neg (hno 159 (by norm_num) hlo (lt_of_lt_of_le hhi (by norm_num))),
      if_neg (hge 34 159 (by norm_num) hlo), if_neg (hge 62.5 159 (by norm_num) hlo),
      if_neg (hge 78.5 159 (by norm_num) hlo), if_neg (hge 93 159 (by norm_num) hlo),
      if_neg (hge 104 159 (by norm_num) hlo), if_neg (hge 115 159 (by norm_num) hlo),
      if_neg (hge 126 159 (by norm_num) hlo), if_neg (hge 137 159 (by norm_num) hlo),
      if_neg (hge 148 159 (by norm_num) hlo), if_neg (hge 159 159 (by norm_num) hlo), if_pos hhi]
  · obtain ⟨hlo, hhi⟩ : (170 : α) ≤ theta ∧ theta < 181 := h
    rw [if_neg (hno 170 (by norm_num) hlo (lt_of_lt_of_le hhi (by norm_num))),
      if_neg (hge 34 170 (by norm_num) hlo), if_neg (hge 62.5 170 (by norm_num) hlo),
      if_neg (hge 78.5 170 (by norm_num) hlo), if_neg (hge 93 170 (by norm_num) hlo),
      if_neg (hge 104 170 (by norm_num) hlo), if_neg (hge 115 170 (by norm_num) hlo),
      if_neg (hge 126 170 (by norm_num) hlo), if_neg (hge 137 170 (by norm_num) hlo),
      if_neg (hge 148 170 (by norm_num) hlo), if_neg (hge 159 170 (by norm_num) hlo),
      if_neg (hge 170 170 (by norm_num) hlo), if_pos hhi]
  · obtain ⟨hlo, hhi⟩ : (181 : α) ≤ theta ∧ theta < 192 := h
    rw [if_neg (hno 181 (by norm_num) hlo (lt_of_lt_of_le hhi (by norm_num))),
      if_neg (hge 34 181 (by norm_num) hlo), if_neg (hge 62.5 181 (by norm_num) hlo),
      if_neg (hge 78.5 181 (by norm_num) hlo), if_neg (hge 93 181 (by norm_num) hlo),
      if_neg (hge 104 181 (by norm_num) hlo), if_neg (hge 115 181 (by norm_num) hlo),
      if_neg (hge 126 181 (by norm_num) hlo), if_neg (hge 137 181 (by norm_num) hlo),
      if_neg (hge 148 181 (by norm_num) hlo), if_neg (hge 159 181 (by norm_num) hlo),
      if_neg (hge 170 181 (by norm_num) hlo), if_neg (hge 181 181 (by norm_num) hlo), if_pos hhi]
  · obtain ⟨hlo, hhi⟩ : (192 : α) ≤ theta ∧ theta < 203 := h
    rw [if_neg (hno 192 (by norm_num) hlo (lt_of_lt_of_le hhi (by norm_num))),
      if_neg (hge 34 192 (by norm_num) hlo), if_neg (hge 62.5 192 (by norm_num) hlo),
      if_neg (hge 78.5 192 (by norm_num) hlo), if_neg (hge 93 192 (by norm_num) hlo),
      if_neg (hge 104 192 (by norm_num) hlo), if_neg (hge 115 192 (by norm_num) hlo),
      if_neg (hge 126 192 (by norm_num) hlo), if_neg (hge 137 192 (by norm_num) hlo),
      if_neg (hge 148 192 (by norm_num) hlo), if_neg (hge 159 192 (by norm_num) hlo),
      if_neg (hge 170 192 (by norm_num) hlo), if_neg (hge 181 192 (by norm_num) hlo),
      if_neg (hge 192 192 (by norm_num) hlo), if_pos hhi]
  · obtain ⟨hlo, hhi⟩ : (203 : α) ≤ theta ∧ theta < 215 := h
    rw [if_neg (hno 203 (by norm_num) hlo (lt_of_lt_of_le hhi (by norm_num))),
      if_neg (hge 34 203 (by norm_num) hlo), if_neg (hge 62.5 203 (by norm_num) hlo),
      if_neg (hge 78.5 203 (by norm_num) hlo), if_neg (hge 93 203 (by norm_num) hlo),
      if_neg (hge 104 203 (by norm_num) hlo), if_neg (hge 115 203 (by norm_num) hlo),
      if_neg (hge 126 203 (by norm_num) hlo), if_neg (hge 137 203 (by norm_num) hlo),
      if_neg (hge 148 203 (by norm_num) hlo), if_neg (hge 159 203 (by norm_num) hlo),
      if_neg (hge 170 203 (by norm_num) hlo), if_neg (hge 181 203 (by norm_num) hlo),
      if_neg (hge 192 203 (by norm_num) hlo), if_neg (hge 203 203 (by norm_num) hlo), if_pos hhi]
  · obtain ⟨hlo, hhi⟩ : (215 : α) ≤ theta ∧ theta < 230 := h
    rw [if_neg (hno 215 (by norm_num) hlo (lt_of_lt_of_le hhi (by norm_num))),
      if_neg (hge 34 215 (by norm_num) hlo), if_neg (hge 62.5 215 (by norm_num) hlo),
      if_neg (hge 78.5 215 (by norm_num) hlo), if_neg (hge 93 215 (by norm_num) hlo),
      if_neg (hge 104 215 (by norm_num) hlo), if_neg (hge 115 215 (by norm_num) hlo),
      if_neg (hge 126 215 (by norm_num) hlo), if_neg (hge 137 215 (by norm_num) hlo),
      if_neg (hge 148 215 (by norm_num) hlo), if_neg (hge 159 215 (by norm_num) hlo),
      if_neg (hge 170 215 (by norm_num) hlo), if_neg (hge 181 215 (by norm_num) hlo),
      if_neg (hge 192 215 (by norm_num) hlo), if_neg (hge 203 215 (by norm_num) hlo),
      if_neg (hge 215 215 (by norm_num) hlo), if_pos hhi]
  · obtain ⟨hlo, hhi⟩ : (230 : α) ≤ theta ∧ theta < 245 := h
    rw [if_neg (hno 230 (by norm_num) hlo (lt_of_lt_of_le hhi (by norm_num))),
      if_neg (hge 34 230 (by norm_num) hlo), if_neg (hge 62.5 230 (by norm_num) hlo),
      if_neg (hge 78.5 230 (by norm_num) hlo), if_neg (hge 93 230 (by norm_num) hlo),
      if_neg (hge 104 230 (by norm_num) hlo), if_neg (hge 115 230 (by norm_num) hlo),
      if_neg (hge 126 230 (by norm_num) hlo), if_neg (hge 137 230 (by norm_num) hlo),
      if_neg (hge 148 230 (by norm_num) hlo), if_neg (hge 159 230 (by norm_num) hlo),
      if_neg (hge 170 230 (by norm_num) hlo), if_neg (hge 181 230 (by norm_num) hlo),
      if_neg (hge 192 230 (by norm_num) hlo), if_neg (hge 203 230 (by norm_num) hlo),
      if_neg (hge 215 230 (by norm_num) hlo), if_neg (hge 230 230 (by norm_num) hlo), if_pos hhi]
  · obtain ⟨hlo, hhi⟩ : (245 : α) ≤ theta ∧ theta < 260 := h
    rw [if_neg (hno 245 (by norm_num) hlo (lt_of_lt_of_le hhi (by norm_num))),
      if_neg (hge 34 245 (by norm_num) hlo), if_neg (hge 62.5 245 (by norm_num) hlo),
      if_neg (hge 78.5 245 (by norm_num) hlo), if_neg (hge 93 245 (by norm_num) hlo),
      if_neg (hge 104 245 (by norm_num) hlo), if_neg (hge 115 245 (by norm_num) hlo),
      if_neg (hge 126 245 (by norm_num) hlo), if_neg (hge 137 245 (by norm_num) hlo),
      if_neg (hge 148 245 (by norm_num) hlo), if_neg (hge 159 245 (by norm_num) hlo),
      if_neg (hge 170 245 (by norm_num) hlo), if_neg (hge 181 245 (by norm_num) hlo),
      if_neg (hge 192 245 (by norm_num) hlo), if_neg (hge 203 245 (by norm_num) hlo),
      if_neg (hge 215 245 (by norm_num) hlo), if_neg (hge 230 245 (by norm_num) hlo),
      if_neg (hge 245 245 (by norm_num) hlo), if_pos hhi]
  · obtain ⟨hlo, hhi⟩ : (260 : α) ≤ theta ∧ theta < 280 := h
    rw [if_neg (hno 260 (by norm_num) hlo (lt_of_lt_of_le hhi (by norm_num))),
      if_neg (hge 34 260 (by norm_num) hlo), if_neg (hge 62.5 260 (by norm_num) hlo),
      if_neg (hge 78.5 260 (by norm_num) hlo), if_neg (hge 93 260 (by norm_num) hlo),
      if_neg (hge 104 260 (by norm_num) hlo), if_neg (hge 115 260 (by norm_num) hlo),
      if_neg (hge 126 260 (by norm_num) hlo), if_neg (hge 137 260 (by norm_num) hlo),
      if_neg (hge 148 260 (by norm_num) hlo), if_neg (hge 159 260 (by norm_num) hlo),
      if_neg (hge 170 260 (by norm_num) hlo), if_neg (hge 181 260 (by norm_num) hlo),
      if_neg (hge 192 260 (by norm_num) hlo), if_neg (hge 203 260 (by norm_num) hlo),
      if_neg (hge 215 260 (by norm_num) hlo), if_neg (hge 230 260 (by norm_num) hlo),
      if_neg (hge 245 260 (by norm_num) hlo), if_neg (hge 260 260 (by norm_num) hlo), if_pos hhi]
  · obtain ⟨hlo, hhi⟩ : (280 : α) ≤ theta ∧ theta < 300 := h
    rw [if_neg (hno 280 (by norm_num) hlo (lt_of_lt_of_le hhi (by norm_num))),
      if_neg (hge 34 280 (by norm_num) hlo), if_neg (hge 62.5 280 (by norm_num) hlo),
      if_neg (hge 78.5 280 (by norm_num) hlo), if_neg (hge 93 280 (by norm_num) hlo),
      if_neg (hge 104 280 (by norm_num) hlo), if_neg (hge 115 280 (by norm_num) hlo),
      if_neg (hge 126 280 (by norm_num) hlo), if_neg (hge 137 280 (by norm_num) hlo),
      if_neg (hge 148 280 (by norm_num) hlo), if_neg (hge 159 280 (by norm_num) hlo),
      if_neg (hge 170 280 (by norm_num) hlo), if_neg (hge 181 280 (by norm_num) hlo),
      if_neg (hge 192 280 (by norm_num) hlo), if_neg (hge 203 280 (by norm_num) hlo),
      if_neg (hge 215 280 (by norm_num) hlo), if_neg (hge 230 280 (by norm_num) hlo),
      if_neg (hge 245 280 (by norm_num) hlo), if_neg (hge 260 280 (by norm_num) hlo),
      if_neg (hge 280 280 (by norm_num) hlo), if_pos hhi]
  · obtain ⟨hlo, hhi⟩ : (300 : α) ≤ theta ∧ theta < 320 := h
    rw [if_neg (hno 300 (by norm_num) hlo (lt_of_lt_of_le hhi (by norm_num))),
      if_neg (hge 34 300 (by norm_num) hlo), if_neg (hge 62.5 300 (by norm_num) hlo),
      if_neg (hge 78.5 300 (by norm_num) hlo), if_neg (hge 93 300 (by norm_num) hlo),
      if_neg (hge 104 300 (by norm_num) hlo), if_neg (hge 115 300 (by norm_num) hlo),
      if_neg (hge 126 300 (by norm_num) hlo), if_neg (hge 137 300 (by norm_num) hlo),
      if_neg (hge 148 300 (by norm_num) hlo), if_neg (hge 159 300 (by norm_num) hlo),
      if_neg (hge 170 300 (by norm_num) hlo), if_neg (hge 181 300 (by norm_num) hlo),
      if_neg (hge 192 300 (by norm_num) hlo), if_neg (hge 203 300 (by norm_num) hlo),
      if_neg (hge 215 300 (by norm_num) hlo), if_neg (hge 230 300 (by norm_num) hlo),
      if_neg (hge 245 300 (by norm_num) hlo), if_neg (hge 260 300 (by norm_num) hlo),
      if_neg (hge 280 300 (by norm_num) hlo), if_neg (hge 300 300 (by norm_num) hlo), if_pos hhi]
  · obtain ⟨hlo, hhi⟩ : (320 : α) ≤ theta ∧ theta < 340 := h
    rw [if_neg (hno 320 (by norm_num) hlo (lt_of_lt_of_le hhi (by norm_num))),
      if_neg (hge 34 320 (by norm_num) hlo), if_neg (hge 62.5 320 (by norm_num) hlo),
      if_neg (hge 78.5 320 (by norm_num) hlo), if_neg (hge 93 320 (by norm_num) hlo),
      if_neg (hge 104 320 (by norm_num) hlo), if_neg (hge 115 320 (by norm_num) hlo),
      if_neg (hge 126 320 (by norm_num) hlo), if_neg (hge 137 320 (by norm_num) hlo),
      if_neg (hge 148 320 (by norm_num) hlo), if_neg (hge 159 320 (by norm_num) hlo),
      if_neg (hge 170 320 (by norm_num) hlo), if_neg (hge 181 320 (by norm_num) hlo),
      if_neg (hge 192 320 (by norm_num) hlo), if_neg (hge 203 320 (by norm_num) hlo),
      if_neg (hge 215 320 (by norm_num) hlo), if_neg (hge 230 320 (by norm_num) hlo),
      if_neg (hge 245 320 (by norm_num) hlo), if_neg (hge 260 320 (by norm_num) hlo),
      if_neg (hge 280 320 (by norm_num) hlo), if_neg (hge 300 320 (by norm_num) hlo),
      if_neg (hge 320 320 (by norm_num) hlo), if_pos hhi]
  · obtain ⟨hlo, hhi⟩ : (340 : α) ≤ theta ∧ theta < 354 := h
    rw [if_neg (hno 340 (by norm_num) hlo (lt_of_lt_of_le hhi (by norm_num))),
      if_neg (hge 34 340 (by norm_num) hlo), if_neg (hge 62.5 340 (by norm_num) hlo),
      if_neg (hge 78.5 340 (by norm_num) hlo), if_neg (hge 93 340 (by norm_num) hlo),
      if_neg (hge 104 340 (by norm_num) hlo), if_neg (hge 115 340 (by norm_num) hlo),
      if_neg (hge 126 340 (by norm_num) hlo), if_neg (hge 137 340 (by norm_num) hlo),
      if_neg (hge 148 340 (by norm_num) hlo), if_neg (hge 159 340 (by norm_num) hlo),
      if_neg (hge 170 340 (by norm_num) hlo), if_neg (hge 181 340 (by norm_num) hlo),
      if_neg (hge 192 340 (by norm_num) hlo), if_neg (hge 203 340 (by norm_num) hlo),
      if_neg (hge 215 340 (by norm_num) hlo), if_neg (hge 230 340 (by norm_num) hlo),
      if_neg (hge 245 340 (by norm_num) hlo), if_neg (hge 260 340 (by norm_num) hlo),
      if_neg (hge 280 340 (by norm_num) hlo), if_neg (hge 300 340 (by norm_num) hlo),
      if_neg (hge 320 340 (by norm_num) hlo), if_neg (hge 340 340 (by norm_num) hlo), if_pos hhi]

theorem selectExpression_354 (q : String) :
    selectExpression q (354 : α) = ("", "Unknown") := by
  have hno : ¬ ((354 : α) < 16 ∨ (354 : α) > 354) := by norm_num
  unfold selectExpression
  rw [if_neg hno, if_neg (by norm_num : ¬ (354 : α) < 34),
    if_neg (by norm_num : ¬ (354 : α) < 62.5), if_neg (by norm_num : ¬ (354 : α) < 78.5),
    if_neg (by norm_num : ¬ (354 : α) < 93), if_neg (by norm_num : ¬ (354 : α) < 104),
    if_neg (by norm_num : ¬ (354 : α) < 115), if_neg (by norm_num : ¬ (354 : α) < 126),
    if_neg (by norm_num : ¬ (354 : α) < 137), if_neg (by norm_num : ¬ (354 : α) < 148),
    if_neg (by norm_num : ¬ (354 : α) < 159), if_neg (by norm_num : ¬ (354 : α) < 170),
    if_neg (by norm_num : ¬ (354 : α) < 181), if_neg (by norm_num : ¬ (354 : α) < 192),
    if_neg (by norm_num : ¬ (354 : α) < 203), if_neg (by norm_num : ¬ (354 : α) < 215),
    if_neg (by norm_num : ¬ (354 : α) < 230), if_neg (by norm_num : ¬ (354 : α) < 245),
    if_neg (by norm_num : ¬ (354 : α) < 260), if_neg (by norm_num : ¬ (354 : α) < 280),
    if_neg (by norm_num : ¬ (354 : α) < 300), if_neg (by norm_num : ¬ (354 : α) < 320),
    if_neg (by norm_num : ¬ (354 : α) < 340), if_neg (by norm_num : ¬ (354 : α) < 354)]

theorem bins_cover (theta : α) : theta = 354 ∨ ∃ k, k < 24 ∧ inBin k theta := by
  by_cases h0 : theta < 16
  · exact Or.inr ⟨0, by decide, Or.inl h0⟩
  by_cases h1 : theta < 34
  · exact Or.inr ⟨1, by decide, (⟨not_lt.mp h0, h1⟩ : (16 : α) ≤ theta ∧ theta < 34)⟩
  by_cases h2 : theta < 62.5
  · exact Or.inr ⟨2, by decide, (⟨not_lt.mp h1, h2⟩ : (34 : α) ≤ theta ∧ theta < 62.5)⟩
  by_cases h3 : theta < 78.5
  · exact Or.inr ⟨3, by decide, (⟨not_lt.mp h2, h3⟩ : (62.5 : α) ≤ theta ∧ theta < 78.5)⟩
  by_cases h4 : theta < 93
  · exact Or.inr ⟨4, by decide, (⟨not_lt.mp h3, h4⟩ : (78.5 : α) ≤ theta ∧ theta < 93)⟩
  by_cases h5 : theta < 104
  · exact Or.inr ⟨5, by decide, (⟨not_lt.mp h4, h5⟩ : (93 : α) ≤ theta ∧ theta < 104)⟩
  by_cases h6 : theta < 115
  · exact Or.inr ⟨6, by decide, (⟨not_lt.mp h5, h6⟩ : (104 : α) ≤ theta ∧ theta < 115)⟩
  by_cases h7 : theta < 126
  · exact Or.inr ⟨7, by decide, (⟨not_lt.mp h6, h7⟩ : (115 : α) ≤ theta ∧ theta < 126)⟩
  by_cases h8 : theta < 137
  · exact Or.inr ⟨8, by decide, (⟨not_lt.mp h7, h8⟩ : (126 : α) ≤ theta ∧ theta < 137)⟩
  by_cases h9 : theta < 148
  · exact Or.inr ⟨9, by decide, (⟨not_lt.mp h8, h9⟩ : (137 : α) ≤ theta ∧ theta < 148)⟩
  by_cases h10 : theta < 159
  · exact Or.inr ⟨10, by decide, (⟨not_lt.mp h9, h10⟩ : (148 : α) ≤ theta ∧ theta < 159)⟩
  by_cases h11 : theta < 170
  · exact Or.inr ⟨11, by decide, (⟨not_lt.mp h10, h11⟩ : (159 : α) ≤ theta ∧ theta < 170)⟩
  by_cases h12 : theta < 181
  · exact Or.inr ⟨12, by decide, (⟨not_lt.mp h11, h12⟩ : (170 : α) ≤ theta ∧ theta < 181)⟩
  by_cases h13 : theta < 192
  · exact Or.inr ⟨13, by decide, (⟨not_lt.mp h12, h13⟩ : (181 : α) ≤ theta ∧ theta < 192)⟩
  by_cases h14 : theta < 203
  · exact Or.inr ⟨14, by decide, (⟨not_lt.mp h13, h14⟩ : (192 : α) ≤ theta ∧ theta < 203)⟩
  by_cases h15 : theta < 215
  · exact Or.inr ⟨15, by decide, (⟨not_lt.mp h14, h15⟩ : (203 : α) ≤ theta ∧ theta < 215)⟩
  by_cases h16 : theta < 230
  · exact Or.inr ⟨16, by decide, (⟨not_lt.mp h15, h16⟩ : (215 : α) ≤ theta ∧ theta < 230)⟩
  by_cases h17 : theta < 245
  · exact Or.inr ⟨17, by decide, (⟨not_lt.mp h16, h17⟩ : (230 : α) ≤ theta ∧ theta < 245)⟩
  by_cases h18 : theta < 260
  · exact Or.inr ⟨18, by decide, (⟨not_lt.mp h17, h18⟩ : (245 : α) ≤ theta ∧ theta < 260)⟩
  by_cases h19 : theta < 280
  · exact Or.inr ⟨19, by decide, (⟨not_lt.mp h18, h19⟩ : (260 : α) ≤ theta ∧ theta < 280)⟩
  by_cases h20 : theta < 300
  · exact Or.inr ⟨20, by decide, (⟨not_lt.mp h19, h20⟩ : (280 : α) ≤ theta ∧ theta < 300)⟩
  by_cases h21 : theta < 320
  · exact Or.inr ⟨21, by decide, (⟨not_lt.mp h20, h21⟩ : (300 : α) ≤ theta ∧ theta < 320)⟩
  by_cases h22 : theta < 340
  · exact Or.inr ⟨22, by decide, (⟨not_lt.mp h21, h22⟩ : (320 : α) ≤ theta ∧ theta < 340)⟩
  by_cases h23 : theta < 354
  · exact Or.inr ⟨23, by decide, (⟨not_lt.mp h22, h23⟩ : (340 : α) ≤ theta ∧ theta < 354)⟩
  by_cases hgt : theta > 354
  · exact Or.inr ⟨0, by decide, Or.inr hgt⟩
  · exact Or.inl (le_antisymm (not_lt.mp hgt) (not_lt.mp h23))

theorem ls_expr_name_getD_mem (k : Nat) (hk : k < 24) : ls_expr_name.getD k "" ∈ ls_expr_name := by
  interval_cases k <;> decide

theorem avi_of_inBin (m : MathFns α) (M_PI a v i : α)
    (h : 0.1 ≤ effectiveIntensity m a v i) (k : Nat) (hk : k < 24)
    (hbin : inBin k (computeTheta m M_PI a v)) :
    aviToEmotionName m M_PI a v i =
      intensityQualifier (effectiveIntensity m a v i) ++ " " ++ ls_expr_name.getD k "" := by
  rw [avi_of_ge m M_PI a v i h, selectExpression_of_inBin _ _ k hk hbin,
    combineExpression_qualified _ _ (intensityQualifier_mem _)]

theorem avi_of_theta_354 (m : MathFns α) (M_PI a v i : α)
    (h : 0.1 ≤ effectiveIntensity m a v i) (ht : computeTheta m M_PI a v = 354) :
    aviToEmotionName m M_PI a v i = "Unknown" := by
  rw [avi_of_ge m M_PI a v i h, ht, selectExpression_354]
  rfl

theorem labels_ne_neutral :
    ∀ q ∈ ls_expr_intensity, ∀ n ∈ ls_expr_name, q ++ " " ++ n ≠ "Neutral" := by
  decide

theorem avi_ne_neutral_of_ge (m : MathFns α) (M_PI a v i : α)
    (h : 0.1 ≤ effectiveIntensity m a v i) : aviToEmotionName m M_PI a v i ≠ "Neutral" := by
  rcases bins_cover (computeTheta m M_PI a v) with ht | ⟨k, hk, hbin⟩
  · rw [avi_of_theta_354 m M_PI a v i h ht]
    decide
  · rw [avi_of_inBin m M_PI a v i h k hk hbin]
    exact labels_ne_neutral _ (intensityQualifier_mem _) _ (ls_expr_name_getD_mem k hk)

end LabelLemmas

section RealLabels

theorem effectiveIntensity_real_neg (a v i : ℝ) (h : i < 0) :
    effectiveIntensity realFns a v i = Real.sqrt (a * a + v * v) := by
  simp [effectiveIntensity, realFns, h]

theorem effectiveIntensity_nonneg (m : MathFns ℝ) (a v i : ℝ) (h : 0 ≤ i) :
    effectiveIntensity m a v i = i := by
  simp [effectiveIntensity, not_lt.mpr h]

theorem computeTheta_real_of_ne (a v : ℝ) (hv : v ≠ 0) :
    computeTheta realFns Real.pi a v =
      if v < 0 then 180 + Real.arctan (a / v) * (180 / Real.pi)
      else if a < 0 then 360 + Real.arctan (a / v) * (180 / Real.pi)
      else Real.arctan (a / v) * (180 / Real.pi) := by
  simp [computeTheta, realFns, hv]

theorem computeTheta_real_zero (a : ℝ) :
    computeTheta realFns Real.pi a 0 = if a ≥ 0 then 90 else 270 := by
  simp [computeTheta]

/-- The input `(arousal, valence) = (0.9, 0.9)`: intensity `sqrt 1.62`, angle 45. -/
theorem sample_diagonal :
    0.775 ≤ effectiveIntensity realFns (0.9 : ℝ) 0.9 (-1) ∧
    computeTheta realFns Real.pi (0.9 : ℝ) 0.9 = 45 := by
  constructor
  · rw [effectiveIntensity_real_neg _ _ _ (by norm_num)]
    apply Real.le_sqrt_of_sq_le
    norm_num
  · rw [computeTheta_real_of_ne _ _ (by norm_num)]
    have h1 : (0.9 : ℝ) / 0.9 = 1 := by norm_num
    rw [if_neg (by norm_num), if_neg (by norm_num), h1, Real.arctan_one]
    field_simp
    ring

/-- The input `(arousal, valence) = (0, -1)`: intensity 1, angle 180. -/
theorem sample_negative_valence :
    effectiveIntensity realFns (0 : ℝ) (-1) (-1) = 1 ∧
    computeTheta realFns Real.pi (0 : ℝ) (-1) = 180 := by
  constructor
  · rw [effectiveIntensity_real_neg _ _ _ (by norm_num)]
    norm_num
  · rw [computeTheta_real_of_ne _ _ (by norm_num), if_pos (by norm_num)]
    simp

/-- The input `(arousal, valence) = (0.05, 0)`: intensity 0.05. -/
theorem sample_small :
    effectiveIntensity realFns (0.05 : ℝ) 0 (-1) = 0.05 := by
  rw [effectiveIntensity_real_neg _ _ _ (by norm_num)]
  have h : (0.05 : ℝ) * 0.05 + 0 * 0 = 0.05 ^ 2 := by norm_num
  rw [h, Real.sqrt_sq (by norm_num)]

theorem tan_six_degrees_pos : 0 < Real.tan (Real.pi / 30) :=
  Real.tan_pos_of_pos_of_lt_pi_div_two (by positivity)
    (by linarith [Real.pi_pos])

/-- The input `(arousal, valence) = (-tan 6°, 1)`: angle exactly 354. -/
theorem sample_gap_theta :
    computeTheta realFns Real.pi (-Real.tan (Real.pi / 30)) 1 = 354 := by
  have hpos := tan_six_degrees_pos
  have hπ := Real.pi_pos
  rw [computeTheta_real_of_ne _ _ one_ne_zero, if_neg (by norm_num),
    if_pos (by linarith), div_one, Real.arctan_neg,
    Real.arctan_tan (by linarith) (by linarith)]
  field_simp
  ring

theorem sample_gap_intensity :
    1 ≤ effectiveIntensity realFns (-Real.tan (Real.pi / 30)) 1 (-1) := by
  rw [effectiveIntensity_real_neg _ _ _ (by norm_num)]
  apply Real.le_sqrt_of_sq_le
  nlinarith [mul_self_nonneg (Real.tan (Real.pi / 30))]

end RealLabels

/-- C14. For every arousal, valence and intensity argument, `aviToEmotionName`
returns exactly `"Neutral"` when the effective intensity (the argument when it is
non-negative, `sqrt(arousal^2 + valence^2)` when it is negative or omitted) is
below `0.1`, and never returns `"Neutral"` otherwise; in particular
`aviToEmotionName(0.05, 0.0) = "Neutral"`. -/
theorem avi_neutral_iff :
    (∀ a v i : ℝ, aviToEmotionName realFns Real.pi a v i = "Neutral"
      ↔ effectiveIntensity realFns a v i < 0.1) ∧
    (∀ a v i : ℝ, 0 ≤ i → effectiveIntensity realFns a v i = i) ∧
    (∀ a v i : ℝ, i < 0 → effectiveIntensity realFns a v i = Real.sqrt (a ^ 2 + v ^ 2)) ∧
    aviToEmotionName realFns Real.pi (0.05 : ℝ) 0 (-1) = "Neutral" := by
  refine ⟨fun a v i => ⟨fun h => ?_, fun h => avi_of_lt realFns Real.pi a v i h⟩,
    fun a v i h => effectiveIntensity_nonneg realFns a v i h, fun a v i h => ?_, ?_⟩
  · by_contra hge
    exact avi_ne_neutral_of_ge realFns Real.pi a v i (not_lt.mp hge) h
  · rw [effectiveIntensity_real_neg a v i h, pow_two, pow_two]
  · apply avi_of_lt
    rw [sample_small]
    norm_num

/-- C15: the code at the failing input. With arousal `-tan 6°`, valence `1` and
intensity `0.2` the effective intensity is `0.2`, for which the threshold rule
selects `"Slightly"`, but the angle is exactly 354 and the returned label is
`"Unknown"`, which no qualifier prefixes.  For every other angle the returned
label is prefixed by the qualifier the thresholds select. -/
theorem avi_qualifier_lost_at_354 :
    effectiveIntensity realFns (-Real.tan (Real.pi / 30)) 1 0.2 = 0.2 ∧
    intensityQualifier (0.2 : ℝ) = "Slightly" ∧
    computeTheta realFns Real.pi (-Real.tan (Real.pi / 30)) 1 = 354 ∧
    aviToEmotionName realFns Real.pi (-Real.tan (Real.pi / 30)) 1 0.2 = "Unknown" ∧
    (∀ a v i : ℝ, 0.1 ≤ effectiveIntensity realFns a v i →
      computeTheta realFns Real.pi a v ≠ 354 →
      ∃ n ∈ ls_expr_name, aviToEmotionName realFns Real.pi a v i
        = intensityQualifier (effectiveIntensity realFns a v i) ++ " " ++ n) ∧
    (∀ x : ℝ, (x < 0.325 → intensityQualifier x = "Slightly") ∧
      (0.325 ≤ x → x < 0.55 → intensityQualifier x = "Moderately") ∧
      (0.55 ≤ x → x < 0.775 → intensityQualifier x = "Very") ∧
      (0.775 ≤ x → intensityQualifier x = "Extremely")) := by
  have heff : effectiveIntensity realFns (-Real.tan (Real.pi / 30)) 1 0.2 = 0.2 :=
    effectiveIntensity_nonneg realFns _ _ _ (by norm_num)
  refine ⟨heff, (intensityQualifier_cases (0.2 : ℝ)).1 (by norm_num), sample_gap_theta, ?_, ?_,
    intensityQualifier_cases⟩
  · exact avi_of_theta_354 realFns Real.pi _ _ _ (by rw [heff]; norm_num) sample_gap_theta
  · intro a v i h hne
    rcases bins_cover (computeTheta realFns Real.pi a v) with ht | ⟨k, hk, hbin⟩
    · exact absurd ht hne
    · exact ⟨_, ls_expr_name_getD_mem k hk, avi_of_inBin realFns Real.pi a v i h k hk hbin⟩

/-- C17. For every input with effective intensity at least `0.1` and every bin
`k < 24` of the table that contains the angle `theta`, `aviToEmotionName` returns
the qualifier followed by entry `k` of the 24-name table; the bins are
`theta < 16 or theta > 354` for entry 0 and `[previous bound, own bound)` for the
others.  In particular `theta = 16` yields `"happy"`. -/
theorem avi_name_of_bin (a v i : ℝ) (k : Nat)
    (hI : 0.1 ≤ effectiveIntensity realFns a v i) (hk : k < 24)
    (hbin : inBin k (computeTheta realFns Real.pi a v)) :
    aviToEmotionName realFns Real.pi a v i =
      intensityQualifier (effectiveIntensity realFns a v i) ++ " " ++ ls_expr_name.getD k "" ∧
    (computeTheta realFns Real.pi a v = 16 → k = 1 ∧ ls_expr_name.getD k "" = "happy") ∧
    ls_expr_name =
      ["pleased", "happy", "delighted", "excited", "astonished", "aroused", "tensed",
       "alarmed", "afraid", "annoyed", "distressed", "frustrated", "miserable", "sad",
       "gloomy", "depressed", "bored", "droopy", "tired", "sleepy", "calm", "serene",
       "content", "satisfied"] ∧
    (binUpper : List ℝ) =
      [16, 34, 62.5, 78.5, 93, 104, 115, 126, 137, 148, 159, 170,
       181, 192, 203, 215, 230, 245, 260, 280, 300, 320, 340, 354] := by
  refine ⟨avi_of_inBin realFns Real.pi a v i hI k hk hbin, ?_, rfl, rfl⟩
  intro h16
  rw [h16] at hbin
  have hk1 : k = 1 := by
    interval_cases k
    · exfalso
      have h0 : (16 : ℝ) < 16 ∨ (16 : ℝ) > 354 := hbin
      norm_num at h0
    · rfl
    all_goals
      exfalso
      have hlo := hbin.1
      simp only [binUpper, List.getD_cons_succ, List.getD_cons_zero, Nat.reduceSub] at hlo
      norm_num at hlo
  subst hk1
  exact ⟨rfl, rfl⟩

/-- Witness for C17: `aviToEmotionName(0.9, 0.9)` has intensity `sqrt 1.62`, angle
45 in bin 2, and is `"Extremely delighted"`. -/
theorem avi_name_of_bin_witness :
    0.1 ≤ effectiveIntensity realFns (0.9 : ℝ) 0.9 (-1) ∧ 2 < 24 ∧
    inBin 2 (computeTheta realFns Real.pi (0.9 : ℝ) 0.9) ∧
    computeTheta realFns Real.pi (0.9 : ℝ) 0.9 = 45 ∧
    aviToEmotionName realFns Real.pi (0.9 : ℝ) 0.9 (-1) = "Extremely delighted" := by
  obtain ⟨hI, ht⟩ := sample_diagonal
  have hI1 : 0.1 ≤ effectiveIntensity realFns (0.9 : ℝ) 0.9 (-1) :=
    le_trans (by norm_num) hI
  have hbin : inBin 2 (computeTheta realFns Real.pi (0.9 : ℝ) 0.9) := by
    rw [ht]
    show (34 : ℝ) ≤ 45 ∧ (45 : ℝ) < 62.5
    norm_num
  refine ⟨hI1, by decide, hbin, ht, ?_⟩
  rw [(avi_name_of_bin 0.9 0.9 (-1) 2 hI1 (by decide) hbin).1,
    (intensityQualifier_cases _).2.2.2 hI]
  rfl

theorem avi_negative_valence_eval :
    aviToEmotionName realFns Real.pi (0 : ℝ) (-1) (-1) = "Extremely miserable" := by
  obtain ⟨hI, ht⟩ := sample_negative_valence
  have hbin : inBin 12 (computeTheta realFns Real.pi (0 : ℝ) (-1)) := by
    rw [ht]
    show (170 : ℝ) ≤ 180 ∧ (180 : ℝ) < 181
    norm_num
  rw [avi_of_inBin realFns Real.pi 0 (-1) (-1) (by rw [hI]; norm_num) 12 (by decide) hbin,
    (intensityQualifier_cases _).2.2.2 (by rw [hI]; norm_num)]
  rfl

/-- C18, as stated, fails: `aviToEmotionName(0.0, -1.0)` has `theta = 180`, which
is below 181, so it does not fall in the bin whose upper bound is 192 (that bin
starts at 181 and holds `"sad"`) and the result is not `"Extremely sad"`. -/
theorem avi_negative_valence_not_sad :
    computeTheta realFns Real.pi (0 : ℝ) (-1) = 180 ∧
    (binUpper : List ℝ).getD 13 0 = 192 ∧ ls_expr_name.getD 13 "" = "sad" ∧
    ¬ inBin 13 (computeTheta realFns Real.pi (0 : ℝ) (-1)) ∧
    aviToEmotionName realFns Real.pi (0 : ℝ) (-1) (-1) ≠ "Extremely " ++ ls_expr_name.getD 13 "" := by
  refine ⟨sample_negative_valence.2, rfl, rfl, ?_, ?_⟩
  · rw [sample_negative_valence.2]
    intro h
    have hlo : (181 : ℝ) ≤ 180 := h.1
    norm_num at hlo
  · rw [avi_negative_valence_eval]
    decide

/-- C18, amended. `aviToEmotionName(0.0, -1.0)` with the intensity omitted takes
the `valence < 0` branch with `theta = 180` and intensity 1, falls in the bin
`[170, 181)` whose upper bound is 181, and returns `"Extremely miserable"`. -/
theorem avi_negative_valence_miserable :
    effectiveIntensity realFns (0 : ℝ) (-1) (-1) = 1 ∧
    computeTheta realFns Real.pi (0 : ℝ) (-1) = 180 ∧
    inBin 12 (computeTheta realFns Real.pi (0 : ℝ) (-1)) ∧
    (binUpper : List ℝ).getD 11 0 = 170 ∧ (binUpper : List ℝ).getD 12 0 = 181 ∧
    ls_expr_name.getD 12 "" = "miserable" ∧
    aviToEmotionName realFns Real.pi (0 : ℝ) (-1) (-1) = "Extremely miserable" := by
  refine ⟨sample_negative_valence.1, sample_negative_valence.2, ?_, rfl, rfl, rfl,
    avi_negative_valence_eval⟩
  rw [sample_negative_valence.2]
  show (170 : ℝ) ≤ 180 ∧ (180 : ℝ) < 181
  norm_num

/-- C19: the code at the failing input. `aviToEmotionName(-tan 6°, 1)` with the
intensity omitted has effective intensity at least 1 and angle exactly 354; the
returned string is the bare `"Unknown"`, not a qualifier followed by a table name.
Every non-neutral input whose angle is not exactly 354 does get such a string. -/
theorem avi_unknown_at_354 :
    1 ≤ effectiveIntensity realFns (-Real.tan (Real.pi / 30)) 1 (-1) ∧
    computeTheta realFns Real.pi (-Real.tan (Real.pi / 30)) 1 = 354 ∧
    aviToEmotionName realFns Real.pi (-Real.tan (Real.pi / 30)) 1 (-1) = "Unknown" ∧
    (∀ q ∈ ls_expr_intensity, ∀ n ∈ ls_expr_name, q ++ " " ++ n ≠ "Unknown") ∧
    (∀ a v i : ℝ, 0.1 ≤ effectiveIntensity realFns a v i →
      (computeTheta realFns Real.pi a v = 354 ∧
        aviToEmotionName realFns Real.pi a v i = "Unknown") ∨
      (∃ q ∈ ls_expr_intensity, ∃ n ∈ ls_expr_name,
        aviToEmotionName realFns Real.pi a v i = q ++ " " ++ n)) := by
  have hI := sample_gap_intensity
  refine ⟨hI, sample_gap_theta, ?_, by decide, ?_⟩
  · exact avi_of_theta_354 realFns Real.pi _ _ _ (le_trans (by norm_num) hI) sample_gap_theta
  · intro a v i h
    rcases bins_cover (computeTheta realFns Real.pi a v) with ht | ⟨k, hk, hbin⟩
    · exact Or.inl ⟨ht, avi_of_theta_354 realFns Real.pi a v i h ht⟩
    · exact Or.inr ⟨_, intensityQualifier_mem _, _, ls_expr_name_getD_mem k hk,
        avi_of_inBin realFns Real.pi a v i h k hk hbin⟩

/-- C20. For every arousal `a`, valence `v` and negative intensity argument
(including the default `-1`), `aviToEmotionName(a, v, i)` equals
`aviToEmotionName(a, v, sqrt(a^2 + v^2))`, for any value of `M_PI`. -/
theorem avi_negative_intensity_recomputed (M_PI a v i : ℝ) (h : i < 0) :
    aviToEmotionName realFns M_PI a v i
      = aviToEmotionName realFns M_PI a v (Real.sqrt (a ^ 2 + v ^ 2)) := by
  have h1 : effectiveIntensity realFns a v i = Real.sqrt (a ^ 2 + v ^ 2) := by
    rw [effectiveIntensity_real_neg a v i h, pow_two, pow_two]
  have h2 : effectiveIntensity realFns a v (Real.sqrt (a ^ 2 + v ^ 2))
      = Real.sqrt (a ^ 2 + v ^ 2) :=
    effectiveIntensity_nonneg realFns a v _ (Real.sqrt_nonneg _)
  unfold aviToEmotionName
  rw [h1, h2]

/-- Witness for C20: arousal `0.9`, valence `0.9` and the default intensity `-1`. -/
theorem avi_negative_intensity_recomputed_witness :
    (-1 : ℝ) < 0 ∧
    aviToEmotionName realFns Real.pi (0.9 : ℝ) 0.9 (-1)
      = aviToEmotionName realFns Real.pi (0.9 : ℝ) 0.9
          (Real.sqrt ((0.9 : ℝ) ^ 2 + (0.9 : ℝ) ^ 2)) :=
  ⟨by norm_num, avi_negative_intensity_recomputed Real.pi 0.9 0.9 (-1) (by norm_num)⟩

section PolarAngle

theorem arctan_deg_bounds (x : ℝ) :
    -90 < Real.arctan x * (180 / Real.pi) ∧ Real.arctan x * (180 / Real.pi) < 90 := by
  have hπ := Real.pi_pos
  have h1 := Real.neg_pi_div_two_lt_arctan x
  have h2 := Real.arctan_lt_pi_div_two x
  have hk : 0 < 180 / Real.pi := by positivity
  have e1 : -(Real.pi / 2) * (180 / Real.pi) = -90 := by field_simp; ring
  have e2 : Real.pi / 2 * (180 / Real.pi) = 90 := by field_simp; ring
  constructor
  · rw [← e1]; exact mul_lt_mul_of_pos_right h1 hk
  · rw [← e2]; exact mul_lt_mul_of_pos_right h2 hk

theorem arctan_deg_sign (x : ℝ) :
    (0 ≤ x → 0 ≤ Real.arctan x * (180 / Real.pi)) ∧
    (x < 0 → Real.arctan x * (180 / Real.pi) < 0) := by
  have hk : 0 < 180 / Real.pi := by have := Real.pi_pos; positivity
  constructor
  · intro hx
    have : 0 ≤ Real.arctan x := by
      rw [← Real.arctan_zero]; exact Real.arctan_strictMono.monotone hx
    exact mul_nonneg this hk.le
  · intro hx
    have : Real.arctan x < 0 := by
      rw [← Real.arctan_zero]; exact Real.arctan_strictMono hx
    exact mul_neg_of_neg_of_pos this hk

theorem computeTheta_range (a v : ℝ) :
    0 ≤ computeTheta realFns Real.pi a v ∧ computeTheta realFns Real.pi a v < 360 := by
  by_cases hv : v = 0
  · subst hv
    rw [computeTheta_real_zero]
    split_ifs <;> norm_num
  · rw [computeTheta_real_of_ne a v hv]
    obtain ⟨hlo, hhi⟩ := arctan_deg_bounds (a / v)
    obtain ⟨hnn, hneg⟩ := arctan_deg_sign (a / v)
    by_cases hneg_v : v < 0
    · rw [if_pos hneg_v]
      constructor <;> linarith
    · have hpos : 0 < v := lt_of_le_of_ne (not_lt.mp hneg_v) (Ne.symm hv)
      rw [if_neg hneg_v]
      by_cases ha : a < 0
      · rw [if_pos ha]
        have := hneg (div_neg_of_neg_of_pos ha hpos)
        constructor <;> linarith
      · rw [if_neg ha]
        have := hnn (div_nonneg (not_lt.mp ha) hpos.le)
        constructor <;> linarith

/-- The angle of `computeTheta`, in radians: `arctan (a / v)` shifted by `0`,
`pi` or `2 pi`; the point `(v, a)` is at that angle. -/
theorem computeTheta_polar (a v : ℝ) (h : ¬ (v = 0 ∧ a = 0)) :
    v = Real.sqrt (v ^ 2 + a ^ 2)
          * Real.cos (computeTheta realFns Real.pi a v * (Real.pi / 180)) ∧
    a = Real.sqrt (v ^ 2 + a ^ 2)
          * Real.sin (computeTheta realFns Real.pi a v * (Real.pi / 180)) := by
  have hπ := Real.pi_pos
  by_cases hv : v = 0
  · subst hv
    have ha : a ≠ 0 := fun h0 => h ⟨rfl, h0⟩
    rw [computeTheta_real_zero]
    have hr : Real.sqrt (0 ^ 2 + a ^ 2) = |a| := by
      rw [zero_pow (by norm_num), zero_add, Real.sqrt_sq_eq_abs]
    rw [hr]
    by_cases hpos : a ≥ 0
    · rw [if_pos hpos]
      have e : (90 : ℝ) * (Real.pi / 180) = Real.pi / 2 := by ring
      rw [e, Real.cos_pi_div_two, Real.sin_pi_div_two, abs_of_nonneg hpos]
      constructor <;> ring
    · rw [if_neg hpos]
      have e : (270 : ℝ) * (Real.pi / 180) = Real.pi / 2 + Real.pi := by ring
      rw [e, Real.cos_add_pi, Real.sin_add_pi, Real.cos_pi_div_two, Real.sin_pi_div_two,
        abs_of_neg (not_le.mp hpos)]
      constructor <;> ring
  · rw [computeTheta_real_of_ne a v hv]
    have hden : 0 < 1 + (a / v) ^ 2 := by positivity
    have hsq : Real.sqrt (1 + (a / v) ^ 2) ≠ 0 := (Real.sqrt_pos.mpr hden).ne'
    have hr : Real.sqrt (v ^ 2 + a ^ 2) = |v| * Real.sqrt (1 + (a / v) ^ 2) := by
      have e : v ^ 2 + a ^ 2 = v ^ 2 * (1 + (a / v) ^ 2) := by field_simp
      rw [e, Real.sqrt_mul (sq_nonneg v), Real.sqrt_sq_eq_abs]
    have hdeg : Real.arctan (a / v) * (180 / Real.pi) * (Real.pi / 180) = Real.arctan (a / v) := by
      field_simp
    have hcos := Real.cos_arctan (a / v)
    have hsin := Real.sin_arctan (a / v)
    by_cases hneg_v : v < 0
    · rw [if_pos hneg_v]
      have e : (180 + Real.arctan (a / v) * (180 / Real.pi)) * (Real.pi / 180)
          = Real.arctan (a / v) + Real.pi := by
        rw [add_mul, hdeg]; ring
      rw [e, Real.cos_add_pi, Real.sin_add_pi, hcos, hsin, hr, abs_of_neg hneg_v]
      constructor
      · field_simp
      · field_simp
        ring
    · have hpos : 0 < v := lt_of_le_of_ne (not_lt.mp hneg_v) (Ne.symm hv)
      rw [if_neg hneg_v]
      have key : v = Real.sqrt (v ^ 2 + a ^ 2) * Real.cos (Real.arctan (a / v)) ∧
          a = Real.sqrt (v ^ 2 + a ^ 2) * Real.sin (Real.arctan (a / v)) := by
        rw [hcos, hsin, hr, abs_of_pos hpos]
        constructor
        · field_simp
        · field_simp
      by_cases ha : a < 0
      · rw [if_pos ha]
        have e : (360 + Real.arctan (a / v) * (180 / Real.pi)) * (Real.pi / 180)
            = Real.arctan (a / v) + 2 * Real.pi := by
          rw [add_mul, hdeg]; ring
        rw [e, Real.cos_add_two_pi, Real.sin_add_two_pi]
        exact key
      · rw [if_neg ha, hdeg]
        exact key

end PolarAngle

theorem polarAngleDeg_of_polar (x y r theta : ℝ) (hr : 0 < r)
    (h0 : 0 ≤ theta) (h360 : theta < 360)
    (hx : x = r * Real.cos (theta * (Real.pi / 180)))
    (hy : y = r * Real.sin (theta * (Real.pi / 180))) :
    polarAngleDeg x y = theta := by
  have hπ := Real.pi_pos
  have hk : 0 < 180 / Real.pi := by positivity
  have hz : ∀ φ : ℝ, Real.cos φ = Real.cos (theta * (Real.pi / 180)) →
      Real.sin φ = Real.sin (theta * (Real.pi / 180)) →
      (⟨x, y⟩ : ℂ) = (r : ℂ) * (Complex.cos φ + Complex.sin φ * Complex.I) := by
    intro φ hc hs
    apply Complex.ext
    · simp [← Complex.ofReal_cos, ← Complex.ofReal_sin, hx, hc]
    · simp [← Complex.ofReal_cos, ← Complex.ofReal_sin, hy, hs]
  unfold polarAngleDeg
  by_cases hle : theta * (Real.pi / 180) ≤ Real.pi
  · have harg : Complex.arg ⟨x, y⟩ = theta * (Real.pi / 180) := by
      rw [hz _ rfl rfl]
      exact Complex.arg_mul_cos_add_sin_mul_I hr
        ⟨by have : 0 ≤ theta * (Real.pi / 180) := by positivity
            linarith, hle⟩
    have hd : theta * (Real.pi / 180) * (180 / Real.pi) = theta := by field_simp
    rw [harg, hd, if_neg (not_lt.mpr h0)]
  · have hgt : Real.pi < theta * (Real.pi / 180) := not_le.mp hle
    have hlt : theta * (Real.pi / 180) < 2 * Real.pi := by
      have : theta * (Real.pi / 180) < 360 * (Real.pi / 180) :=
        mul_lt_mul_of_pos_right h360 (by positivity)
      linarith
    have harg : Complex.arg ⟨x, y⟩ = theta * (Real.pi / 180) - 2 * Real.pi := by
      rw [hz (theta * (Real.pi / 180) - 2 * Real.pi) (Real.cos_sub_two_pi _)
        (Real.sin_sub_two_pi _)]
      exact Complex.arg_mul_cos_add_sin_mul_I hr ⟨by linarith, by linarith⟩
    have hd : (theta * (Real.pi / 180) - 2 * Real.pi) * (180 / Real.pi) = theta - 360 := by
      field_simp
      ring
    rw [harg, hd, if_pos (by linarith)]
    ring

/-- C16. Over exact reals (with `M_PI` read as `pi`) the angle computed by
`aviToEmotionName` lies in `[0, 360)` for every arousal and valence, and for
`(valence, arousal) ≠ (0, 0)` it is the standard polar angle of the point
`(x = valence, y = arousal)` in degrees, `atan2(arousal, valence)` normalised into
`[0, 360)`; the point is at that angle on the circle of radius
`sqrt(valence^2 + arousal^2)`. -/
theorem theta_is_polar_angle (a v : ℝ) :
    0 ≤ computeTheta realFns Real.pi a v ∧ computeTheta realFns Real.pi a v < 360 ∧
    (¬ (v = 0 ∧ a = 0) →
      computeTheta realFns Real.pi a v = polarAngleDeg v a ∧
      v = Real.sqrt (v ^ 2 + a ^ 2)
            * Real.cos (computeTheta realFns Real.pi a v * (Real.pi / 180)) ∧
      a = Real.sqrt (v ^ 2 + a ^ 2)
            * Real.sin (computeTheta realFns Real.pi a v * (Real.pi / 180))) := by
  obtain ⟨h0, h360⟩ := computeTheta_range a v
  refine ⟨h0, h360, fun hne => ?_⟩
  obtain ⟨hx, hy⟩ := computeTheta_polar a v hne
  have hr : 0 < Real.sqrt (v ^ 2 + a ^ 2) := by
    apply Real.sqrt_pos.mpr
    by_contra hle
    have hsum : v ^ 2 + a ^ 2 = 0 := le_antisymm (not_lt.mp hle) (by positivity)
    have hv : v = 0 := by nlinarith [sq_nonneg v, sq_nonneg a]
    have ha : a = 0 := by nlinarith [sq_nonneg v, sq_nonneg a]
    exact hne ⟨hv, ha⟩
  exact ⟨(polarAngleDeg_of_polar v a _ _ hr h0 h360 hx hy).symm, hx, hy⟩

section Regions

/-- C24. The seven region index lists of `FacialLandmarks` are runs of consecutive
ascending indices (jaw 0..16, right eyebrow 17..21, left eyebrow 22..26, nose
27..35, right eye 36..41, left eye 42..47, mouth 48..67), pairwise disjoint, and
together cover exactly the indices 0..67. -/
theorem region_lists_partition :
    JAW_LINE_INDICES = List.range' 0 17 ∧
    RIGHT_EYEBROW_INDICES = List.range' 17 5 ∧
    LEFT_EYEBROW_INDICES = List.range' 22 5 ∧
    NOSE_INDICES = List.range' 27 9 ∧
    RIGHT_EYE_INDICES = List.range' 36 6 ∧
    LEFT_EYE_INDICES = List.range' 42 6 ∧
    MOUTH_INDICES = List.range' 48 20 ∧
    (∀ a ∈ regionIndexLists, ∀ b ∈ regionIndexLists, a ≠ b → ∀ i ∈ a, i ∉ b) ∧
    regionIndexLists.flatten = List.range 68 ∧
    (∀ i, (∃ l ∈ regionIndexLists, i ∈ l) ↔ i < 68) := by
  have hjoin : regionIndexLists.flatten = List.range 68 := by decide
  refine ⟨by decide, by decide, by decide, by decide, by decide, by decide, by decide,
    by decide, hjoin, ?_⟩
  intro i
  rw [← List.mem_range, ← hjoin, List.mem_flatten]

end Regions

section Normalize

variable {α : Type} [LinearOrderedField α]

theorem boundingBox_bounds (landmarks : List (Point2f α)) :
    ∀ init : α × α × α × α,
      let b := landmarks.foldl
        (fun b point => (min b.1 point.x, max b.2.1 point.x, min b.2.2.1 point.y,
          max b.2.2.2 point.y)) init
      (b.1 ≤ init.1 ∧ init.2.1 ≤ b.2.1 ∧ b.2.2.1 ≤ init.2.2.1 ∧ init.2.2.2 ≤ b.2.2.2) ∧
      ∀ p ∈ landmarks, b.1 ≤ p.x ∧ p.x ≤ b.2.1 ∧ b.2.2.1 ≤ p.y ∧ p.y ≤ b.2.2.2 := by
  induction landmarks with
  | nil => intro init; simp
  | cons q l ih =>
    intro init
    simp only [List.foldl_cons]
    obtain ⟨⟨h1, h2, h3, h4⟩, hall⟩ :=
      ih (min init.1 q.x, max init.2.1 q.x, min init.2.2.1 q.y, max init.2.2.2 q.y)
    simp only at h1 h2 h3 h4
    refine ⟨⟨le_trans h1 (min_le_left _ _), le_trans (le_max_left _ _) h2,
      le_trans h3 (min_le_left _ _), le_trans (le_max_left _ _) h4⟩, ?_⟩
    intro p hp
    rcases List.mem_cons.mp hp with rfl | hp
    · exact ⟨le_trans h1 (min_le_right _ _), le_trans (le_max_right _ _) h2,
        le_trans h3 (min_le_right _ _), le_trans (le_max_right _ _) h4⟩
    · exact hall p hp

theorem boundingBox_of_coincident (first : Point2f α) (landmarks : List (Point2f α))
    (h : ∀ p ∈ landmarks, p = first) :
    boundingBox first landmarks = (first.x, first.x, first.y, first.y) := by
  unfold boundingBox
  induction landmarks with
  | nil => rfl
  | cons q l ih =>
    have hq : q = first := h q (List.mem_cons_self _ _)
    subst hq
    simp only [List.foldl_cons, min_self, max_self]
    exact ih (fun p hp => h p (List.mem_cons_of_mem _ hp))

theorem normalize_of_coincident (L : List (Point2f α)) (h : ∀ p ∈ L, ∀ q ∈ L, p = q) :
    normalizeLandmarks L = L := by
  cases L with
  | nil => rfl
  | cons first l =>
    have hb := boundingBox_of_coincident first (first :: l)
      (fun p hp => h p hp first (List.mem_cons_self _ _))
    simp [normalizeLandmarks, hb]

theorem normalize_in_unit_box (L : List (Point2f α)) (h : ∃ p ∈ L, ∃ q ∈ L, p ≠ q) :
    ∀ r ∈ normalizeLandmarks L, -1 ≤ r.x ∧ r.x ≤ 1 ∧ -1 ≤ r.y ∧ r.y ≤ 1 := by
  cases L with
  | nil =>
    obtain ⟨p, hp, -⟩ := h
    simp at hp
  | cons first l =>
    obtain ⟨⟨h1, h2, h3, h4⟩, hall⟩ := boundingBox_bounds (first :: l)
      (first.x, first.x, first.y, first.y)
    simp only at h1 h2 h3 h4 hall
    unfold normalizeLandmarks
    simp only []
    unfold boundingBox
    generalize (List.foldl (fun b point => (min b.1 point.x, max b.2.1 point.x,
      min b.2.2.1 point.y, max b.2.2.2 point.y)) (first.x, first.x, first.y, first.y)
      (first :: l)) = b at h1 h2 h3 h4 hall ⊢
    have hw : 0 ≤ b.2.1 - b.1 := by linarith
    have hh : 0 ≤ b.2.2.2 - b.2.2.1 := by linarith
    by_cases hs : max (b.2.1 - b.1) (b.2.2.2 - b.2.2.1) = 0
    · exfalso
      have hw0 : b.2.1 - b.1 ≤ 0 := hs ▸ le_max_left _ _
      have hh0 : b.2.2.2 - b.2.2.1 ≤ 0 := hs ▸ le_max_right _ _
      obtain ⟨p, hp, q, hq, hpq⟩ := h
      apply hpq
      obtain ⟨a1, a2, a3, a4⟩ := hall p hp
      obtain ⟨c1, c2, c3, c4⟩ := hall q hq
      cases p
      cases q
      simp only [Point2f.mk.injEq]
      constructor <;> linarith
    · rw [if_neg hs]
      have hpos : 0 < max (b.2.1 - b.1) (b.2.2.2 - b.2.2.1) :=
        lt_of_le_of_ne (le_trans hw (le_max_left _ _)) (Ne.symm hs)
      have hhalf : 0 < max (b.2.1 - b.1) (b.2.2.2 - b.2.2.1) / 2 := by linarith
      have hwle := le_max_left (b.2.1 - b.1) (b.2.2.2 - b.2.2.1)
      have hhle := le_max_right (b.2.1 - b.1) (b.2.2.2 - b.2.2.1)
      intro r hr
      obtain ⟨p, hp, rfl⟩ := List.mem_map.mp hr
      obtain ⟨a1, a2, a3, a4⟩ := hall p hp
      simp only []
      refine ⟨?_, ?_, ?_, ?_⟩
      · rw [le_div_iff₀ hhalf]; linarith
      · rw [div_le_iff₀ hhalf]; linarith
      · rw [le_div_iff₀ hhalf]; linarith
      · rw [div_le_iff₀ hhalf]; linarith

/-- C25, amended. Over exact reals (and over every linearly ordered field),
`FacialLandmarks::normalizeLandmarks` maps every landmark list whose points do not
all coincide into the square `[-1,1] x [-1,1]`; a list whose points all coincide
(bounding box of size zero), like the empty list, is returned unchanged. -/
theorem normalize_range_unless_degenerate (L : List (Point2f α)) :
    ((∃ p ∈ L, ∃ q ∈ L, p ≠ q) →
      ∀ r ∈ normalizeLandmarks L, -1 ≤ r.x ∧ r.x ≤ 1 ∧ -1 ≤ r.y ∧ r.y ≤ 1) ∧
    ((∀ p ∈ L, ∀ q ∈ L, p = q) → normalizeLandmarks L = L) :=
  ⟨normalize_in_unit_box L, normalize_of_coincident L⟩

end Normalize

/-- C25, as stated, fails: the one-point list `[(5,5)]` is non-empty and is
returned unchanged, with both coordinates equal to 5. -/
theorem normalize_single_point_unchanged :
    ([⟨5, 5⟩] : List (Point2f ℝ)) ≠ [] ∧
    normalizeLandmarks ([⟨5, 5⟩] : List (Point2f ℝ)) = [⟨5, 5⟩] ∧
    ¬ (∀ r ∈ normalizeLandmarks ([⟨5, 5⟩] : List (Point2f ℝ)),
        -1 ≤ r.x ∧ r.x ≤ 1 ∧ -1 ≤ r.y ∧ r.y ≤ 1) := by
  have h : normalizeLandmarks ([⟨5, 5⟩] : List (Point2f ℝ)) = [⟨5, 5⟩] :=
    normalize_of_coincident _ (by simp)
  refine ⟨by simp, h, ?_⟩
  rw [h]
  intro hall
  have := (hall ⟨5, 5⟩ (List.mem_singleton.mpr rfl)).2.1
  norm_num at this


/-- Witness for the amended C25: the two-point list `[(0,0), (4,2)]`. -/
theorem normalize_range_unless_degenerate_witness :
    (∃ p ∈ ([⟨0, 0⟩, ⟨4, 2⟩] : List (Point2f ℝ)),
      ∃ q ∈ ([⟨0, 0⟩, ⟨4, 2⟩] : List (Point2f ℝ)), p ≠ q) ∧
    ∀ r ∈ normalizeLandmarks ([⟨0, 0⟩, ⟨4, 2⟩] : List (Point2f ℝ)),
      -1 ≤ r.x ∧ r.x ≤ 1 ∧ -1 ≤ r.y ∧ r.y ≤ 1 := by
  have h : ∃ p ∈ ([⟨0, 0⟩, ⟨4, 2⟩] : List (Point2f ℝ)),
      ∃ q ∈ ([⟨0, 0⟩, ⟨4, 2⟩] : List (Point2f ℝ)), p ≠ q :=
    ⟨⟨0, 0⟩, by simp, ⟨4, 2⟩, by simp, by simp⟩
  exact ⟨h, (normalize_range_unless_degenerate _).1 h⟩

section Analyze

variable {α : Type} [LinearOrderedField α]

theorem analyze_no_landmarks (m : MathFns α) (M_PI : α) (round : α → α) (W : List α)
    (b : Bool) (predict : List α → List α) :
    analyzeEmotion m M_PI round W b predict [] = defaultResult := by
  simp [analyzeEmotion]

theorem analyze_no_features (m : MathFns α) (M_PI : α) (round : α → α) (W : List α)
    (b : Bool) (predict : List α → List α) (raw : List (Point2f α))
    (h : extractGeometricFeatures m b (frontalizeLandmarks m W raw) = []) :
    analyzeEmotion m M_PI round W b predict raw = defaultResult := by
  unfold analyzeEmotion
  simp only [h, List.isEmpty_nil, if_true]
  split <;> rfl

theorem analyze_short_prediction (m : MathFns α) (M_PI : α) (round : α → α) (W : List α)
    (b : Bool) (predict : List α → List α) (raw : List (Point2f α))
    (h : (predict (extractGeometricFeatures m b (frontalizeLandmarks m W raw))).length < 2) :
    analyzeEmotion m M_PI round W b predict raw = defaultResult := by
  unfold analyzeEmotion
  simp only []
  split
  · rfl
  · split
    · rfl
    · rw [if_neg (by omega)]

theorem analyze_of_prediction (m : MathFns α) (M_PI : α) (round : α → α) (W : List α)
    (b : Bool) (predict : List α → List α) (raw : List (Point2f α))
    (h1 : raw ≠ [])
    (h2 : extractGeometricFeatures m b (frontalizeLandmarks m W raw) ≠ [])
    (h3 : 2 ≤ (predict (extractGeometricFeatures m b (frontalizeLandmarks m W raw))).length) :
    analyzeEmotion m M_PI round W b predict raw =
      let p := predict (extractGeometricFeatures m b (frontalizeLandmarks m W raw))
      let arousal := applyLimits (p.getD 0 0)
      let valence := applyLimits (p.getD 1 0)
      let s := m.sqrt (valence * valence + arousal * arousal)
      let intensity := round ((if s > 1 then 1 else if s < 0 then 0 else s) * 1000) / 1000
      { arousal := arousal, valence := valence, intensity := intensity,
        emotion_name := aviToEmotionName m M_PI arousal valence intensity } := by
  unfold analyzeEmotion
  have e1 : raw.isEmpty = false := by
    cases raw with
    | nil => exact absurd rfl h1
    | cons _ _ => rfl
  have e2 : (extractGeometricFeatures m b (frontalizeLandmarks m W raw)).isEmpty = false := by
    cases hf : extractGeometricFeatures m b (frontalizeLandmarks m W raw) with
    | nil => exact absurd hf h2
    | cons _ _ => rfl
  simp only [e1, e2, Bool.false_eq_true, if_false]
  rw [if_pos h3]

theorem applyLimits_eq (x : α) : applyLimits x = max (-1) (min x 1) := by
  unfold applyLimits
  by_cases h1 : x > 1
  · rw [if_pos h1, min_eq_right h1.le, max_eq_right (by norm_num)]
  · rw [if_neg h1, min_eq_left (not_lt.mp h1)]
    by_cases h2 : x < -1
    · rw [if_pos h2, max_eq_left h2.le]
    · rw [if_neg h2, max_eq_right (not_lt.mp h2)]

/-- C22. When detection yields no landmarks, or feature extraction yields an empty
vector, or the model prediction has fewer than two elements, `analyzeEmotion`
returns the default estimate (arousal 0, valence 0, intensity 0, `"neutral"`); in
the first two cases the result is the same whatever the inference function is. -/
theorem analyze_returns_default (m : MathFns α) (M_PI : α) (round : α → α) (W : List α)
    (b : Bool) (predict : List α → List α) (raw : List (Point2f α))
    (h : raw = [] ∨ extractGeometricFeatures m b (frontalizeLandmarks m W raw) = [] ∨
      (predict (extractGeometricFeatures m b (frontalizeLandmarks m W raw))).length < 2) :
    analyzeEmotion m M_PI round W b predict raw
      = { arousal := 0, valence := 0, intensity := 0, emotion_name := "neutral" } ∧
    (raw = [] ∨ extractGeometricFeatures m b (frontalizeLandmarks m W raw) = [] →
      ∀ other : List α → List α,
        analyzeEmotion m M_PI round W b other raw
          = { arousal := 0, valence := 0, intensity := 0, emotion_name := "neutral" }) := by
  constructor
  · rcases h with h | h | h
    · subst h; exact analyze_no_landmarks m M_PI round W b predict
    · exact analyze_no_features m M_PI round W b predict raw h
    · exact analyze_short_prediction m M_PI round W b predict raw h
  · intro h' other
    rcases h' with h' | h'
    · subst h'; exact analyze_no_landmarks m M_PI round W b other
    · exact analyze_no_features m M_PI round W b other raw h'

end Analyze

/-- Witness for C22: a three-point detection (too short for feature extraction)
with an inference function that would return two values. -/
theorem analyze_returns_default_witness :
    (([⟨1, 2⟩, ⟨3, 4⟩, ⟨5, 6⟩] : List (Point2f ℝ)) = [] ∨
      extractGeometricFeatures realFns false
        (frontalizeLandmarks realFns [] ([⟨1, 2⟩, ⟨3, 4⟩, ⟨5, 6⟩] : List (Point2f ℝ))) = [] ∨
      ((fun _ => [1, 1]) (extractGeometricFeatures realFns false
        (frontalizeLandmarks realFns [] ([⟨1, 2⟩, ⟨3, 4⟩, ⟨5, 6⟩] : List (Point2f ℝ))))
        : List ℝ).length < 2) ∧
    analyzeEmotion realFns Real.pi stdRound [] false (fun _ => [1, 1])
        ([⟨1, 2⟩, ⟨3, 4⟩, ⟨5, 6⟩] : List (Point2f ℝ))
      = { arousal := 0, valence := 0, intensity := 0, emotion_name := "neutral" } := by
  have h : extractGeometricFeatures realFns false
      (frontalizeLandmarks realFns [] ([⟨1, 2⟩, ⟨3, 4⟩, ⟨5, 6⟩] : List (Point2f ℝ))) = [] := by
    simp [extractGeometricFeatures, frontalizeLandmarks]
  exact ⟨Or.inr (Or.inl h),
    (analyze_returns_default realFns Real.pi stdRound [] false (fun _ => [1, 1]) _
      (Or.inr (Or.inl h))).1⟩

section AnalyzeReal

theorem applyLimits_bounds (x : ℝ) : -1 ≤ applyLimits x ∧ applyLimits x ≤ 1 := by
  rw [applyLimits_eq]
  exact ⟨le_max_left _ _, max_le (by norm_num) (min_le_right _ _)⟩

theorem clamp_sqrt_eq_min (t : ℝ) :
    (if Real.sqrt t > 1 then 1 else if Real.sqrt t < 0 then 0 else Real.sqrt t)
      = min 1 (Real.sqrt t) := by
  by_cases h : Real.sqrt t > 1
  · rw [if_pos h, min_eq_left h.le]
  · rw [if_neg h, if_neg (not_lt.mpr (Real.sqrt_nonneg t)), min_eq_right (not_lt.mp h)]

theorem stdRound_unit_interval (t : ℝ) (h0 : 0 ≤ t) (h1 : t ≤ 1) :
    ∃ n : ℕ, n ≤ 1000 ∧ stdRound (t * 1000) / 1000 = (n : ℝ) / 1000 := by
  have hx : 0 ≤ t * 1000 := by positivity
  have hfl0 : 0 ≤ ⌊t * 1000 + 1 / 2⌋ := Int.floor_nonneg.mpr (by linarith)
  have hfl1 : ⌊t * 1000 + 1 / 2⌋ ≤ 1000 := by
    have : ⌊t * 1000 + 1 / 2⌋ < 1001 := by
      rw [Int.floor_lt]
      push_cast
      linarith
    omega
  refine ⟨⌊t * 1000 + 1 / 2⌋.toNat, by omega, ?_⟩
  unfold stdRound
  rw [if_pos hx]
  congr 1
  have : ((⌊t * 1000 + 1 / 2⌋.toNat : ℤ) : ℝ) = ((⌊t * 1000 + 1 / 2⌋ : ℤ) : ℝ) := by
    rw [Int.toNat_of_nonneg hfl0]
  rw [← this]
  norm_cast

/-- C21, amended. Over exact reals, where every prediction element is a real
number (no NaN) and `std::round` rounds halves away from zero: when the pipeline
reaches the model and the prediction `(p0, p1, ...)` has at least two elements,
the result of `analyzeEmotion` has arousal `clamp(p0,-1,1)`,
valence `clamp(p1,-1,1)`, intensity
`round(1000 * min(1, sqrt(arousal^2 + valence^2))) / 1000`, so arousal and valence
lie in `[-1,1]`, the intensity is `n/1000` for an integer `0 <= n <= 1000`, and the
name is `aviToEmotionName(arousal, valence, intensity)`. -/
theorem analyze_clamps_and_rounds (W : List ℝ) (b : Bool) (predict : List ℝ → List ℝ)
    (raw : List (Point2f ℝ)) (h1 : raw ≠ [])
    (h2 : extractGeometricFeatures realFns b (frontalizeLandmarks realFns W raw) ≠ [])
    (h3 : 2 ≤ (predict (extractGeometricFeatures realFns b
      (frontalizeLandmarks realFns W raw))).length) :
    (analyzeEmotion realFns Real.pi stdRound W b predict raw).arousal
      = max (-1) (min ((predict (extractGeometricFeatures realFns b
          (frontalizeLandmarks realFns W raw))).getD 0 0) 1) ∧
    (analyzeEmotion realFns Real.pi stdRound W b predict raw).valence
      = max (-1) (min ((predict (extractGeometricFeatures realFns b
          (frontalizeLandmarks realFns W raw))).getD 1 0) 1) ∧
    (analyzeEmotion realFns Real.pi stdRound W b predict raw).intensity
      = stdRound (1000 * min 1 (Real.sqrt
          ((analyzeEmotion realFns Real.pi stdRound W b predict raw).arousal ^ 2
            + (analyzeEmotion realFns Real.pi stdRound W b predict raw).valence ^ 2))) / 1000 ∧
    (-1 ≤ (analyzeEmotion realFns Real.pi stdRound W b predict raw).arousal ∧
      (analyzeEmotion realFns Real.pi stdRound W b predict raw).arousal ≤ 1) ∧
    (-1 ≤ (analyzeEmotion realFns Real.pi stdRound W b predict raw).valence ∧
      (analyzeEmotion realFns Real.pi stdRound W b predict raw).valence ≤ 1) ∧
    (0 ≤ (analyzeEmotion realFns Real.pi stdRound W b predict raw).intensity ∧
      (analyzeEmotion realFns Real.pi stdRound W b predict raw).intensity ≤ 1) ∧
    (∃ n : ℕ, n ≤ 1000 ∧
      (analyzeEmotion realFns Real.pi stdRound W b predict raw).intensity = (n : ℝ) / 1000) ∧
    (analyzeEmotion realFns Real.pi stdRound W b predict raw).emotion_name
      = aviToEmotionName realFns Real.pi
          (analyzeEmotion realFns Real.pi stdRound W b predict raw).arousal
          (analyzeEmotion realFns Real.pi stdRound W b predict raw).valence
          (analyzeEmotion realFns Real.pi stdRound W b predict raw).intensity := by
  rw [analyze_of_prediction realFns Real.pi stdRound W b predict raw h1 h2 h3]
  simp only []
  have hs : ∀ A V : ℝ,
      stdRound ((if realFns.sqrt (V * V + A * A) > 1 then 1
        else if realFns.sqrt (V * V + A * A) < 0 then 0
        else realFns.sqrt (V * V + A * A)) * 1000) / 1000
      = stdRound (1000 * min 1 (Real.sqrt (A ^ 2 + V ^ 2))) / 1000 := by
    intro A V
    have e : realFns.sqrt (V * V + A * A) = Real.sqrt (A ^ 2 + V ^ 2) := by
      have : V * V + A * A = A ^ 2 + V ^ 2 := by ring
      rw [← this]
      rfl
    rw [e, clamp_sqrt_eq_min, mul_comm]
  rw [hs]
  obtain ⟨n, hn, hn'⟩ := stdRound_unit_interval
    (min 1 (Real.sqrt (applyLimits ((predict (extractGeometricFeatures realFns b
      (frontalizeLandmarks realFns W raw))).getD 0 0) ^ 2
      + applyLimits ((predict (extractGeometricFeatures realFns b
      (frontalizeLandmarks realFns W raw))).getD 1 0) ^ 2)))
    (le_min (by norm_num) (Real.sqrt_nonneg _)) (min_le_left _ _)
  rw [mul_comm] at hn'
  have hn1 : (n : ℝ) ≤ 1000 := by exact_mod_cast hn
  have hn0 : (0 : ℝ) ≤ (n : ℝ) := Nat.cast_nonneg n
  refine ⟨applyLimits_eq _, applyLimits_eq _, rfl, applyLimits_bounds _, applyLimits_bounds _,
    ?_, ⟨n, hn, hn'⟩, trivial⟩
  rw [hn']
  constructor
  · positivity
  · rw [div_le_one (by norm_num)]
    exact hn1

end AnalyzeReal

theorem levelEyesFace_features_ne_nil :
    extractGeometricFeatures realFns false
      (frontalizeLandmarks realFns [] (levelEyesFace : List (Point2f ℝ))) ≠ [] := by
  have hF : frontalizeLandmarks realFns [] (levelEyesFace : List (Point2f ℝ)) = levelEyesFace := by
    simp [frontalizeLandmarks]
  rw [hF]
  intro h0
  have hlen := length_extract_of_ge realFns false (levelEyesFace : List (Point2f ℝ))
    (le_of_eq levelEyesFace_facts.1.symm)
  rw [h0] at hlen
  simp at hlen

/-- Witness for the amended C21: detection `levelEyesFace`, no frontalization model, reduced
features, and a model that predicts `(3, -0.5)`: arousal is clamped to `1`. -/
theorem analyze_clamps_and_rounds_witness :
    (levelEyesFace : List (Point2f ℝ)) ≠ [] ∧
    extractGeometricFeatures realFns false
      (frontalizeLandmarks realFns [] (levelEyesFace : List (Point2f ℝ))) ≠ [] ∧
    2 ≤ ((fun _ => [3, -0.5]) (extractGeometricFeatures realFns false
      (frontalizeLandmarks realFns [] (levelEyesFace : List (Point2f ℝ)))) : List ℝ).length ∧
    (analyzeEmotion realFns Real.pi stdRound [] false (fun _ => [3, -0.5])
      (levelEyesFace : List (Point2f ℝ))).arousal = 1 := by
  have h1 : (levelEyesFace : List (Point2f ℝ)) ≠ [] := by
    intro h0
    have := levelEyesFace_facts.1
    rw [h0] at this
    simp at this
  have h3 : 2 ≤ ((fun _ => [3, -0.5]) (extractGeometricFeatures realFns false
      (frontalizeLandmarks realFns [] (levelEyesFace : List (Point2f ℝ)))) : List ℝ).length := by
    simp
  refine ⟨h1, levelEyesFace_features_ne_nil, h3, ?_⟩
  rw [(analyze_clamps_and_rounds [] false (fun _ => [3, -0.5]) levelEyesFace h1
    levelEyesFace_features_ne_nil h3).1]
  norm_num

/-- C23, amended. Over exact reals, for every 68-point landmark set whose points
all coincide, the computed scale is `0`, so the scaling step is skipped; the eye
x-difference is `0`, so the rotation step is skipped; and the result is 68 points
all equal to `(0,0)`. -/
theorem coincident_maps_to_origin (L : List (Point2f ℝ)) (h : L.length = 68)
    (hall : ∀ p ∈ L, ∀ q ∈ L, p = q) :
    procrustesScale realFns L = 0 ∧
    scaled realFns L = centered L ∧
    eyeDx (scaled realFns L) = 0 ∧
    procrustesStandardization realFns L = scaled realFns L ∧
    (procrustesStandardization realFns L).length = 68 ∧
    (∀ p ∈ procrustesStandardization realFns L, p = ⟨0, 0⟩) ∧
    procrustesStandardization realFns L = List.replicate 68 ⟨0, 0⟩ := by
  have hP := procrustes_of_coincident L h hall
  have hs : ¬ 0 < procrustesScale realFns L := by
    rw [procrustesScale_pos_iff L h]
    rintro ⟨p, hp, q, hq, hpq⟩
    exact hpq (hall p hp q hq)
  have hs0 : procrustesScale realFns L = 0 := by
    have hnn : 0 ≤ procrustesScale realFns L := by
      rw [procrustesScale_real]; exact Real.sqrt_nonneg _
    exact le_antisymm (not_lt.mp hs) hnn
  have hsc : scaled realFns L = centered L := by
    simp [scaled, hs]
  obtain ⟨-, -, -, hrot, hskip⟩ := procrustes_real_props L h
  have hdx : eyeDx (scaled realFns L) = 0 := by
    by_contra hne
    have hsq := sumSq_centered_of_scale_not_pos L h hs
    rw [sumSq_eq_zero_iff] at hsq
    apply hne
    rw [hsc]
    have hc : centered L = List.replicate 68 ⟨0, 0⟩ := by
      rw [List.eq_replicate_iff]
      exact ⟨by rw [length_centered, h], hsq⟩
    rw [hc]
    simp only [eyeDx, eyeCenter_eq, List.getD_eq_getElem?_getD, List.getElem?_replicate]
    norm_num
  refine ⟨hs0, hsc, hdx, hskip hdx, by rw [length_procrustes, h], ?_, hP⟩
  intro p hp
  rw [hP] at hp
  exact List.eq_of_mem_replicate hp

/-- Witness for the amended C23: the set `coincidentFace` of 68 points at `(1,1)`. -/
theorem coincident_maps_to_origin_witness :
    (coincidentFace : List (Point2f ℝ)).length = 68 ∧
    (∀ p ∈ (coincidentFace : List (Point2f ℝ)),
      ∀ q ∈ (coincidentFace : List (Point2f ℝ)), p = q) ∧
    procrustesStandardization realFns (coincidentFace : List (Point2f ℝ))
      = List.replicate 68 ⟨0, 0⟩ := by
  have hall : ∀ p ∈ (coincidentFace : List (Point2f ℝ)),
      ∀ q ∈ (coincidentFace : List (Point2f ℝ)), p = q := by
    intro p hp q hq
    rw [coincidentFace] at hp hq
    rw [List.eq_of_mem_replicate hp, List.eq_of_mem_replicate hq]
  exact ⟨coincidentFace_length, hall,
    (coincident_maps_to_origin coincidentFace coincidentFace_length hall).2.2.2.2.2.2⟩

section Direction

variable {α : Type} [LinearOrderedField α]

theorem computeTheta_scale (m : MathFns α) (M_PI a v c : α) (hc : 0 < c) :
    computeTheta m M_PI (c * a) (c * v) = computeTheta m M_PI a v := by
  unfold computeTheta
  by_cases hv : v = 0
  · subst hv
    have ha : c * a ≥ 0 ↔ a ≥ 0 := by
      constructor
      · intro h; exact (mul_nonneg_iff_of_pos_left hc).mp h
      · intro h; exact mul_nonneg hc.le h
    simp only [mul_zero, if_true, ha]
  · have hcv : c * v ≠ 0 := mul_ne_zero hc.ne' hv
    have hdiv : c * a / (c * v) = a / v := mul_div_mul_left a v hc.ne'
    have h1 : c * v < 0 ↔ v < 0 := by
      constructor
      · intro h; by_contra hn; exact absurd (mul_nonneg hc.le (not_lt.mp hn)) (not_le.mpr h)
      · intro h; exact mul_neg_of_pos_of_neg hc h
    have h2 : c * a < 0 ↔ a < 0 := by
      constructor
      · intro h; by_contra hn; exact absurd (mul_nonneg hc.le (not_lt.mp hn)) (not_le.mpr h)
      · intro h; exact mul_neg_of_pos_of_neg hc h
    simp only [hv, hcv, if_false, hdiv, h1, h2]

end Direction

/-- C30. Over exact reals, with a supplied intensity `i >= 0` the label depends on
`(arousal, valence)` only through their direction:
`aviToEmotionName(c*a, c*v, i) = aviToEmotionName(a, v, i)` for every `c > 0`. -/
theorem avi_direction_only (a v i c : ℝ) (hi : 0 ≤ i) (hc : 0 < c) :
    aviToEmotionName realFns Real.pi (c * a) (c * v) i
      = aviToEmotionName realFns Real.pi a v i := by
  unfold aviToEmotionName
  rw [effectiveIntensity_nonneg realFns (c * a) (c * v) i hi,
    effectiveIntensity_nonneg realFns a v i hi, computeTheta_scale realFns Real.pi a v c hc]

/-- Witness for C30: arousal `0.9`, valence `0.9`, intensity `0.5`, factor `2`. -/
theorem avi_direction_only_witness :
    (0 : ℝ) ≤ 0.5 ∧ (0 : ℝ) < 2 ∧
    aviToEmotionName realFns Real.pi (2 * 0.9 : ℝ) (2 * 0.9) 0.5
      = aviToEmotionName realFns Real.pi (0.9 : ℝ) 0.9 0.5 :=
  ⟨by norm_num, by norm_num, avi_direction_only 0.9 0.9 0.5 2 (by norm_num) (by norm_num)⟩

section EyeRotation

theorem sqrt_sq_add_sq (dx dy : ℝ) (h : dx ≠ 0) :
    Real.sqrt (dx ^ 2 + dy ^ 2) = |dx| * Real.sqrt (1 + (dy / dx) ^ 2) := by
  have e : dx ^ 2 + dy ^ 2 = dx ^ 2 * (1 + (dy / dx) ^ 2) := by field_simp
  rw [e, Real.sqrt_mul (sq_nonneg dx), Real.sqrt_sq_eq_abs]

theorem rot_arctan_dx (dx dy : ℝ) (h : dx ≠ 0) :
    dx * Real.cos (Real.arctan (dy / dx)) + dy * Real.sin (Real.arctan (dy / dx))
      = dx * Real.sqrt (1 + (dy / dx) ^ 2) := by
  rw [Real.sin_arctan, Real.cos_arctan]
  have hpos : 0 < 1 + (dy / dx) ^ 2 := by positivity
  have hr : Real.sqrt (1 + (dy / dx) ^ 2) ≠ 0 := (Real.sqrt_pos.mpr hpos).ne'
  have hr2 : Real.sqrt (1 + (dy / dx) ^ 2) * Real.sqrt (1 + (dy / dx) ^ 2)
      = 1 + (dy / dx) ^ 2 := Real.mul_self_sqrt hpos.le
  have ht : dy = dx * (dy / dx) := by field_simp
  generalize Real.sqrt (1 + (dy / dx) ^ 2) = r at hr hr2 ⊢
  generalize dy / dx = t at ht hr2 ⊢
  subst ht
  have e : dx * (1 / r) + dx * t * (t / r) = dx * (1 + t ^ 2) / r := by ring
  rw [e, div_eq_iff hr, ← hr2]
  ring

/-- C29. For every 68-point landmark set whose eye-centre difference `(dx, dy)`
after centring and scaling has `dx ≠ 0`, the output is the scaled set rotated by
`atan(dy/dx)`, an angle strictly between -90 and 90 degrees, and the eye-centre
difference of the output is `(sign(dx) * sqrt(dx^2 + dy^2), 0)`: the eyes become
level and the sign of `dx` is kept. -/
theorem rotation_keeps_eye_order (L : List (Point2f ℝ)) (h : L.length = 68)
    (hdx : eyeDx (scaled realFns L) ≠ 0) :
    procrustesStandardization realFns L =
      rotatePoints
        (Real.cos (Real.arctan (eyeDy (scaled realFns L) / eyeDx (scaled realFns L))))
        (Real.sin (Real.arctan (eyeDy (scaled realFns L) / eyeDx (scaled realFns L))))
        (scaled realFns L) ∧
    (-(Real.pi / 2) < Real.arctan (eyeDy (scaled realFns L) / eyeDx (scaled realFns L)) ∧
      Real.arctan (eyeDy (scaled realFns L) / eyeDx (scaled realFns L)) < Real.pi / 2) ∧
    eyeDx (procrustesStandardization realFns L) =
      Real.sign (eyeDx (scaled realFns L))
        * Real.sqrt (eyeDx (scaled realFns L) ^ 2 + eyeDy (scaled realFns L) ^ 2) ∧
    eyeDy (procrustesStandardization realFns L) = 0 ∧
    (0 < eyeDx (scaled realFns L) → 0 < eyeDx (procrustesStandardization realFns L)) ∧
    (eyeDx (scaled realFns L) < 0 → eyeDx (procrustesStandardization realFns L) < 0) := by
  have hlen : (scaled realFns L).length = 68 := by rw [length_scaled, h]
  have hP : procrustesStandardization realFns L =
      rotatePoints
        (Real.cos (Real.arctan (eyeDy (scaled realFns L) / eyeDx (scaled realFns L))))
        (Real.sin (Real.arctan (eyeDy (scaled realFns L) / eyeDx (scaled realFns L))))
        (scaled realFns L) := by
    rw [procrustes_real_eq L h, if_pos hdx]
  have hpos : 0 < Real.sqrt (1 + (eyeDy (scaled realFns L) / eyeDx (scaled realFns L)) ^ 2) :=
    Real.sqrt_pos.mpr (by positivity)
  have hX : eyeDx (procrustesStandardization realFns L) =
      eyeDx (scaled realFns L)
        * Real.sqrt (1 + (eyeDy (scaled realFns L) / eyeDx (scaled realFns L)) ^ 2) := by
    rw [hP, eyeDx_rotatePoints _ _ _ hlen]
    exact rot_arctan_dx _ _ hdx
  have hY : eyeDy (procrustesStandardization realFns L) = 0 := by
    rw [hP, eyeDy_rotatePoints _ _ _ hlen]
    exact rot_arctan_dy _ _ hdx
  refine ⟨hP, ⟨Real.neg_pi_div_two_lt_arctan _, Real.arctan_lt_pi_div_two _⟩, ?_, hY, ?_, ?_⟩
  · rw [hX, sqrt_sq_add_sq _ _ hdx]
    rcases lt_or_gt_of_ne hdx with hneg | hgt
    · rw [Real.sign_of_neg hneg, abs_of_neg hneg]; ring
    · rw [Real.sign_of_pos hgt, abs_of_pos hgt]; ring
  · intro hgt
    rw [hX]
    exact mul_pos hgt hpos
  · intro hneg
    rw [hX]
    exact mul_neg_of_neg_of_pos hneg hpos

/-- Witness for C29: `levelEyesFace`, whose eye x-difference after centring and
scaling is `2`. -/
theorem rotation_keeps_eye_order_witness :
    (levelEyesFace : List (Point2f ℝ)).length = 68 ∧
    eyeDx (scaled realFns (levelEyesFace : List (Point2f ℝ))) ≠ 0 ∧
    eyeDy (procrustesStandardization realFns (levelEyesFace : List (Point2f ℝ))) = 0 := by
  obtain ⟨hlen, hx, hy, hsq, hdx, -⟩ := levelEyesFace_facts
  have hne : eyeDx (scaled realFns (levelEyesFace : List (Point2f ℝ))) ≠ 0 := by
    rw [scaled_of_standard _ hlen hx hy (Or.inl hsq), hdx]
    norm_num
  exact ⟨hlen, hne, (rotation_keeps_eye_order levelEyesFace hlen hne).2.2.2.1⟩

end EyeRotation

section Affine

variable {α : Type} [LinearOrderedField α]

theorem length_affineImage (c : α) (t : Point2f α) (L : List (Point2f α)) :
    (affineImage c t L).length = L.length := by
  simp [affineImage]

theorem sum_map_affine {β : Type} (f : β → α) (c d : α) (l : List β) :
    (l.map (fun b => c * f b + d)).sum = c * (l.map f).sum + (l.length : α) * d := by
  induction l with
  | nil => simp
  | cons b l ih => simp [ih]; ring

theorem centroid_affineImage (c : α) (t : Point2f α) (L : List (Point2f α))
    (hne : L.length ≠ 0) :
    centroid (affineImage c t L) = ⟨c * (centroid L).x + t.x, c * (centroid L).y + t.y⟩ := by
  have hn : (L.length : α) ≠ 0 := by exact_mod_cast hne
  rw [centroid_eq, centroid_eq, length_affineImage]
  simp only [sumX, sumY, affineImage, List.map_map, Function.comp_def, Point2f.mk.injEq]
  rw [sum_map_affine (fun p : Point2f α => p.x), sum_map_affine (fun p : Point2f α => p.y)]
  constructor <;> (field_simp; ring)

theorem centered_affineImage (c : α) (t : Point2f α) (L : List (Point2f α))
    (hne : L.length ≠ 0) :
    centered (affineImage c t L) = (centered L).map (fun p => ⟨c * p.x, c * p.y⟩) := by
  unfold centered
  simp only []
  rw [centroid_affineImage c t L hne]
  simp only [affineImage, List.map_map, Function.comp_def]
  apply List.map_congr_left
  intro p _
  simp only [Point2f.mk.injEq]
  constructor <;> ring

theorem sumSq_map_mul (c : α) (L : List (Point2f α)) :
    sumSq (L.map (fun p => (⟨c * p.x, c * p.y⟩ : Point2f α))) = c ^ 2 * sumSq L := by
  simp only [sumSq, List.map_map, Function.comp_def]
  have h := sum_map_affine (fun p : Point2f α => p.x * p.x + p.y * p.y) (c ^ 2) 0 L
  simp only [mul_zero, add_zero] at h
  rw [← h]
  congr 1
  apply List.map_congr_left
  intro p _
  ring

theorem specScale_eq_procrustesScale (m : MathFns α) (L : List (Point2f α))
    (idxs : List Nat) :
    specScale m L idxs = procrustesScale m (idxs.map (fun i => L.getD i ⟨0, 0⟩)) := by
  unfold specScale procrustesScale
  rw [sumSquaredDistances_eq]
  simp only [sumSq, centered, centroid_eq, sumX, sumY, List.map_map, Function.comp_def,
    List.length_map, pow_two]

theorem map_getD_affineImage (c : α) (t : Point2f α) (L : List (Point2f α))
    (idxs : List Nat) (h : ∀ i ∈ idxs, i < L.length) :
    idxs.map (fun i => (affineImage c t L).getD i ⟨0, 0⟩)
      = affineImage c t (idxs.map (fun i => L.getD i ⟨0, 0⟩)) := by
  simp only [affineImage, List.map_map, Function.comp_def]
  apply List.map_congr_left
  intro i hi
  exact getD_map_of_lt _ L i (h i hi) _ _

end Affine

section AffineReal

theorem procrustesScale_affineImage (c : ℝ) (t : Point2f ℝ) (L : List (Point2f ℝ))
    (hne : L.length ≠ 0) :
    procrustesScale realFns (affineImage c t L) = |c| * procrustesScale realFns L := by
  rw [procrustesScale_real, procrustesScale_real, centered_affineImage c t L hne,
    sumSq_map_mul, length_affineImage, mul_div_assoc, Real.sqrt_mul (sq_nonneg c),
    Real.sqrt_sq_eq_abs]

theorem calculateDistance_affine (c : ℝ) (t p q : Point2f ℝ) :
    calculateDistance realFns ⟨c * p.x + t.x, c * p.y + t.y⟩ ⟨c * q.x + t.x, c * q.y + t.y⟩
      = |c| * calculateDistance realFns p q := by
  have e : (c * p.x + t.x - (c * q.x + t.x)) * (c * p.x + t.x - (c * q.x + t.x))
      + (c * p.y + t.y - (c * q.y + t.y)) * (c * p.y + t.y - (c * q.y + t.y))
      = c ^ 2 * ((p.x - q.x) * (p.x - q.x) + (p.y - q.y) * (p.y - q.y)) := by ring
  simp only [calculateDistance, realFns]
  rw [e, Real.sqrt_mul (sq_nonneg c), Real.sqrt_sq_eq_abs]

theorem sumSq_centered_of_scale_not_pos_gen (L : List (Point2f ℝ)) (hne : L.length ≠ 0)
    (hs : ¬ 0 < procrustesScale realFns L) : sumSq (centered L) = 0 := by
  rw [procrustesScale_real, Real.sqrt_pos] at hs
  have h0 := sumSq_nonneg (centered L)
  have hn : (0 : ℝ) < (L.length : ℝ) := by
    exact_mod_cast Nat.pos_of_ne_zero hne
  have h1 : sumSq (centered L) / (L.length : ℝ) ≤ 0 := not_lt.mp hs
  have h2 : sumSq (centered L) ≤ 0 := by
    have h4 := mul_le_mul_of_nonneg_right h1 hn.le
    rw [div_mul_cancel₀ _ hn.ne', zero_mul] at h4
    exact h4
  linarith

theorem procrustesScale_pos_iff_gen (L : List (Point2f ℝ)) (hne : L.length ≠ 0) :
    0 < procrustesScale realFns L ↔ ∃ p ∈ L, ∃ q ∈ L, p ≠ q := by
  have h1 : (0 < procrustesScale realFns L) ↔ sumSq (centered L) ≠ 0 := by
    constructor
    · intro hp h0
      have := procrustesScale_mul_self L
      rw [h0, zero_div] at this
      have h2 := mul_pos hp hp
      linarith
    · intro hq
      by_contra hn
      exact hq (sumSq_centered_of_scale_not_pos_gen L hne hn)
  rw [h1, Ne, sumSq_eq_zero_iff, centered_all_zero_iff, all_eq_centroid_iff L hne]
  push_neg
  rfl

theorem calculateScale_real_eq (b : Bool) (L : List (Point2f ℝ)) (h : 68 ≤ L.length) :
    calculateScale realFns L (scaleLandmarkIndices b)
      = procrustesScale realFns ((scaleLandmarkIndices b).map (fun i => L.getD i ⟨0, 0⟩)) := by
  rw [calculateScale_eq_specScale realFns L _ (scaleLandmarkIndices_ne_nil b)
    (fun idx hidx => lt_of_lt_of_le (scaleLandmarkIndices_lt b idx hidx) h),
    specScale_eq_procrustesScale]

theorem calculateScale_affineImage (b : Bool) (c : ℝ) (t : Point2f ℝ) (L : List (Point2f ℝ))
    (h : 68 ≤ L.length) :
    calculateScale realFns (affineImage c t L) (scaleLandmarkIndices b)
      = |c| * calculateScale realFns L (scaleLandmarkIndices b) := by
  have hlen : 68 ≤ (affineImage c t L).length := by rw [length_affineImage]; exact h
  rw [calculateScale_real_eq b _ hlen, calculateScale_real_eq b L h,
    map_getD_affineImage c t L _
      (fun idx hidx => lt_of_lt_of_le (scaleLandmarkIndices_lt b idx hidx) h)]
  apply procrustesScale_affineImage
  rw [List.length_map]
  intro h0
  exact scaleLandmarkIndices_ne_nil b (List.length_eq_zero.mp h0)

end AffineReal

section InvarianceClaims

theorem exists_ne_map_getD (L : List (Point2f ℝ)) (idxs : List Nat) :
    (∃ p ∈ idxs.map (fun i => L.getD i ⟨0, 0⟩),
      ∃ q ∈ idxs.map (fun i => L.getD i ⟨0, 0⟩), p ≠ q)
    ↔ ∃ i ∈ idxs, ∃ j ∈ idxs, L.getD i ⟨0, 0⟩ ≠ L.getD j ⟨0, 0⟩ := by
  constructor
  · rintro ⟨p, hp, q, hq, hpq⟩
    obtain ⟨i, hi, rfl⟩ := List.mem_map.mp hp
    obtain ⟨j, hj, rfl⟩ := List.mem_map.mp hq
    exact ⟨i, hi, j, hj, hpq⟩
  · rintro ⟨i, hi, j, hj, hij⟩
    exact ⟨_, List.mem_map.mpr ⟨i, hi, rfl⟩, _, List.mem_map.mpr ⟨j, hj, rfl⟩, hij⟩

theorem calculateScale_pos_iff (b : Bool) (L : List (Point2f ℝ)) (h : 68 ≤ L.length) :
    0 < calculateScale realFns L (scaleLandmarkIndices b) ↔
      ∃ i ∈ scaleLandmarkIndices b, ∃ j ∈ scaleLandmarkIndices b,
        L.getD i ⟨0, 0⟩ ≠ L.getD j ⟨0, 0⟩ := by
  rw [calculateScale_real_eq b L h, procrustesScale_pos_iff_gen, exists_ne_map_getD]
  rw [List.length_map]
  intro h0
  exact scaleLandmarkIndices_ne_nil b (List.length_eq_zero.mp h0)

theorem calculateScale_nonneg (b : Bool) (L : List (Point2f ℝ)) (h : 68 ≤ L.length) :
    0 ≤ calculateScale realFns L (scaleLandmarkIndices b) := by
  rw [calculateScale_real_eq b L h, procrustesScale_real]
  exact Real.sqrt_nonneg _

/-- C26, amended. Over exact reals, for every landmark sequence `L` with at least
68 points, the scale returned by `calculateScale` over the scale subset (17..67 in
reduced mode, 0..67 in full mode) is `>= 0`, is `0` exactly when all landmarks of
the scale subset coincide, and is strictly positive when two of them differ; when
it is not zero, every feature is a distance divided by it.  In binary32 (sequence
`F`) every feature is the `float` quotient of a distance by the scale, whatever
the scale is (there is no guard), and a `float` division by zero never gives a
finite value. -/
theorem scale_zero_iff_subset_coincides (b : Bool) (L : List (Point2f ℝ))
    (h : 68 ≤ L.length) (atan cos sin : F32 → F32) (F : List (Point2f F32))
    (hF : 68 ≤ F.length) :
    0 ≤ calculateScale realFns L (scaleLandmarkIndices b) ∧
    (calculateScale realFns L (scaleLandmarkIndices b) = 0 ↔
      ∀ i ∈ scaleLandmarkIndices b, ∀ j ∈ scaleLandmarkIndices b,
        L.getD i ⟨0, 0⟩ = L.getD j ⟨0, 0⟩) ∧
    ((∃ i ∈ scaleLandmarkIndices b, ∃ j ∈ scaleLandmarkIndices b,
        L.getD i ⟨0, 0⟩ ≠ L.getD j ⟨0, 0⟩) →
      0 < calculateScale realFns L (scaleLandmarkIndices b)) ∧
    (∀ i, i ∈ scaleLandmarkIndices b ↔ (if b then i < 68 else 17 ≤ i ∧ i < 68)) ∧
    (calculateScale realFns L (scaleLandmarkIndices b) ≠ 0 →
      extractGeometricFeatures realFns b L =
        pairFeatures realFns L (if b then 68 else 51)
          (calculateScale realFns L (scaleLandmarkIndices b))) ∧
    extractGeometricFeatures (binary32Fns atan cos sin) b F =
      pairFeatures (binary32Fns atan cos sin) F (if b then 68 else 51)
        (calculateScale (binary32Fns atan cos sin) F (scaleLandmarkIndices b)) ∧
    (∀ d : F32, d / (0 : F32) = F32.nan ∨ d / (0 : F32) = F32.inf false
      ∨ d / (0 : F32) = F32.inf true) := by
  have hnn := calculateScale_nonneg b L h
  have hpos := calculateScale_pos_iff b L h
  refine ⟨hnn, ?_, hpos.mpr, mem_scaleLandmarkIndices b,
    fun _ => extract_eq_pairFeatures realFns b L h,
    extract_eq_pairFeatures (binary32Fns atan cos sin) b F hF, ?_⟩
  · constructor
    · intro h0 i hi j hj
      by_contra hne
      have := hpos.mpr ⟨i, hi, j, hj, hne⟩
      rw [h0] at this
      exact lt_irrefl _ this
    · intro hall
      have hnp : ¬ 0 < calculateScale realFns L (scaleLandmarkIndices b) := by
        rw [hpos]
        rintro ⟨i, hi, j, hj, hne⟩
        exact hne (hall i hi j hj)
      exact le_antisymm (not_lt.mp hnp) hnn
  · intro d
    cases d with
    | fin q =>
      show F32.div (F32.fin q) (F32.fin 0) = F32.nan ∨ F32.div (F32.fin q) (F32.fin 0)
        = F32.inf false ∨ F32.div (F32.fin q) (F32.fin 0) = F32.inf true
      simp only [F32.div, eq_self_iff_true, if_true]
      by_cases hq : q = 0
      · rw [if_pos hq]
        exact Or.inl rfl
      · rw [if_neg hq]
        cases decide (q < 0)
        · exact Or.inr (Or.inl rfl)
        · exact Or.inr (Or.inr rfl)
    | inf s =>
      cases s
      · exact Or.inr (Or.inl rfl)
      · exact Or.inr (Or.inr rfl)
    | nan => exact Or.inl rfl

/-- Witness for the amended C26: `levelEyesFace` in reduced mode, over the reals and
in binary32. -/
theorem scale_zero_iff_subset_coincides_witness :
    68 ≤ (levelEyesFace : List (Point2f ℝ)).length ∧
    68 ≤ (levelEyesFace : List (Point2f F32)).length ∧
    0 ≤ calculateScale realFns (levelEyesFace : List (Point2f ℝ)) (scaleLandmarkIndices false) :=
  ⟨le_of_eq levelEyesFace_facts.1.symm, by decide,
    (scale_zero_iff_subset_coincides false levelEyesFace
      (le_of_eq levelEyesFace_facts.1.symm) id id id levelEyesFace (by decide)).1⟩

/-- C27. Over exact reals, for every landmark sequence `L` with at least 68 points
and non-zero scale, every translation `t` and every factor `c ≠ 0`,
`extractGeometricFeatures(c*L + t) = extractGeometricFeatures(L)` in both feature
modes; the scale of `c*L + t` is `|c|` times the scale of `L`. -/
theorem extract_affine_invariant (b : Bool) (L : List (Point2f ℝ)) (c : ℝ) (t : Point2f ℝ)
    (h : 68 ≤ L.length) (hc : c ≠ 0)
    (hs : calculateScale realFns L (scaleLandmarkIndices b) ≠ 0) :
    extractGeometricFeatures realFns b (affineImage c t L)
      = extractGeometricFeatures realFns b L ∧
    calculateScale realFns (affineImage c t L) (scaleLandmarkIndices b)
      = |c| * calculateScale realFns L (scaleLandmarkIndices b) ∧
    calculateScale realFns (affineImage c t L) (scaleLandmarkIndices b) ≠ 0 := by
  have hlen : 68 ≤ (affineImage c t L).length := by rw [length_affineImage]; exact h
  have habs : |c| ≠ 0 := abs_ne_zero.mpr hc
  have hscale := calculateScale_affineImage b c t L h
  refine ⟨?_, hscale, by rw [hscale]; exact mul_ne_zero habs hs⟩
  rw [extract_eq_pairFeatures realFns b _ hlen, extract_eq_pairFeatures realFns b L h, hscale]
  unfold pairFeatures
  have hk : (if b then 68 else 51) ≤ L.length := by
    cases b
    · simp only [Bool.false_eq_true, if_false]; omega
    · simp only [if_true]; exact h
  apply List.flatMap_congr
  intro i hi
  rw [List.mem_range] at hi
  apply List.map_congr_left
  intro j hj
  rw [List.mem_range'_1] at hj
  have hi' : i < L.length := by omega
  have hj' : j < L.length := by omega
  unfold affineImage
  rw [getD_map_of_lt _ L i hi' _ ⟨0, 0⟩, getD_map_of_lt _ L j hj' _ ⟨0, 0⟩,
    calculateDistance_affine, mul_div_mul_left _ _ habs]

/-- Witness for C27: `levelEyesFace` in full mode, factor `-2`, translation `(3,4)`. -/
theorem extract_affine_invariant_witness :
    68 ≤ (levelEyesFace : List (Point2f ℝ)).length ∧ (-2 : ℝ) ≠ 0 ∧
    calculateScale realFns (levelEyesFace : List (Point2f ℝ)) (scaleLandmarkIndices true) ≠ 0 ∧
    extractGeometricFeatures realFns true (affineImage (-2) ⟨3, 4⟩ levelEyesFace)
      = extractGeometricFeatures realFns true (levelEyesFace : List (Point2f ℝ)) := by
  have hL : 68 ≤ (levelEyesFace : List (Point2f ℝ)).length :=
    le_of_eq levelEyesFace_facts.1.symm
  have hs : calculateScale realFns (levelEyesFace : List (Point2f ℝ))
      (scaleLandmarkIndices true) ≠ 0 := by
    apply ne_of_gt
    rw [calculateScale_pos_iff true _ hL]
    refine ⟨0, by simp [scaleLandmarkIndices], 8, by simp [scaleLandmarkIndices], ?_⟩
    simp only [levelEyesFace, getD_three_blocks]
    norm_num
  exact ⟨hL, by norm_num, hs,
    (extract_affine_invariant true levelEyesFace (-2) ⟨3, 4⟩ hL (by norm_num) hs).1⟩

theorem scaled_affineImage (L : List (Point2f ℝ)) (c : ℝ) (t : Point2f ℝ)
    (hne : L.length ≠ 0) (hc : 0 < c) :
    scaled realFns (affineImage c t L) = scaled realFns L := by
  have hscale := procrustesScale_affineImage c t L hne
  rw [abs_of_pos hc] at hscale
  have hcen := centered_affineImage c t L hne
  by_cases hs : 0 < procrustesScale realFns L
  · have hs' : 0 < c * procrustesScale realFns L := mul_pos hc hs
    simp only [scaled, hscale, hcen, gt_iff_lt, hs, hs', if_true, List.map_map,
      Function.comp_def]
    apply List.map_congr_left
    intro p _
    rw [mul_div_mul_left _ _ hc.ne', mul_div_mul_left _ _ hc.ne']
  · have hs' : ¬ 0 < c * procrustesScale realFns L := by
      intro h
      exact hs ((mul_pos_iff_of_pos_left hc).mp h)
    have hz := sumSq_centered_of_scale_not_pos_gen L hne hs
    rw [sumSq_eq_zero_iff] at hz
    simp only [scaled, hscale, hcen, gt_iff_lt, hs, hs', if_false]
    conv_rhs => rw [← List.map_id (centered L)]
    apply List.map_congr_left
    intro p hp
    rw [hz p hp]
    simp

/-- C28. Over exact reals, for every 68-point landmark set `L`, every translation
`t` and every factor `c > 0`,
`procrustesStandardization(c*L + t) = procrustesStandardization(L)`. -/
theorem procrustes_affine_invariant (L : List (Point2f ℝ)) (c : ℝ) (t : Point2f ℝ)
    (h : L.length = 68) (hc : 0 < c) :
    procrustesStandardization realFns (affineImage c t L)
      = procrustesStandardization realFns L := by
  have hlen : (affineImage c t L).length = 68 := by rw [length_affineImage, h]
  rw [procrustes_real_eq _ hlen, procrustes_real_eq L h,
    scaled_affineImage L c t (by omega) hc]

/-- Witness for C28: `levelEyesFace`, factor `2`, translation `(3,4)`. -/
theorem procrustes_affine_invariant_witness :
    (levelEyesFace : List (Point2f ℝ)).length = 68 ∧ (0 : ℝ) < 2 ∧
    procrustesStandardization realFns (affineImage 2 ⟨3, 4⟩ levelEyesFace)
      = procrustesStandardization realFns (levelEyesFace : List (Point2f ℝ)) :=
  ⟨levelEyesFace_facts.1, by norm_num,
    procrustes_affine_invariant levelEyesFace 2 ⟨3, 4⟩ levelEyesFace_facts.1 (by norm_num)⟩

end InvarianceClaims

section Binary32Model

theorem log2Loop_spec (fuel n : Nat) (h : n ≤ fuel) (hn : 0 < n) :
    2 ^ log2Loop fuel n ≤ n ∧ n < 2 ^ (log2Loop fuel n + 1) := by
  induction fuel generalizing n with
  | zero => omega
  | succ fuel ih =>
    unfold log2Loop
    by_cases h2 : 2 ≤ n
    · rw [if_pos h2]
      obtain ⟨h3, h4⟩ := ih (n / 2) (by omega) (by omega)
      rw [pow_succ] at h4
      rw [pow_succ, pow_succ, pow_succ]
      generalize 2 ^ log2Loop fuel (n / 2) = p at h3 h4
      omega
    · rw [if_neg h2]
      simp only [pow_zero, zero_add, pow_one]
      omega

theorem log2_spec (n : Nat) (hn : 0 < n) : 2 ^ log2 n ≤ n ∧ n < 2 ^ (log2 n + 1) :=
  log2Loop_spec n n (le_refl n) hn

theorem isqrtBits_spec (b n r : Nat) (h1 : r * r ≤ n) (h2 : n < (r + 2 ^ b) * (r + 2 ^ b)) :
    isqrtBits b n r * isqrtBits b n r ≤ n ∧
      n < (isqrtBits b n r + 1) * (isqrtBits b n r + 1) := by
  induction b generalizing r with
  | zero =>
    unfold isqrtBits
    rw [pow_zero] at h2
    exact ⟨h1, h2⟩
  | succ b ih =>
    unfold isqrtBits
    by_cases hc : (r + 2 ^ b) * (r + 2 ^ b) ≤ n
    · rw [if_pos hc]
      apply ih (r + 2 ^ b) hc
      have e : r + 2 ^ b + 2 ^ b = r + 2 ^ (b + 1) := by rw [pow_succ]; omega
      rw [e]
      exact h2
    · rw [if_neg hc]
      exact ih r h1 (not_le.mp hc)

/-- The function `isqrt` is the integer square root. -/
theorem isqrt_spec (n : Nat) : isqrt n * isqrt n ≤ n ∧ n < (isqrt n + 1) * (isqrt n + 1) := by
  unfold isqrt
  apply isqrtBits_spec
  · exact Nat.zero_le _
  · rw [Nat.zero_add]
    by_cases hn : n = 0
    · subst hn
      positivity
    · have h1 := (log2_spec n (Nat.pos_of_ne_zero hn)).2
      have h2 : 2 ^ (log2 n + 1) ≤ 2 ^ (log2 n / 2 + 1) * 2 ^ (log2 n / 2 + 1) := by
        rw [← pow_add]
        exact Nat.pow_le_pow_right (by decide) (by omega)
      omega

/-- Sample values of the binary32 model: the literal `0.1f`, a tie rounded to the
even significand, overflow to infinity, underflow to zero, a subnormal, a square
root, division by zero, and the comparisons with NaN. -/
theorem binary32_samples :
    (0.1 : F32) = F32.fin (13421773 / 134217728) ∧
    (16777217 : F32) = F32.fin 16777216 ∧
    (16777219 : F32) = F32.fin 16777220 ∧
    (1e39 : F32) = F32.inf false ∧
    (1e-46 : F32) = 0 ∧
    (1e-45 : F32) = F32.fin (1 / 2 ^ 149) ∧
    F32.sqrt 2 = F32.fin (11863283 / 8388608) ∧
    (1 : F32) / 0 = F32.inf false ∧
    (0 : F32) / 0 = F32.nan ∧
    ¬ (F32.nan < (1 : F32)) ∧ ¬ ((1 : F32) < F32.nan) ∧
    ¬ (F32.nan ≤ (1 : F32)) ∧ ¬ ((1 : F32) ≤ F32.nan) := by
  decide!

theorem calculateDistance_binary32 (atan cos sin : F32 → F32) (p q : Point2f F32) :
    calculateDistance (binary32Fns atan cos sin) p q
      = F32.sqrt ((p.x - q.x) * (p.x - q.x) + (p.y - q.y) * (p.y - q.y)) :=
  rfl

theorem calculateScale_binary32 (atan cos sin : F32 → F32) (L : List (Point2f F32))
    (idxs : List Nat) :
    calculateScale (binary32Fns atan cos sin) L idxs
      = calculateScale (binary32Fns id id id) L idxs :=
  rfl

theorem scaled_binary32 (atan cos sin : F32 → F32) (L : List (Point2f F32)) :
    scaled (binary32Fns atan cos sin) L = scaled (binary32Fns id id id) L :=
  rfl

theorem procrustesScale_binary32 (atan cos sin : F32 → F32) (L : List (Point2f F32)) :
    procrustesScale (binary32Fns atan cos sin) L = procrustesScale (binary32Fns id id id) L :=
  rfl

end Binary32Model

section PairPosition

theorem calculateDistance_real (p q : Point2f ℝ) :
    calculateDistance realFns p q = Real.sqrt ((p.x - q.x) ^ 2 + (p.y - q.y) ^ 2) := by
  have e : (p.x - q.x) * (p.x - q.x) + (p.y - q.y) * (p.y - q.y)
      = (p.x - q.x) ^ 2 + (p.y - q.y) ^ 2 := by ring
  rw [← e]
  rfl

theorem choose_feature_count (b : Bool) :
    (if b then 2278 else 1275) = Nat.choose (if b then 68 else 51) 2 := by
  cases b
  · simp only [Bool.false_eq_true, if_false]; decide
  · simp only [if_true]; decide

/-- C12. For every landmark sequence with at least 68 points and feature-subset
size `k` (51 when full features are off, 68 when on), the output of
`extractGeometricFeatures` has `C(k,2)` elements and, for every pair `i < j < k`,
its element at position `i*k - i*(i+1)/2 + (j - i - 1)` is the Euclidean distance of
landmarks `i` and `j` divided by the scale.  Over exact reals (sequence `L`) the
element is `sqrt((x_i - x_j)^2 + (y_i - y_j)^2) / scale` whenever the scale is not
zero.  In binary32 (sequence `F`) it is the `float` quotient of the correctly
rounded square root of the rounded sum of the rounded squares by the scale,
whatever the scale is: a zero scale gives NaN or an infinity. -/
theorem extract_pair_position (b : Bool) (k : Nat) (hk : k = if b then 68 else 51)
    (i j : Nat) (hij : i < j) (hj : j < k)
    (L : List (Point2f ℝ)) (h : 68 ≤ L.length)
    (atan cos sin : F32 → F32) (F : List (Point2f F32)) (hF : 68 ≤ F.length) :
    ((extractGeometricFeatures realFns b L).length = Nat.choose k 2 ∧
      (calculateScale realFns L (scaleLandmarkIndices b) ≠ 0 →
        (extractGeometricFeatures realFns b L)[i * k - i * (i + 1) / 2 + (j - i - 1)]? =
          some (Real.sqrt (((L.getD i ⟨0, 0⟩).x - (L.getD j ⟨0, 0⟩).x) ^ 2
              + ((L.getD i ⟨0, 0⟩).y - (L.getD j ⟨0, 0⟩).y) ^ 2)
            / calculateScale realFns L (scaleLandmarkIndices b)))) ∧
    ((extractGeometricFeatures (binary32Fns atan cos sin) b F).length = Nat.choose k 2 ∧
      (extractGeometricFeatures (binary32Fns atan cos sin) b F)[
          i * k - i * (i + 1) / 2 + (j - i - 1)]? =
        some (F32.sqrt
            (((F.getD i ⟨0, 0⟩).x - (F.getD j ⟨0, 0⟩).x)
                * ((F.getD i ⟨0, 0⟩).x - (F.getD j ⟨0, 0⟩).x)
              + ((F.getD i ⟨0, 0⟩).y - (F.getD j ⟨0, 0⟩).y)
                * ((F.getD i ⟨0, 0⟩).y - (F.getD j ⟨0, 0⟩).y))
          / calculateScale (binary32Fns atan cos sin) F (scaleLandmarkIndices b))) := by
  subst hk
  refine ⟨⟨?_, fun _ => ?_⟩, ?_, ?_⟩
  · rw [length_extract_of_ge realFns b L h]
    exact choose_feature_count b
  · rw [extract_eq_pairFeatures realFns b L h, pairFeatures_getElem? realFns L _ _ i j hij hj,
      calculateDistance_real]
  · rw [length_extract_of_ge (binary32Fns atan cos sin) b F hF]
    exact choose_feature_count b
  · rw [extract_eq_pairFeatures (binary32Fns atan cos sin) b F hF,
      pairFeatures_getElem? (binary32Fns atan cos sin) F _ _ i j hij hj,
      calculateDistance_binary32]

theorem levelEyesFace_float_length : (levelEyesFace : List (Point2f F32)).length = 68 := by
  decide

/-- Witness for C12: reduced mode, the pair `(1, 8)` at position
`1*51 - 1 + 6 = 56`, on `levelEyesFace` over the reals (non-zero scale) and on the
same set in binary32. -/
theorem extract_pair_position_witness :
    (51 = if false then 68 else 51) ∧ 1 < 8 ∧ 8 < 51 ∧
    68 ≤ (levelEyesFace : List (Point2f ℝ)).length ∧
    68 ≤ (levelEyesFace : List (Point2f F32)).length ∧
    calculateScale realFns (levelEyesFace : List (Point2f ℝ)) (scaleLandmarkIndices false) ≠ 0 ∧
    (extractGeometricFeatures realFns false (levelEyesFace : List (Point2f ℝ)))[
        1 * 51 - 1 * (1 + 1) / 2 + (8 - 1 - 1)]? =
      some (Real.sqrt
          ((((levelEyesFace : List (Point2f ℝ)).getD 1 ⟨0, 0⟩).x
              - ((levelEyesFace : List (Point2f ℝ)).getD 8 ⟨0, 0⟩).x) ^ 2
            + (((levelEyesFace : List (Point2f ℝ)).getD 1 ⟨0, 0⟩).y
              - ((levelEyesFace : List (Point2f ℝ)).getD 8 ⟨0, 0⟩).y) ^ 2)
        / calculateScale realFns levelEyesFace (scaleLandmarkIndices false)) ∧
    (extractGeometricFeatures (binary32Fns id id id) false
        (levelEyesFace : List (Point2f F32))).length = Nat.choose 51 2 ∧
    (extractGeometricFeatures (binary32Fns id id id) false
        (levelEyesFace : List (Point2f F32)))[1 * 51 - 1 * (1 + 1) / 2 + (8 - 1 - 1)]? =
      some (F32.sqrt
          ((((levelEyesFace : List (Point2f F32)).getD 1 ⟨0, 0⟩).x
                - ((levelEyesFace : List (Point2f F32)).getD 8 ⟨0, 0⟩).x)
              * (((levelEyesFace : List (Point2f F32)).getD 1 ⟨0, 0⟩).x
                - ((levelEyesFace : List (Point2f F32)).getD 8 ⟨0, 0⟩).x)
            + (((levelEyesFace : List (Point2f F32)).getD 1 ⟨0, 0⟩).y
                - ((levelEyesFace : List (Point2f F32)).getD 8 ⟨0, 0⟩).y)
              * (((levelEyesFace : List (Point2f F32)).getD 1 ⟨0, 0⟩).y
                - ((levelEyesFace : List (Point2f F32)).getD 8 ⟨0, 0⟩).y))
        / calculateScale (binary32Fns id id id) (levelEyesFace : List (Point2f F32))
            (scaleLandmarkIndices false)) := by
  have hL : 68 ≤ (levelEyesFace : List (Point2f ℝ)).length :=
    le_of_eq levelEyesFace_facts.1.symm
  have hF : 68 ≤ (levelEyesFace : List (Point2f F32)).length :=
    le_of_eq levelEyesFace_float_length.symm
  have hs : calculateScale realFns (levelEyesFace : List (Point2f ℝ))
      (scaleLandmarkIndices false) ≠ 0 := by
    apply ne_of_gt
    rw [calculateScale_pos_iff false _ hL]
    refine ⟨17, by simp [scaleLandmarkIndices], 42, by simp [scaleLandmarkIndices], ?_⟩
    simp only [levelEyesFace, getD_three_blocks]
    norm_num
  have hT := extract_pair_position false 51 (by decide) 1 8 (by decide) (by decide)
    levelEyesFace hL id id id levelEyesFace hF
  exact ⟨by decide, by decide, by decide, hL, hF, hs, hT.1.2 hs, hT.2.1, hT.2.2⟩

end PairPosition


section Binary32Facts

theorem tenthFace_length : tenthFace.length = 68 := by
  decide

theorem tenthFace_coincident : ∀ p ∈ tenthFace, ∀ q ∈ tenthFace, p = q := by
  intro p hp q hq
  rw [tenthFace] at hp hq
  rw [List.eq_of_mem_replicate hp, List.eq_of_mem_replicate hq]

theorem tenthFace_centroid :
    centroid tenthFace
      = ⟨F32.fin (13421765 / 134217728), F32.fin (13421765 / 134217728)⟩ := by
  decide!

theorem tenthFace_procrustesScale :
    procrustesScale (binary32Fns id id id) tenthFace
      = F32.fin (11863283 / 140737488355328) := by
  decide!

theorem tenthFace_scaled :
    scaled (binary32Fns id id id) tenthFace
      = List.replicate 68 ⟨F32.fin (11863283 / 16777216), F32.fin (11863283 / 16777216)⟩ := by
  decide!

theorem tenthFace_eyeDx :
    eyeDx (List.replicate 68
      (⟨F32.fin (11863283 / 16777216), F32.fin (11863283 / 16777216)⟩ : Point2f F32)) = 0 := by
  decide!

theorem tenthFace_procrustes (atan cos sin : F32 → F32) :
    procrustesStandardization (binary32Fns atan cos sin) tenthFace
      = List.replicate 68 ⟨F32.fin (11863283 / 16777216), F32.fin (11863283 / 16777216)⟩ := by
  unfold procrustesStandardization
  rw [if_neg (not_not.mpr tenthFace_length)]
  simp only []
  rw [scaled_binary32, tenthFace_scaled, if_neg (not_not.mpr tenthFace_eyeDx)]

theorem tenthFace_calculateScale :
    calculateScale (binary32Fns id id id) tenthFace (scaleLandmarkIndices false)
      = F32.fin (10380373 / 140737488355328) ∧
    calculateScale (binary32Fns id id id) tenthFace (scaleLandmarkIndices true)
      = F32.fin (11863283 / 140737488355328) := by
  decide!

theorem tinyGapFace_length : tinyGapFace.length = 68 := by
  decide

theorem tinyGapFace_calculateScale :
    calculateScale (binary32Fns id id id) tinyGapFace (scaleLandmarkIndices false) = 0 ∧
    calculateScale (binary32Fns id id id) tinyGapFace (scaleLandmarkIndices true) = 0 := by
  decide!

theorem tinyGapFace_quotient :
    F32.sqrt
        (((tinyGapFace.getD 17 ⟨0, 0⟩).x - (tinyGapFace.getD 18 ⟨0, 0⟩).x)
            * ((tinyGapFace.getD 17 ⟨0, 0⟩).x - (tinyGapFace.getD 18 ⟨0, 0⟩).x)
          + ((tinyGapFace.getD 17 ⟨0, 0⟩).y - (tinyGapFace.getD 18 ⟨0, 0⟩).y)
            * ((tinyGapFace.getD 17 ⟨0, 0⟩).y - (tinyGapFace.getD 18 ⟨0, 0⟩).y))
      / calculateScale (binary32Fns id id id) tinyGapFace (scaleLandmarkIndices false)
      = F32.nan := by
  decide!

/-- In binary32 `normalizeLandmarks` can leave the square `[-1,1] x [-1,1]`: on
`[(488.8f, 0), (163.2f, 0)]` the second point gets `x = -8388609/8388608`, which is
below `-1`. -/
theorem normalize_float_overshoot :
    normalizeLandmarks widePair = [⟨1, 0⟩, ⟨F32.fin (-8388609 / 8388608), 0⟩] ∧
    F32.fin (-8388609 / 8388608) < (-1 : F32) ∧
    ¬ ((-1 : F32) ≤ F32.fin (-8388609 / 8388608)) := by
  decide!

theorem length_frontalize_float (m : MathFns F32) (W : List F32) (L : List (Point2f F32))
    (h : L.length = 68) : (frontalizeLandmarks m W L).length = 68 := by
  unfold frontalizeLandmarks
  by_cases hc : L.length ≠ 68 ∨ W = []
  · rw [if_pos hc]; exact h
  · rw [if_neg hc]
    simp only [List.length_map, List.length_range]

theorem analyze_float_of_prediction (m : MathFns F32) (M_PI : F32) (round : F32 → F32)
    (W : List F32) (b : Bool) (predict : List F32 → List F32) (raw : List (Point2f F32))
    (h1 : raw.length = 68)
    (h3 : 2 ≤ (predict (extractGeometricFeatures m b (frontalizeLandmarks m W raw))).length) :
    analyzeEmotion m M_PI round W b predict raw =
      let p := predict (extractGeometricFeatures m b (frontalizeLandmarks m W raw))
      let arousal := applyLimits (p.getD 0 0)
      let valence := applyLimits (p.getD 1 0)
      let s := m.sqrt (valence * valence + arousal * arousal)
      let intensity := round ((if s > 1 then 1 else if s < 0 then 0 else s) * 1000) / 1000
      { arousal := arousal, valence := valence, intensity := intensity,
        emotion_name := aviToEmotionName m M_PI arousal valence intensity } := by
  unfold analyzeEmotion
  have e1 : raw.isEmpty = false := by
    cases raw with
    | nil => simp at h1
    | cons _ _ => rfl
  have e2 : (extractGeometricFeatures m b (frontalizeLandmarks m W raw)).isEmpty = false := by
    have hlen := length_extract_of_ge m b (frontalizeLandmarks m W raw)
      (le_of_eq (length_frontalize_float m W raw h1).symm)
    cases hf : extractGeometricFeatures m b (frontalizeLandmarks m W raw) with
    | nil =>
      rw [hf] at hlen
      cases b <;> simp at hlen
    | cons _ _ => rfl
  simp only [e1, e2, Bool.false_eq_true, if_false]
  rw [if_pos h3]

theorem applyLimits_nan :
    applyLimits F32.nan = F32.nan ∧
    ¬ ((-1 : F32) ≤ F32.nan ∧ F32.nan ≤ (1 : F32)) ∧
    F32.sqrt (F32.nan * F32.nan + F32.nan * F32.nan) = F32.nan ∧
    (if F32.nan > (1 : F32) then (1 : F32) else if F32.nan < (0 : F32) then 0 else F32.nan)
        * 1000 = F32.nan ∧
    ¬ ((0 : F32) ≤ F32.nan ∧ F32.nan ≤ (1 : F32)) ∧
    F32.nan / 1000 = F32.nan := by
  decide!

end Binary32Facts

section Binary32Claims

/-- C23, as stated, fails in binary32.  The 68 points of `tenthFace` all coincide at
`(0.1f, 0.1f)`, but the accumulated `float` mean is `13421765/2^27`, not `0.1f`
(which is `13421773/2^27`), so the centred points are not zero, the scale
`11863283/2^47` is positive, the scaling step is not skipped, and the output is 68
copies of `(11863283/2^24, 11863283/2^24)`, about `(0.7071, 0.7071)`, not the
origin.  The rotation is skipped (`dx = 0`), so `atan`, `cos`, `sin` play no part. -/
theorem coincident_float_not_origin :
    tenthFace.length = 68 ∧
    (∀ p ∈ tenthFace, ∀ q ∈ tenthFace, p = q) ∧
    centroid tenthFace
      = ⟨F32.fin (13421765 / 134217728), F32.fin (13421765 / 134217728)⟩ ∧
    ∀ atan cos sin : F32 → F32,
      procrustesScale (binary32Fns atan cos sin) tenthFace
        = F32.fin (11863283 / 140737488355328) ∧
      0 < procrustesScale (binary32Fns atan cos sin) tenthFace ∧
      scaled (binary32Fns atan cos sin) tenthFace ≠ centered tenthFace ∧
      procrustesStandardization (binary32Fns atan cos sin) tenthFace
        = List.replicate 68 ⟨F32.fin (11863283 / 16777216), F32.fin (11863283 / 16777216)⟩ ∧
      procrustesStandardization (binary32Fns atan cos sin) tenthFace
        ≠ List.replicate 68 ⟨0, 0⟩ ∧
      (∀ p ∈ procrustesStandardization (binary32Fns atan cos sin) tenthFace,
        p ≠ ⟨0, 0⟩) := by
  have hpos : (0 : F32) < F32.fin (11863283 / 140737488355328) := by decide!
  have hsc : List.replicate 68
      (⟨F32.fin (11863283 / 16777216), F32.fin (11863283 / 16777216)⟩ : Point2f F32)
        ≠ centered tenthFace := by decide!
  have hne : List.replicate 68
      (⟨F32.fin (11863283 / 16777216), F32.fin (11863283 / 16777216)⟩ : Point2f F32)
        ≠ List.replicate 68 ⟨0, 0⟩ := by decide!
  have hp : (⟨F32.fin (11863283 / 16777216), F32.fin (11863283 / 16777216)⟩ : Point2f F32)
      ≠ ⟨0, 0⟩ := by decide!
  refine ⟨tenthFace_length, tenthFace_coincident, tenthFace_centroid, ?_⟩
  intro atan cos sin
  rw [tenthFace_procrustes, procrustesScale_binary32, tenthFace_procrustesScale,
    scaled_binary32, tenthFace_scaled]
  refine ⟨rfl, hpos, hsc, rfl, hne, ?_⟩
  intro p hp'
  rw [List.eq_of_mem_replicate hp']
  exact hp

/-- C26, as stated, fails in binary32 in both directions.  On `tenthFace` all
landmarks of the scale subset coincide, yet the scale is `10380373/2^47` (about
`7.4e-08`), not `0`.  On `tinyGapFace` landmarks 17 and 18 of the scale subset
differ, yet the squared distances underflow and the scale is `0`; the feature of
the pair `(17, 18)` is then `0 / 0`, which is NaN. -/
theorem scale_float_not_zero_iff :
    68 ≤ tenthFace.length ∧
    (∀ i ∈ scaleLandmarkIndices false, ∀ j ∈ scaleLandmarkIndices false,
      tenthFace.getD i ⟨0, 0⟩ = tenthFace.getD j ⟨0, 0⟩) ∧
    68 ≤ tinyGapFace.length ∧
    17 ∈ scaleLandmarkIndices false ∧ 18 ∈ scaleLandmarkIndices false ∧
    tinyGapFace.getD 17 ⟨0, 0⟩ ≠ tinyGapFace.getD 18 ⟨0, 0⟩ ∧
    ∀ atan cos sin : F32 → F32,
      calculateScale (binary32Fns atan cos sin) tenthFace (scaleLandmarkIndices false)
        = F32.fin (10380373 / 140737488355328) ∧
      calculateScale (binary32Fns atan cos sin) tenthFace (scaleLandmarkIndices false) ≠ 0 ∧
      calculateScale (binary32Fns atan cos sin) tinyGapFace (scaleLandmarkIndices false) = 0 ∧
      (extractGeometricFeatures (binary32Fns atan cos sin) false tinyGapFace)[
          17 * 51 - 17 * (17 + 1) / 2 + (18 - 17 - 1)]? = some F32.nan := by
  have hall : ∀ i ∈ scaleLandmarkIndices false, ∀ j ∈ scaleLandmarkIndices false,
      tenthFace.getD i ⟨0, 0⟩ = tenthFace.getD j ⟨0, 0⟩ := by decide!
  have hne : F32.fin (10380373 / 140737488355328) ≠ (0 : F32) := by decide!
  have hdiff : tinyGapFace.getD 17 ⟨0, 0⟩ ≠ tinyGapFace.getD 18 ⟨0, 0⟩ := by decide!
  have hT : 68 ≤ tenthFace.length := le_of_eq tenthFace_length.symm
  have hG : 68 ≤ tinyGapFace.length := le_of_eq tinyGapFace_length.symm
  refine ⟨hT, hall, hG, by decide, by decide, hdiff, ?_⟩
  intro atan cos sin
  have hfeat : (extractGeometricFeatures (binary32Fns atan cos sin) false tinyGapFace)[
      17 * 51 - 17 * (17 + 1) / 2 + (18 - 17 - 1)]? = some F32.nan := by
    have h1 := extract_eq_pairFeatures (binary32Fns atan cos sin) false tinyGapFace hG
    simp only [Bool.false_eq_true, if_false] at h1
    rw [h1, pairFeatures_getElem? (binary32Fns atan cos sin) tinyGapFace 51 _ 17 18
        (by decide) (by decide),
      calculateDistance_binary32, calculateScale_binary32, tinyGapFace_quotient]
  rw [calculateScale_binary32 atan cos sin tenthFace, tenthFace_calculateScale.1,
    calculateScale_binary32 atan cos sin tinyGapFace, tinyGapFace_calculateScale.1]
  exact ⟨rfl, hne, rfl, hfeat⟩

/-- C21, as stated, fails for a prediction that holds NaN.  Both tests of lines
262-266, `> 1.0f` and `< -1.0f`, are false for NaN, so on the detection
`levelEyesFace` with the prediction `(NaN, NaN)` the result has arousal NaN and
valence NaN, neither of which lies in `[-1, 1]`, and the intensity is
`round(NaN) / 1000`; this holds for every frontalization matrix, both feature
modes and every `atan`, `cos`, `sin`, `round` and `M_PI`. -/
theorem analyze_nan_prediction_unclamped :
    (levelEyesFace : List (Point2f F32)) ≠ [] ∧
    2 ≤ ([F32.nan, F32.nan] : List F32).length ∧
    ∀ (atan cos sin : F32 → F32) (M_PI : F32) (round : F32 → F32) (W : List F32) (b : Bool),
      (analyzeEmotion (binary32Fns atan cos sin) M_PI round W b
        (fun _ => [F32.nan, F32.nan]) levelEyesFace).arousal = F32.nan ∧
      (analyzeEmotion (binary32Fns atan cos sin) M_PI round W b
        (fun _ => [F32.nan, F32.nan]) levelEyesFace).valence = F32.nan ∧
      (analyzeEmotion (binary32Fns atan cos sin) M_PI round W b
        (fun _ => [F32.nan, F32.nan]) levelEyesFace).intensity = round F32.nan / 1000 ∧
      ¬ ((-1 : F32) ≤ (analyzeEmotion (binary32Fns atan cos sin) M_PI round W b
            (fun _ => [F32.nan, F32.nan]) levelEyesFace).arousal ∧
          (analyzeEmotion (binary32Fns atan cos sin) M_PI round W b
            (fun _ => [F32.nan, F32.nan]) levelEyesFace).arousal ≤ (1 : F32)) ∧
      ¬ ((-1 : F32) ≤ (analyzeEmotion (binary32Fns atan cos sin) M_PI round W b
            (fun _ => [F32.nan, F32.nan]) levelEyesFace).valence ∧
          (analyzeEmotion (binary32Fns atan cos sin) M_PI round W b
            (fun _ => [F32.nan, F32.nan]) levelEyesFace).valence ≤ (1 : F32)) := by
  have hne : (levelEyesFace : List (Point2f F32)) ≠ [] := by decide
  refine ⟨hne, by decide, ?_⟩
  intro atan cos sin M_PI round W b
  have hA := analyze_float_of_prediction (binary32Fns atan cos sin) M_PI round W b
    (fun _ => [F32.nan, F32.nan]) levelEyesFace levelEyesFace_float_length (le_refl 2)
  obtain ⟨hlim, hout, hsqrt, hclamp, -, -⟩ := applyLimits_nan
  have ha : (analyzeEmotion (binary32Fns atan cos sin) M_PI round W b
      (fun _ => [F32.nan, F32.nan]) levelEyesFace).arousal = F32.nan := by
    rw [hA]
    exact hlim
  have hv : (analyzeEmotion (binary32Fns atan cos sin) M_PI round W b
      (fun _ => [F32.nan, F32.nan]) levelEyesFace).valence = F32.nan := by
    rw [hA]
    exact hlim
  have hi : (analyzeEmotion (binary32Fns atan cos sin) M_PI round W b
      (fun _ => [F32.nan, F32.nan]) levelEyesFace).intensity = round F32.nan / 1000 := by
    rw [hA]
    show round ((if (binary32Fns atan cos sin).sqrt
          (applyLimits F32.nan * applyLimits F32.nan
            + applyLimits F32.nan * applyLimits F32.nan) > 1 then 1
        else if (binary32Fns atan cos sin).sqrt
          (applyLimits F32.nan * applyLimits F32.nan
            + applyLimits F32.nan * applyLimits F32.nan) < 0 then 0
        else (binary32Fns atan cos sin).sqrt
          (applyLimits F32.nan * applyLimits F32.nan
            + applyLimits F32.nan * applyLimits F32.nan)) * 1000) / 1000
      = round F32.nan / 1000
    rw [hlim]
    show round ((if F32.sqrt (F32.nan * F32.nan + F32.nan * F32.nan) > 1 then 1
        else if F32.sqrt (F32.nan * F32.nan + F32.nan * F32.nan) < 0 then 0
        else F32.sqrt (F32.nan * F32.nan + F32.nan * F32.nan)) * 1000) / 1000
      = round F32.nan / 1000
    rw [hsqrt, hclamp]
  rw [ha, hv, hi]
  exact ⟨rfl, rfl, rfl, hout, hout⟩

end Binary32Claims

section Binary32Labels

/-- In binary32 the thresholds of `intensityQualifier` are the `float` literals
`0.325f`, `0.55f`, `0.775f`, and the comparisons are strict: an intensity equal to
a threshold takes the next qualifier. -/
theorem intensityQualifier_float_boundary :
    intensityQualifier (0.325 : F32) = "Moderately" ∧
    intensityQualifier (0.55 : F32) = "Very" ∧
    intensityQualifier (0.775 : F32) = "Extremely" ∧
    intensityQualifier (0.1 : F32) = "Slightly" := by
  decide!

end Binary32Labels

end EmotionAnalyzer
